import Mathlib

/-!
# mod_conf_sql: descriptor parser, tree materializer and virtual file session

A shallow embedding of `mod_conf_sql.c`.

* C strings (`const char *`) are `CStr = Option (List Char)`; `none` is `NULL`.
* The URI buffer returned by `pstrdup` is a `List Char` holding the bytes before
  the terminator; the terminator sits at index `buf.length`.  Pointers into the
  buffer are indices.  A read or write beyond the terminator is a `fault`.
* Functions that return an `int` and change the module state return
  `Run σ`: the return code with the state left behind, a `fault`
  (invalid memory access), or `nofuel` (recursion budget of the model used up).
-/

namespace ModConfSql

/-- A `const char *`: `none` is the null pointer. -/
abbrev CStr := Option (List Char)

/-- The string terminator. -/
def NUL : Char := Char.ofNat 0

/-- Outcome of running a C function of the module on a state. -/
inductive Run (σ : Type) where
  | ret (code : Int) (s : σ)
  | fault
  | nofuel
  deriving Repr, DecidableEq

/-- The return code of a run that returned. -/
def Run.code? {σ : Type} : Run σ → Option Int
  | .ret code _ => some code
  | _ => none

/-- The state left by a run that returned. -/
def Run.state? {σ : Type} : Run σ → Option σ
  | .ret _ s => some s
  | _ => none

/-! ## Module globals -/

/-- The global `sqlconf_db`. -/
structure Db where
  user : CStr := none
  pass : CStr := none
  server : CStr := none
  database : CStr := none
  deriving Repr, DecidableEq

/-- The global `sqlconf_ctxs`. -/
structure Ctxs where
  tab : CStr := none
  id : CStr := none
  parent_id : CStr := none
  key : CStr := none
  value : CStr := none
  «where» : CStr := none
  base_id : CStr := none
  deriving Repr, DecidableEq

/-- The global `sqlconf_confs`. -/
structure Confs where
  tab : CStr := none
  id : CStr := none
  key : CStr := none
  value : CStr := none
  «where» : CStr := none
  deriving Repr, DecidableEq

/-- The global `sqlconf_maps`. -/
structure Maps where
  tab : CStr := none
  conf_id : CStr := none
  ctx_id : CStr := none
  «where» : CStr := none
  deriving Repr, DecidableEq

/-- All file-scope variables of the module.  `sqlconf_conf` is the array of
rendered lines (`none` while the pointer is `NULL`), `sqlconf_confi` the read
cursor. -/
structure Globals where
  sqlconf_db : Db := {}
  sqlconf_ctxs : Ctxs := {}
  sqlconf_confs : Confs := {}
  sqlconf_maps : Maps := {}
  sqlconf_conf : Option (List (List Char)) := none
  sqlconf_confi : Nat := 0
  deriving Repr, DecidableEq

/-- The state of the module when it has just been loaded: static storage is
zero-initialised. -/
def Globals.fresh : Globals := {}

def SQLCONF_DEFAULT_CONF_ID_NAME : List Char := "conf_id".toList
def SQLCONF_DEFAULT_CTXT_ID_NAME : List Char := "ctx_id".toList
def SQLCONF_DEFAULT_ID_NAME : List Char := "id".toList
def SQLCONF_DEFAULT_KEY_NAME : List Char := "key".toList
def SQLCONF_DEFAULT_PARENT_ID_NAME : List Char := "parent_id".toList
def SQLCONF_DEFAULT_VALUE_NAME : List Char := "value".toList

/-! ## C string primitives on the URI buffer -/

/-- Offset of the first `c` in a byte sequence, stopping at the terminator. -/
def scan (c : Char) : List Char → Option Nat
  | [] => none
  | x :: xs =>
    if x = c then some 0
    else if x = NUL then none
    else (scan c xs).map Nat.succ

/-- The bytes of a sequence before its first terminator. -/
def untilNul : List Char → List Char
  | [] => []
  | x :: xs => if x = NUL then [] else x :: untilNul xs

/-- The C string that starts at index `i` of the buffer (what `pstrdup`,
`strcmp` and `strlen` see there); `none` when `i` lies beyond the terminator. -/
def cstrAt (buf : List Char) (i : Nat) : Option (List Char) :=
  if i ≤ buf.length then some (untilNul (buf.drop i)) else none

/-- The call `strchr(buf + i, c)` for `c` other than the terminator: the outer
`none` is a read beyond the terminator, the inner `none` is `NULL`. -/
def strchr (buf : List Char) (i : Nat) (c : Char) : Option (Option Nat) :=
  if i ≤ buf.length then some ((scan c (buf.drop i)).map (fun k => i + k)) else none

/-- The test `strncmp(buf + i, lit, strlen(lit)) == 0`. -/
def strncmpEq (buf : List Char) (i : Nat) (lit : List Char) : Option Bool :=
  (cstrAt buf i).map (fun s => decide (s.take lit.length = lit))

/-- The test `strcmp(buf + i, lit) == 0`. -/
def strcmpEq (buf : List Char) (i : Nat) (lit : List Char) : Option Bool :=
  (cstrAt buf i).map (fun s => decide (s = lit))

/-- The store `buf[i] = 0`. -/
def poke (buf : List Char) (i : Nat) : List Char := buf.set i NUL

/-- The parser state: the globals, the URI buffer and the cursor `*uri`. -/
structure PState where
  g : Globals
  buf : List Char
  uri : Nat
  deriving Repr, DecidableEq

/-- Continue with the value of a memory read, or stop with a fault. -/
def orFault {α σ : Type} (o : Option α) (k : α → Run σ) : Run σ :=
  match o with
  | none => .fault
  | some a => k a

/-! ## URI parsing routines -/

/-- The function `sqlconf_parse_uri_db`. -/
def sqlconf_parse_uri_db (s : PState) : Run PState :=
  match strchr s.buf s.uri ':' with
  | none => .fault
  | some none => .ret (-1) s
  | some (some ptr) =>
  let buf := poke s.buf ptr
  orFault (cstrAt buf s.uri) fun user =>
  let db := { s.g.sqlconf_db with user := some user }
  let uri := ptr + 1
  match strchr buf uri '@' with
  | none => .fault
  | some none => .ret (-1) ⟨{ s.g with sqlconf_db := db }, buf, uri⟩
  | some (some ptr) =>
  let buf := poke buf ptr
  orFault (cstrAt buf uri) fun pass =>
  let db := { db with pass := some pass }
  let uri := ptr + 1
  match strchr buf uri '?' with
  | none => .fault
  | some none =>
    orFault (cstrAt buf uri) fun server =>
    .ret 0 ⟨{ s.g with sqlconf_db := { db with server := some server } }, buf, uri⟩
  | some (some ptr) =>
  let buf := poke buf ptr
  orFault (cstrAt buf uri) fun server =>
  let db := { db with server := some server }
  let uri := ptr + 1
  match strchr buf uri '=' with
  | none => .fault
  | some none => .ret (-1) ⟨{ s.g with sqlconf_db := db }, buf, uri⟩
  | some (some ptr) =>
  let buf := poke buf ptr
  orFault (strcmpEq buf uri "db".toList) fun isDb =>
  if !isDb then .ret (-1) ⟨{ s.g with sqlconf_db := db }, buf, uri⟩ else
  let uri := ptr + 1
  match strchr buf uri '/' with
  | none => .fault
  | some none => .ret (-1) ⟨{ s.g with sqlconf_db := db }, buf, uri⟩
  | some (some ptr) =>
  let buf := poke buf ptr
  orFault (cstrAt buf uri) fun database =>
  .ret 0 ⟨{ s.g with sqlconf_db := { db with database := some database } }, buf, ptr + 1⟩

/-- The function `sqlconf_parse_uri_ctx`.  The tag test compares four bytes and
the cursor is then moved by five. -/
def sqlconf_parse_uri_ctx (s : PState) : Run PState :=
  orFault (strncmpEq s.buf s.uri "ctx:".toList) fun isTag =>
  if !isTag then .ret (-1) s else
  let uri := s.uri + 5
  match strchr s.buf uri '/' with
  | none => .fault
  | some none => .ret (-1) ⟨s.g, s.buf, uri⟩
  | some (some tmp) =>
  let c := { s.g.sqlconf_ctxs with
    id := some SQLCONF_DEFAULT_ID_NAME, parent_id := some SQLCONF_DEFAULT_PARENT_ID_NAME,
    key := some SQLCONF_DEFAULT_KEY_NAME, value := some SQLCONF_DEFAULT_VALUE_NAME,
    «where» := none }
  let buf := poke s.buf tmp
  match strchr buf uri ':' with
  | none => .fault
  | some none =>
    orFault (cstrAt buf uri) fun tab =>
    .ret 0 ⟨{ s.g with sqlconf_ctxs := { c with tab := some tab } }, buf, tmp + 1⟩
  | some (some tmp2) =>
  let buf := poke buf tmp2
  orFault (cstrAt buf uri) fun tab =>
  let c := { c with tab := some tab }
  let uri := tmp2 + 1
  match strchr buf uri ',' with
  | none => .fault
  | some none =>
    (match strchr buf uri '=' with
    | none => .fault
    | some none => .ret (-1) ⟨{ s.g with sqlconf_ctxs := c }, buf, uri⟩
    | some (some tmp2) =>
      let buf := poke buf tmp2
      orFault (strcmpEq buf uri "where".toList) fun isWhere =>
      if isWhere then
        let uri := tmp2 + 1
        orFault (cstrAt buf uri) fun w =>
        .ret 0 ⟨{ s.g with sqlconf_ctxs := { c with «where» := some w } }, buf, tmp + 1⟩
      else .ret (-1) ⟨{ s.g with sqlconf_ctxs := c }, buf, uri⟩)
  | some (some tmp2) =>
  let buf := poke buf tmp2
  orFault (cstrAt buf uri) fun id =>
  let c := { c with id := some id }
  let uri := tmp2 + 1
  match strchr buf uri ',' with
  | none => .fault
  | some none => .ret (-1) ⟨{ s.g with sqlconf_ctxs := c }, buf, uri⟩
  | some (some tmp2) =>
  let buf := poke buf tmp2
  orFault (cstrAt buf uri) fun parent_id =>
  let c := { c with parent_id := some parent_id }
  let uri := tmp2 + 1
  match strchr buf uri ',' with
  | none => .fault
  | some none => .ret (-1) ⟨{ s.g with sqlconf_ctxs := c }, buf, uri⟩
  | some (some tmp2) =>
  let buf := poke buf tmp2
  orFault (cstrAt buf uri) fun key =>
  let c := { c with key := some key }
  let uri := tmp2 + 1
  match strchr buf uri ':' with
  | none => .fault
  | some none =>
    orFault (cstrAt buf uri) fun value =>
    .ret 0 ⟨{ s.g with sqlconf_ctxs := { c with value := some value } }, buf, tmp + 1⟩
  | some (some tmp2) =>
  let buf := poke buf tmp2
  orFault (cstrAt buf uri) fun value =>
  let c := { c with value := some value }
  let uri := tmp2 + 1
  orFault (strncmpEq buf uri "where=".toList) fun isWhere =>
  if isWhere then
    let uri := uri + 6
    orFault (cstrAt buf uri) fun w =>
    .ret 0 ⟨{ s.g with sqlconf_ctxs := { c with «where» := some w } }, buf, tmp + 1⟩
  else .ret (-1) ⟨{ s.g with sqlconf_ctxs := c }, buf, uri⟩

/-- The function `sqlconf_parse_uri_conf`. -/
def sqlconf_parse_uri_conf (s : PState) : Run PState :=
  orFault (strncmpEq s.buf s.uri "conf:".toList) fun isTag =>
  if !isTag then .ret (-1) s else
  let uri := s.uri + 5
  match strchr s.buf uri '/' with
  | none => .fault
  | some none => .ret (-1) ⟨s.g, s.buf, uri⟩
  | some (some tmp) =>
  let c := { s.g.sqlconf_confs with
    id := some SQLCONF_DEFAULT_ID_NAME, key := some SQLCONF_DEFAULT_KEY_NAME,
    value := some SQLCONF_DEFAULT_VALUE_NAME, «where» := none }
  let buf := poke s.buf tmp
  match strchr buf uri ':' with
  | none => .fault
  | some none =>
    orFault (cstrAt buf uri) fun tab =>
    .ret 0 ⟨{ s.g with sqlconf_confs := { c with tab := some tab } }, buf, tmp + 1⟩
  | some (some tmp2) =>
  let buf := poke buf tmp2
  orFault (cstrAt buf uri) fun tab =>
  let c := { c with tab := some tab }
  let uri := tmp2 + 1
  match strchr buf uri ',' with
  | none => .fault
  | some none =>
    (match strchr buf uri '=' with
    | none => .fault
    | some none => .ret (-1) ⟨{ s.g with sqlconf_confs := c }, buf, uri⟩
    | some (some tmp2) =>
      let buf := poke buf tmp2
      orFault (strcmpEq buf uri "where".toList) fun isWhere =>
      if isWhere then
        let uri := tmp2 + 1
        orFault (cstrAt buf uri) fun w =>
        .ret 0 ⟨{ s.g with sqlconf_confs := { c with «where» := some w } }, buf, tmp + 1⟩
      else .ret (-1) ⟨{ s.g with sqlconf_confs := c }, buf, uri⟩)
  | some (some tmp2) =>
  let buf := poke buf tmp2
  orFault (cstrAt buf uri) fun id =>
  let c := { c with id := some id }
  let uri := tmp2 + 1
  match strchr buf uri ',' with
  | none => .fault
  | some none => .ret (-1) ⟨{ s.g with sqlconf_confs := c }, buf, uri⟩
  | some (some tmp2) =>
  let buf := poke buf tmp2
  orFault (cstrAt buf uri) fun key =>
  let c := { c with key := some key }
  let uri := tmp2 + 1
  match strchr buf uri ':' with
  | none => .fault
  | some none =>
    orFault (cstrAt buf uri) fun value =>
    .ret 0 ⟨{ s.g with sqlconf_confs := { c with value := some value } }, buf, tmp + 1⟩
  | some (some tmp2) =>
  let buf := poke buf tmp2
  orFault (cstrAt buf uri) fun value =>
  let c := { c with value := some value }
  let uri := tmp2 + 1
  orFault (strncmpEq buf uri "where=".toList) fun isWhere =>
  if isWhere then
    let uri := uri + 6
    orFault (cstrAt buf uri) fun w =>
    .ret 0 ⟨{ s.g with sqlconf_confs := { c with «where» := some w } }, buf, tmp + 1⟩
  else .ret (-1) ⟨{ s.g with sqlconf_confs := c }, buf, uri⟩

/-- The function `sqlconf_parse_uri_map`.  Here `tmp` may be `NULL` (no `/`
after the segment); the where-only branch computes `tmp + 1` without a test
and then advances by `strlen`. -/
def sqlconf_parse_uri_map (s : PState) : Run PState :=
  orFault (strncmpEq s.buf s.uri "map:".toList) fun isTag =>
  if !isTag then .ret (-1) s else
  let uri := s.uri + 4
  orFault (strchr s.buf uri '/') fun tmp =>
  let buf := match tmp with
    | some t => poke s.buf t
    | none => s.buf
  let c := { s.g.sqlconf_maps with
    conf_id := some SQLCONF_DEFAULT_CONF_ID_NAME, ctx_id := some SQLCONF_DEFAULT_CTXT_ID_NAME,
    «where» := none }
  match strchr buf uri ':' with
  | none => .fault
  | some none =>
    orFault (cstrAt buf uri) fun tab =>
    .ret 0 ⟨{ s.g with sqlconf_maps := { c with tab := some tab } }, buf,
      match tmp with
      | some t => t + 1
      | none => uri + tab.length⟩
  | some (some tmp2) =>
  let buf := poke buf tmp2
  orFault (cstrAt buf uri) fun tab =>
  let c := { c with tab := some tab }
  let uri := tmp2 + 1
  match strchr buf uri ',' with
  | none => .fault
  | some none =>
    (match strchr buf uri '=' with
    | none => .fault
    | some none => .ret (-1) ⟨{ s.g with sqlconf_maps := c }, buf, uri⟩
    | some (some tmp2) =>
      let buf := poke buf tmp2
      orFault (strcmpEq buf uri "where".toList) fun isWhere =>
      if isWhere then
        let uri := tmp2 + 1
        orFault (cstrAt buf uri) fun w =>
        let c := { c with «where» := some w }
        match tmp with
        | none => .fault
        | some t =>
          let uri := t + 1
          orFault (cstrAt buf uri) fun rest =>
          .ret 0 ⟨{ s.g with sqlconf_maps := c }, buf, uri + rest.length⟩
      else .ret (-1) ⟨{ s.g with sqlconf_maps := c }, buf, uri⟩)
  | some (some tmp2) =>
  let buf := poke buf tmp2
  orFault (cstrAt buf uri) fun conf_id =>
  let c := { c with conf_id := some conf_id }
  let uri := tmp2 + 1
  match strchr buf uri ':' with
  | none => .fault
  | some none =>
    orFault (cstrAt buf uri) fun ctx_id =>
    .ret 0 ⟨{ s.g with sqlconf_maps := { c with ctx_id := some ctx_id } }, buf,
      match tmp with
      | some t => t + 1
      | none => uri + ctx_id.length⟩
  | some (some tmp2) =>
  let buf := poke buf tmp2
  orFault (cstrAt buf uri) fun ctx_id =>
  let c := { c with ctx_id := some ctx_id }
  let uri := tmp2 + 1
  orFault (strncmpEq buf uri "where=".toList) fun isWhere =>
  if isWhere then
    let uri := uri + 6
    orFault (cstrAt buf uri) fun w =>
    .ret 0 ⟨{ s.g with sqlconf_maps := { c with «where» := some w } }, buf,
      match tmp with
      | some t => t + 1
      | none => uri + w.length⟩
  else .ret (-1) ⟨{ s.g with sqlconf_maps := c }, buf, uri⟩

/-- The function `sqlconf_parse_uri`, called on a buffer that starts with
`sql://`. -/
def sqlconf_parse_uri (g : Globals) (buf : List Char) : Run PState :=
  match sqlconf_parse_uri_db ⟨g, buf, 6⟩ with
  | .fault => .fault
  | .nofuel => .nofuel
  | .ret code s =>
  if code < 0 then .ret (-1) s else
  match sqlconf_parse_uri_ctx s with
  | .fault => .fault
  | .nofuel => .nofuel
  | .ret code s =>
  if code < 0 then .ret (-1) s else
  match sqlconf_parse_uri_conf s with
  | .fault => .fault
  | .nofuel => .nofuel
  | .ret code s =>
  if code < 0 then .ret (-1) s else
  match sqlconf_parse_uri_map s with
  | .fault => .fault
  | .nofuel => .nofuel
  | .ret code s =>
  if code < 0 then .ret (-1) s else
  orFault (cstrAt s.buf s.uri) fun rest =>
  if rest ≠ [] then
    if rest.take 8 ≠ "base_id=".toList then .ret (-1) s
    else
      let uri := s.uri + 8
      orFault (cstrAt s.buf uri) fun b =>
      .ret 0 ⟨{ s.g with sqlconf_ctxs := { s.g.sqlconf_ctxs with base_id := some b } }, s.buf, uri⟩
  else .ret 0 s

/-! ## The SQL hook layer (external) -/

/-- The hook symbols that the module dispatches to. -/
inductive Hook where
  | sql_load_backend
  | sql_prepare
  | sql_define_conn
  | sql_open_conn
  | sql_select
  | sql_close_conn
  | sql_cleanup
  deriving Repr, DecidableEq

/-- The record `sql_data_t`: `rnum` rows of `fnum` fields, the cells in row
order in `data`.  A cell is `NULL` for an SQL null. -/
structure SqlData where
  rnum : Nat
  fnum : Nat
  data : List CStr
  deriving Repr, DecidableEq

/-- The cell `sd->data[i]`.  The backends terminate the cell array with a
`NULL`; a read at or after the terminator is taken to give `NULL`. -/
def SqlData.cell (sd : SqlData) (i : Nat) : CStr := sd.data.getD i none

/-- What the hook layer does with a dispatched command: the symbol is not
registered, the handler reports an error, or the handler succeeds with a data
pointer. -/
inductive Reply where
  | nosym
  | error
  | handled (data : Option SqlData)
  deriving Repr, DecidableEq

/-- A dispatched command: the hook and the argument vector. -/
structure Query where
  hook : Hook
  args : List CStr
  deriving Repr, DecidableEq

/-- The query capability: `pr_stash_get_symbol` followed by `pr_module_call`. -/
abbrev Gateway := Query → Reply

/-- The state seen by the database-reading routines: the module globals and the
commands dispatched so far. -/
structure MState where
  g : Globals
  log : List Query := []
  deriving Repr, DecidableEq

/-- The library function `pstrcat`: the concatenation of the arguments before
the first `NULL`. -/
def pstrcat : List CStr → List Char
  | [] => []
  | none :: _ => []
  | some s :: rest => s ++ pstrcat rest

/-- Decimal digits of a natural number. -/
def natDigits (n : Nat) : List Char := Nat.toDigits 10 n

/-- The conversion `%d` of `snprintf`. -/
def fmtInt (n : Int) : List Char :=
  match n with
  | .ofNat k => natDigits k
  | .negSucc k => '-' :: natDigits (k + 1)

/-- The predicate `isspace` in the C locale. -/
def isspace (c : Char) : Bool :=
  c = ' ' || (9 ≤ c.toNat && c.toNat ≤ 13)

/-- Value of the leading decimal digits of a string, continuing from `acc`. -/
def digitsVal : List Char → Nat → Nat
  | [], acc => acc
  | c :: cs, acc =>
    if c.isDigit then digitsVal cs (acc * 10 + (c.toNat - 48)) else acc

/-- Truncation of an integer to a 32-bit `int`. -/
def toInt32 (x : Int) : Int :=
  let m := x % 4294967296
  if m < 2147483648 then m else m - 4294967296

/-- The library function `atoi` on a non-null string, as `(int) strtol(s, NULL, 10)`
with a 64-bit `long`: white space, an optional sign, decimal digits; the value
saturates in `long` and is truncated to `int`. -/
def atoi (s : List Char) : Int :=
  let s := s.dropWhile isspace
  let v : Int :=
    match s with
    | '-' :: r => - (digitsVal r 0 : Int)
    | '+' :: r => (digitsVal r 0 : Int)
    | _ => (digitsVal s 0 : Int)
  let v := if v > 9223372036854775807 then 9223372036854775807
    else if v < -9223372036854775808 then -9223372036854775808 else v
  toInt32 v

/-- The function `sqlconf_dispatch`: the result pointer (`none` is `NULL`) with
its `data` field.  When the hook symbol is missing the function returns
`PR_ERROR(cmd)`, a non-null result whose data pointer is null. -/
def sqlconf_dispatch (gw : Gateway) (name : Hook) (args : List CStr) (st : MState) :
    Option (Option SqlData) × MState :=
  let st := { st with log := st.log ++ [⟨name, args⟩] }
  match gw ⟨name, args⟩ with
  | .nosym => (some none, st)
  | .error => (none, st)
  | .handled d => (some d, st)

/-- The statement `*((char **) push_array(sqlconf_conf)) = line`. -/
def pushLine (line : List Char) (st : MState) : Option MState :=
  match st.g.sqlconf_conf with
  | none => none
  | some ls => some { st with g := { st.g with sqlconf_conf := some (ls ++ [line]) } }

/-- A `for (i = 0; i < n; i++) body(i)` loop whose body's return value is not
looked at; the list holds the values of `i` still to run. -/
def forRows (body : Nat → MState → Run MState) : List Nat → MState → Run MState
  | [], st => .ret 0 st
  | i :: is, st =>
    match body i st with
    | .ret _ st => forRows body is st
    | .fault => .fault
    | .nofuel => .nofuel

/-! ## Database-reading routines -/

/-- The condition text built at the head of `sqlconf_read_ctx_ctxs` and
`sqlconf_read_ctx`: `col = id`, followed by ` AND where` when the context
where-clause is set. -/
def ctxWhere (c : Ctxs) (col : CStr) (idstr : List Char) : List Char :=
  if c.«where» = none then pstrcat [col, some " = ".toList, some idstr]
  else pstrcat [col, some " = ".toList, some idstr, some " AND ".toList, c.«where»]

/-- The argument vector of the child-context query of `sqlconf_read_ctx_ctxs`. -/
def kidsArgs (c : Ctxs) (ctx_id : Int) : List CStr :=
  [some "sqlconf".toList, c.tab, c.id, some (ctxWhere c c.parent_id (fmtInt ctx_id))]

/-- The function `sqlconf_read_ctx_ctxs`; `readCtx id st` stands for the call
`sqlconf_read_ctx(p, id, FALSE)`, whose return value the loop drops. -/
def sqlconf_read_ctx_ctxs (readCtx : Int → MState → Run MState) (gw : Gateway)
    (ctx_id : Int) (st : MState) : Run MState :=
  match sqlconf_dispatch gw .sql_select (kidsArgs st.g.sqlconf_ctxs ctx_id) st with
  | (none, st) => .ret (-1) st
  | (some none, _) => .fault
  | (some (some sd), st) =>
    match forRows (fun i st =>
        match sd.cell i with
        | none => .fault
        | some s => readCtx (atoi s) st) (List.range sd.rnum) st with
    | .ret _ st => .ret 0 st
    | .fault => .fault
    | .nofuel => .nofuel

/-- The query text built by `sqlconf_read_conf`. -/
def confQuery (cf : Confs) (m : Maps) (idstr : List Char) : List Char :=
  if cf.«where» = none then
    pstrcat [cf.key, some ", ".toList, cf.value,
      some " FROM ".toList, cf.tab, some " INNER JOIN ".toList, m.tab,
      some " ON ".toList, cf.tab, some ".".toList, cf.id,
      some " = ".toList, m.tab, some ".".toList, m.conf_id,
      some " WHERE ".toList, m.tab, some ".".toList, m.ctx_id,
      some " = ".toList, some idstr]
  else
    pstrcat [cf.key, some ", ".toList, cf.value,
      some " FROM ".toList, cf.tab, some " INNER JOIN ".toList, m.tab,
      some " ON ".toList, cf.tab, some ".".toList, cf.id,
      some " = ".toList, m.tab, some ".".toList, m.conf_id,
      some " WHERE ".toList, m.tab, some ".".toList, m.ctx_id,
      some " = ".toList, some idstr, some " AND ".toList, cf.«where»]

/-- The argument vector of the directive query of `sqlconf_read_conf`. -/
def confArgs (cf : Confs) (m : Maps) (ctx_id : Int) : List CStr :=
  [some "sqlconf".toList, some (confQuery cf m (fmtInt ctx_id))]

/-- The directive line built in the loop of `sqlconf_read_conf`. -/
def confLine (k v : CStr) : List Char :=
  pstrcat [k, some " ".toList, v, some "\n".toList]

/-- The function `sqlconf_read_conf`. -/
def sqlconf_read_conf (gw : Gateway) (ctx_id : Int) (st : MState) : Run MState :=
  match sqlconf_dispatch gw .sql_select
    (confArgs st.g.sqlconf_confs st.g.sqlconf_maps ctx_id) st with
  | (none, st) => .ret (-1) st
  | (some none, _) => .fault
  | (some (some sd), st) =>
    forRows (fun i st =>
      orFault (pushLine (confLine (sd.cell (i * sd.fnum)) (sd.cell (i * sd.fnum + 1))) st)
        fun st => .ret 0 st) (List.range sd.rnum) st

/-- The argument vector of the key/value query of `sqlconf_read_ctx`. -/
def tagArgs (c : Ctxs) (ctx_id : Int) : List CStr :=
  [some "sqlconf".toList, c.tab, some (pstrcat [c.key, some ", ".toList, c.value]),
    some (ctxWhere c c.id (fmtInt ctx_id))]

/-- The opening tag line built in `sqlconf_read_ctx`. -/
def openTag (ctx_key ctx_val : CStr) : List Char :=
  pstrcat [some "<".toList, ctx_key,
    if ctx_val ≠ none then some " ".toList else some [],
    if ctx_val ≠ none then ctx_val else some [],
    some ">\n".toList]

/-- The closing tag line built in `sqlconf_read_ctx`. -/
def closeTag (ctx_key : CStr) : List Char :=
  pstrcat [some "</".toList, ctx_key, some ">\n".toList]

/-- The function `sqlconf_read_ctx`.  The recursion through
`sqlconf_read_ctx_ctxs` is bounded by `fuel`. -/
def sqlconf_read_ctx (gw : Gateway) : Nat → Int → Bool → MState → Run MState
  | 0, _, _, _ => .nofuel
  | fuel + 1, ctx_id, isbase, st =>
    match sqlconf_dispatch gw .sql_select (tagArgs st.g.sqlconf_ctxs ctx_id) st with
    | (none, st) => .ret (-1) st
    | (some none, _) => .fault
    | (some (some sd), st) =>
      if sd.rnum > 1 then .ret (-1) st else
      let ctx_key := sd.cell 0
      let ctx_val := sd.cell 1
      orFault (if ctx_key ≠ none ∧ isbase = false then pushLine (openTag ctx_key ctx_val) st
        else some st) fun st =>
      match sqlconf_read_conf gw ctx_id st with
      | .fault => .fault
      | .nofuel => .nofuel
      | .ret code st =>
      if code < 0 then .ret (-1) st else
      match sqlconf_read_ctx_ctxs (fun id st => sqlconf_read_ctx gw fuel id false st)
        gw ctx_id st with
      | .fault => .fault
      | .nofuel => .nofuel
      | .ret code st =>
      if code < 0 then .ret (-1) st else
      orFault (if ctx_key ≠ none ∧ isbase = false then pushLine (closeTag ctx_key) st
        else some st) fun st =>
      .ret 0 st

/-- The condition text of the root lookup in `sqlconf_read_db`. -/
def rootWhere (c : Ctxs) : List Char :=
  if c.base_id = none then pstrcat [c.parent_id, some " IS NULL".toList]
  else pstrcat [c.id, some " = ".toList, c.base_id]

/-- The argument vector of the root lookup in `sqlconf_read_db`. -/
def rootArgs (c : Ctxs) : List CStr :=
  [some "sqlconf".toList, c.tab, c.id, some (rootWhere c)]

/-- The argument vector of the `sql_define_conn` command. -/
def connArgs (d : Db) : List CStr :=
  [some "sqlconf".toList, d.user, d.pass,
    some (pstrcat [d.database, some "@".toList, d.server])]

/-- The function `sqlconf_read_db`.  The pool argument of `sql_prepare` carries
no data and is left out of the argument vector. -/
def sqlconf_read_db (gw : Gateway) (fuel : Nat) (st : MState) : Run MState :=
  let (_, st) := sqlconf_dispatch gw .sql_load_backend [] st
  let (_, st) := sqlconf_dispatch gw .sql_prepare [] st
  match sqlconf_dispatch gw .sql_define_conn (connArgs st.g.sqlconf_db) st with
  | (none, st) => .ret (-1) st
  | (some _, st) =>
  match sqlconf_dispatch gw .sql_open_conn [some "sqlconf".toList] st with
  | (none, st) => .ret (-1) st
  | (some _, st) =>
  match sqlconf_dispatch gw .sql_select (rootArgs st.g.sqlconf_ctxs) st with
  | (none, st) => .ret (-1) st
  | (some none, _) => .fault
  | (some (some sd), st) =>
  if sd.rnum ≠ 1 ∧ sd.fnum ≠ 1 then .ret (-1) st else
  match sd.cell 0 with
  | none => .ret (-1) st
  | some s =>
  let id := atoi s
  let st := { st with g := { st.g with sqlconf_conf := some [] } }
  match sqlconf_read_ctx gw fuel id true st with
  | .fault => .fault
  | .nofuel => .nofuel
  | .ret _ st =>
  match sqlconf_dispatch gw .sql_close_conn [some "sqlconf".toList, some "1".toList] st with
  | (none, st) => .ret (-1) st
  | (some _, st) =>
  match sqlconf_dispatch gw .sql_cleanup [] st with
  | (none, st) => .ret (-1) st
  | (some _, st) => .ret 0 st

/-! ## The pushed lines with the statement that pushed them

`traceCtx` follows `sqlconf_read_ctx` line by line and returns, instead of a
changed line array, the lines it pushes, each marked as an opening tag, a
directive line or a closing tag. -/

/-- A pushed line and the statement of `sqlconf_read_ctx` or `sqlconf_read_conf`
that pushed it. -/
inductive Ev where
  | opening (key : CStr) (line : List Char)
  | directive (line : List Char)
  | closing (key : CStr) (line : List Char)
  deriving Repr, DecidableEq

/-- The text of a pushed line. -/
def Ev.text : Ev → List Char
  | .opening _ l => l
  | .directive l => l
  | .closing _ l => l

/-- The lines pushed by a loop whose body's return value is dropped. -/
def traceRows (body : Nat → Run (List Ev)) : List Nat → Run (List Ev)
  | [] => .ret 0 []
  | i :: is =>
    match body i with
    | .ret _ evs =>
      (match traceRows body is with
      | .ret code evs2 => .ret code (evs ++ evs2)
      | .fault => .fault
      | .nofuel => .nofuel)
    | .fault => .fault
    | .nofuel => .nofuel

/-- The lines pushed by `sqlconf_read_conf`. -/
def traceConf (gw : Gateway) (cf : Confs) (m : Maps) (ctx_id : Int) : Run (List Ev) :=
  match gw ⟨.sql_select, confArgs cf m ctx_id⟩ with
  | .error => .ret (-1) []
  | .nosym => .fault
  | .handled none => .fault
  | .handled (some sd) =>
    .ret 0 ((List.range sd.rnum).map fun i =>
      Ev.directive (confLine (sd.cell (i * sd.fnum)) (sd.cell (i * sd.fnum + 1))))

/-- The lines pushed by `sqlconf_read_ctx_ctxs`. -/
def traceKids (readCtx : Int → Run (List Ev)) (gw : Gateway) (c : Ctxs) (ctx_id : Int) :
    Run (List Ev) :=
  match gw ⟨.sql_select, kidsArgs c ctx_id⟩ with
  | .error => .ret (-1) []
  | .nosym => .fault
  | .handled none => .fault
  | .handled (some sd) =>
    match traceRows (fun i =>
        match sd.cell i with
        | none => .fault
        | some s => readCtx (atoi s)) (List.range sd.rnum) with
    | .ret _ evs => .ret 0 evs
    | .fault => .fault
    | .nofuel => .nofuel

/-- The lines pushed by `sqlconf_read_ctx`. -/
def traceCtx (gw : Gateway) (c : Ctxs) (cf : Confs) (m : Maps) :
    Nat → Int → Bool → Run (List Ev)
  | 0, _, _ => .nofuel
  | fuel + 1, ctx_id, isbase =>
    match gw ⟨.sql_select, tagArgs c ctx_id⟩ with
    | .error => .ret (-1) []
    | .nosym => .fault
    | .handled none => .fault
    | .handled (some sd) =>
      if sd.rnum > 1 then .ret (-1) [] else
      let ctx_key := sd.cell 0
      let ctx_val := sd.cell 1
      let o := if ctx_key ≠ none ∧ isbase = false
        then [Ev.opening ctx_key (openTag ctx_key ctx_val)] else []
      match traceConf gw cf m ctx_id with
      | .fault => .fault
      | .nofuel => .nofuel
      | .ret code evs1 =>
      if code < 0 then .ret (-1) (o ++ evs1) else
      match traceKids (fun id => traceCtx gw c cf m fuel id false) gw c ctx_id with
      | .fault => .fault
      | .nofuel => .nofuel
      | .ret code evs2 =>
      if code < 0 then .ret (-1) (o ++ evs1 ++ evs2) else
      .ret 0 (o ++ evs1 ++ evs2 ++
        (if ctx_key ≠ none ∧ isbase = false then [Ev.closing ctx_key (closeTag ctx_key)] else []))

/-- A marked line sequence is well nested, given the keys of the tags that are
open: every closing tag closes the innermost open tag and has its key, and no
tag is left open at the end. -/
def wellNested : List Ev → List CStr → Bool
  | [], stack => stack.isEmpty
  | .opening k _ :: rest, stack => wellNested rest (k :: stack)
  | .directive _ :: rest, stack => wellNested rest stack
  | .closing k _ :: rest, stack =>
    match stack with
    | [] => false
    | k2 :: stack => decide (k = k2) && wellNested rest stack

/-! ## The context tree and its reference rendering -/

/-- A finite list of sibling contexts.  A context has the text of its id as its
parent's child query returns it, an optional key, an optional value, its
directive rows in the order returned, and its children. -/
inductive CtxForest where
  | nil
  | node (cell : List Char) (key val : CStr) (dirs : List (List Char × List Char))
      (kids rest : CtxForest)
  deriving Repr

/-- A context with its subtree. -/
structure CtxTree where
  key : CStr
  val : CStr
  dirs : List (List Char × List Char)
  kids : CtxForest

/-- The id texts of the contexts of a sibling list. -/
def CtxForest.cells : CtxForest → List (List Char)
  | .nil => []
  | .node cell _ _ _ _ rest => cell :: rest.cells

/-- Number of nested levels of a sibling list. -/
def CtxForest.depth : CtxForest → Nat
  | .nil => 0
  | .node _ _ _ _ kids rest => max (kids.depth + 1) rest.depth

/-- The directive line `key value`. -/
def specDirLine (d : List Char × List Char) : List Char :=
  d.1 ++ [' '] ++ d.2 ++ ['\n']

/-- The opening tag line `<key>` or `<key value>`. -/
def specOpen (k : List Char) (v : CStr) : List Char :=
  match v with
  | none => ['<'] ++ k ++ ['>', '\n']
  | some v => ['<'] ++ k ++ [' '] ++ v ++ ['>', '\n']

/-- The closing tag line `</key>`. -/
def specClose (k : List Char) : List Char :=
  ['<', '/'] ++ k ++ ['>', '\n']

/-- The concatenation of `render(child, false)` over a sibling list. -/
def renderForest : CtxForest → List (List Char)
  | .nil => []
  | .node _ key val dirs kids rest =>
    ((match key with
      | some k => [specOpen k val]
      | none => [])
    ++ dirs.map specDirLine
    ++ renderForest kids
    ++ (match key with
      | some k => [specClose k]
      | none => []))
    ++ renderForest rest

/-- The reference rendering `render(c, isRoot)`: the opening tag of `c` if it
has a key and is not the root, one line per directive row, the renderings of
the children, the closing tag if `c` has a key and is not the root. -/
def render (c : CtxTree) (isRoot : Bool) : List (List Char) :=
  (match c.key with
    | some k => if isRoot then [] else [specOpen k c.val]
    | none => [])
  ++ c.dirs.map specDirLine
  ++ renderForest c.kids
  ++ (match c.key with
    | some k => if isRoot then [] else [specClose k]
    | none => [])

/-- The reply is a successful result whose data satisfies `p`. -/
def Reply.dataIs (r : Reply) (p : SqlData → Bool) : Bool :=
  match r with
  | .handled (some sd) => p sd
  | _ => false

/-- The gateway answers the three queries about context `n` with the given
key and value (in at most one row), directive rows and child id texts. -/
def answersCtx (gw : Gateway) (c : Ctxs) (cf : Confs) (m : Maps) (n : Int)
    (key val : CStr) (dirs : List (List Char × List Char)) (kidCells : List (List Char)) : Bool :=
  (gw ⟨.sql_select, tagArgs c n⟩).dataIs (fun sd =>
    decide (sd.rnum ≤ 1) && decide (sd.cell 0 = key) && decide (sd.cell 1 = val))
  && (gw ⟨.sql_select, confArgs cf m n⟩).dataIs (fun sd =>
    decide (sd.rnum = dirs.length) &&
    (List.range dirs.length).all fun i =>
      decide (sd.cell (i * sd.fnum) = (dirs.get? i).map Prod.fst) &&
      decide (sd.cell (i * sd.fnum + 1) = (dirs.get? i).map Prod.snd))
  && (gw ⟨.sql_select, kidsArgs c n⟩).dataIs (fun sd =>
    decide (sd.rnum = kidCells.length) &&
    (List.range kidCells.length).all fun i => decide (sd.cell i = kidCells.get? i))

/-- The gateway presents every context of the sibling list, at the id that
`atoi` reads from its id text, with its subtree. -/
def representsForest (gw : Gateway) (c : Ctxs) (cf : Confs) (m : Maps) : CtxForest → Bool
  | .nil => true
  | .node cell key val dirs kids rest =>
    answersCtx gw c cf m (atoi cell) key val dirs kids.cells
    && representsForest gw c cf m kids
    && representsForest gw c cf m rest

/-- The gateway presents the context tree `t` at context id `n`. -/
def represents (gw : Gateway) (c : Ctxs) (cf : Confs) (m : Maps) (n : Int) (t : CtxTree) : Bool :=
  answersCtx gw c cf m n t.key t.val t.dirs t.kids.cells
  && representsForest gw c cf m t.kids

/-- The globals with the line array replaced by `ls`. -/
def withLines (g : Globals) (ls : List (List Char)) : Globals :=
  { g with sqlconf_conf := some ls }

/-- A run `R` of a database-reading routine, started with the line array `ls`,
agrees with the traced run `r`: the same return code, the traced lines appended
to `ls`, nothing else in the globals changed. -/
def Agrees (r : Run (List Ev)) (R : Run MState) (g : Globals) (ls : List (List Char)) : Prop :=
  match r with
  | .ret code evs => ∃ log, R = .ret code ⟨withLines g (ls ++ evs.map Ev.text), log⟩
  | .fault => R = .fault
  | .nofuel => R = .nofuel

/-- Appending a marked sequence in front changes nothing for the nesting test:
the sequence is well nested on its own and closes only its own tags. -/
def Balanced (evs : List Ev) : Prop :=
  ∀ rest stack, wellNested (evs ++ rest) stack = wellNested rest stack

/-! ## Descriptor texts and buffer views -/

/-- The buffer holds `v` from index `i` on (up to its terminator at the end), and
`i` lies within the buffer. -/
def View (buf : List Char) (i : Nat) (v : List Char) : Prop :=
  i ≤ buf.length ∧ buf.drop i = v

/-- The text after the mapping segment: nothing, or `/base_id=` and the id. -/
def trailer : Option (List Char) → List Char
  | none => []
  | some V => '/' :: ("base_id=".toList ++ V)

/-- The descriptor `sql://U:P@S?db=D/ctx:<ctxSeg>/conf:<confSeg>/map:<mapSeg>`
followed by the optional `/base_id=` segment. -/
def uriText (U P S D ctxSeg confSeg mapSeg : List Char) (base : Option (List Char)) :
    List Char :=
  "sql://".toList ++ (U ++ ':' :: (P ++ '@' :: (S ++ '?' :: ("db".toList ++ '=' :: (D ++ '/' ::
    ("ctx:".toList ++ (ctxSeg ++ '/' :: ("conf:".toList ++ (confSeg ++ '/' ::
      ("map:".toList ++ (mapSeg ++ trailer base)))))))))))

/-- A name of the descriptor grammar: a C string free of `:`, `,` and `/`. -/
def IsName (s : List Char) : Prop :=
  ':' ∉ s ∧ ',' ∉ s ∧ '/' ∉ s ∧ NUL ∉ s

/-- A where-clause that can stand inside a segment: a C string free of `/`. -/
def IsClause (w : List Char) : Prop :=
  '/' ∉ w ∧ NUL ∉ w

/-! ## Concrete descriptors and gateways used in the examples -/

/-- The descriptor of the specification's parsing scenario. -/
def scenarioUri : List Char :=
  "sql://u:p@host?db=d/ctx:contexts/conf:directives/map:links".toList

/-- Table specifications with the default column names and the tables
`contexts`, `directives` and `links`. -/
def scenarioGlobals : Globals :=
  { sqlconf_ctxs :=
      { tab := some "contexts".toList, id := some "id".toList,
        parent_id := some "parent_id".toList, key := some "key".toList,
        value := some "value".toList },
    sqlconf_confs :=
      { tab := some "directives".toList, id := some "id".toList, key := some "key".toList,
        value := some "value".toList },
    sqlconf_maps :=
      { tab := some "links".toList, conf_id := some "conf_id".toList,
        ctx_id := some "ctx_id".toList } }

/-- The last argument of a command: the condition or query text. -/
def Query.text (q : Query) : CStr := q.args.getLast?.join

/-- The directive query text for context `n` under `scenarioGlobals`. -/
def scenarioConfQuery (n : Int) : CStr :=
  some (confQuery scenarioGlobals.sqlconf_confs scenarioGlobals.sqlconf_maps (fmtInt n))

/-- The database of the rendering scenario: root context 1 without a key and
with the directive `Port 21`; its child 2 with key `Limit`, value `LOGIN` and
no directives. -/
def scenarioGw : Gateway := fun q =>
  match q.hook with
  | .sql_select =>
    if q.text = some "parent_id IS NULL".toList then
      .handled (some ⟨1, 1, [some "1".toList]⟩)
    else if q.text = some "id = 1".toList then .handled (some ⟨0, 2, []⟩)
    else if q.text = scenarioConfQuery 1 then
      .handled (some ⟨1, 2, [some "Port".toList, some "21".toList]⟩)
    else if q.text = some "parent_id = 1".toList then
      .handled (some ⟨1, 1, [some "2".toList]⟩)
    else if q.text = some "id = 2".toList then
      .handled (some ⟨1, 2, [some "Limit".toList, some "LOGIN".toList]⟩)
    else if q.text = scenarioConfQuery 2 then .handled (some ⟨0, 2, []⟩)
    else .handled (some ⟨0, 1, []⟩)
  | _ => .handled none

/-- The context tree of the rendering scenario. -/
def scenarioTree : CtxTree :=
  { key := none, val := none, dirs := [("Port".toList, "21".toList)],
    kids := .node "2".toList (some "Limit".toList) (some "LOGIN".toList) [] .nil .nil }

/-- The scenario database in which the directive query of the child context 2
fails. -/
def failingChildGw : Gateway := fun q =>
  if q.hook = .sql_select ∧ q.text = scenarioConfQuery 2 then .error else scenarioGw q

/-- The scenario database in which the root lookup returns two rows, the
contexts 1 and 2. -/
def twoRootsGw : Gateway := fun q =>
  if q.hook = .sql_select ∧ q.text = some "parent_id IS NULL".toList then
    .handled (some ⟨2, 1, [some "1".toList, some "2".toList]⟩)
  else scenarioGw q

/-- The state in which `sqlconf_read_db` leaves the rendering scenario. -/
def scenarioFinal : MState :=
  match sqlconf_read_db scenarioGw 2 ⟨scenarioGlobals, []⟩ with
  | .ret _ s => s
  | _ => ⟨scenarioGlobals, []⟩

/-! ## FSIO callbacks -/

/-- The fake descriptor `CONF_SQL_FILENO`. -/
def CONF_SQL_FILENO : Int := 2746

/-- The function `sqlconf_fsio_open_cb` on a non-null path; `sysOpen` is what
`open(path, flags, PR_OPEN_MODE)` returns for a path of another scheme.  The
URI buffer is `pstrdup(conf_sql_pool, path)`. -/
def sqlconf_fsio_open_cb (sysOpen : Int) (path : List Char) (st : MState) : Run MState :=
  if (untilNul path).take 6 = "sql://".toList then
    match sqlconf_parse_uri st.g (untilNul path) with
    | .ret code s => if code < 0 then .ret (-1) ⟨s.g, st.log⟩ else .ret CONF_SQL_FILENO ⟨s.g, st.log⟩
    | .fault => .fault
    | .nofuel => .nofuel
  else .ret sysOpen st

/-- The bytes that `memcpy(buf, line, buflen)` stores in the caller's buffer:
the line, its terminator, and then the bytes `junk 0`, `junk 1`, ... that lie
behind the line in the pool, `buflen` bytes in all. -/
def memcpyLine (line : List Char) (junk : Nat → Char) (buflen : Nat) : List Char :=
  (line ++ NUL :: (List.range (buflen - line.length - 1)).map junk).take buflen

/-- The call `strlen(buf)` on the caller's buffer after the copy: `none` when no
terminator lies inside the buffer (the read runs beyond it). -/
def strlenBuf (buf : List Char) : Option Nat :=
  if NUL ∈ buf then some (untilNul buf).length else none

/-- The function `sqlconf_fsio_read_cb`: the return value, the state, and the
bytes stored in the caller's buffer (`none` when the buffer is not written).
`sysRead` is what `read(fd, buf, buflen)` returns for a handle of another
scheme; `junk i` gives the bytes that lie behind line `i` in the pool. -/
def sqlconf_fsio_read_cb (gw : Gateway) (fuel : Nat) (junk : Nat → Nat → Char) (sysRead : Int)
    (fh_path : CStr) (buflen : Nat) (st : MState) : Run (MState × Option (List Char)) :=
  if (match fh_path with
      | some path => decide ((untilNul path).take 6 = "sql://".toList)
      | none => false) = true then
    match (match st.g.sqlconf_conf with
      | none => sqlconf_read_db gw fuel st
      | some _ => .ret 0 st) with
    | .fault => .fault
    | .nofuel => .nofuel
    | .ret code st =>
    if code < 0 then .ret (-1) (st, none) else
    match st.g.sqlconf_conf with
    | none => .fault
    | some lines =>
      if st.g.sqlconf_confi < lines.length then
        let buf := memcpyLine (lines.getD st.g.sqlconf_confi []) (junk st.g.sqlconf_confi) buflen
        let st := { st with g := { st.g with sqlconf_confi := st.g.sqlconf_confi + 1 } }
        match strlenBuf buf with
        | none => .fault
        | some n => .ret n (st, some buf)
      else .ret 0 (st, none)
  else .ret sysRead (st, none)

/-- The state left by `k` calls of `sqlconf_fsio_read_cb` in a row, started in
state `st`; what the calls return is dropped. -/
def readTimes (gw : Gateway) (fuel : Nat) (junk : Nat → Nat → Char) (sysRead : Int)
    (fh_path : CStr) (buflen : Nat) : Nat → MState → Run MState
  | 0, st => .ret 0 st
  | k + 1, st =>
    match sqlconf_fsio_read_cb gw fuel junk sysRead fh_path buflen st with
    | .ret _ (st, _) => readTimes gw fuel junk sysRead fh_path buflen k st
    | .fault => .fault
    | .nofuel => .nofuel

/-! ## Concrete sessions used in the examples -/

/-- The state left by a run, or `d` when the run did not return. -/
def Run.stateOr {σ : Type} (r : Run σ) (d : σ) : σ :=
  match r with
  | .ret _ s => s
  | _ => d

/-- Pool memory that holds the byte `Z` behind every line. -/
def zJunk : Nat → Nat → Char := fun _ _ => 'Z'

/-- The scenario database behind a server that refuses the connection: the
command `sql_open_conn` reports an error. -/
def noConnGw : Gateway := fun q =>
  if q.hook = .sql_open_conn then .error else scenarioGw q

/-- The state after the scenario descriptor has been opened in the freshly
loaded module. -/
def scenarioOpened : MState :=
  (sqlconf_fsio_open_cb 3 scenarioUri ⟨Globals.fresh, []⟩).stateOr ⟨Globals.fresh, []⟩

/-- The state after the three lines of the opened scenario have been read into
a buffer of 64 bytes. -/
def scenarioDrained : MState :=
  (readTimes scenarioGw 2 zJunk 0 (some scenarioUri) 64 3 scenarioOpened).stateOr scenarioOpened

/-- The module globals after a parse of a descriptor that ends in `/base_id=7`. -/
def afterBaseId : Globals :=
  ((sqlconf_parse_uri Globals.fresh
    "sql://u:p@h?db=d/ctx:ct/conf:f/map:m/base_id=7".toList).stateOr ⟨Globals.fresh, [], 0⟩).g

/-- The state in which `sqlconf_read_db` leaves the opened scenario. -/
def scenarioBuilt : MState :=
  (sqlconf_read_db scenarioGw 2 scenarioOpened).stateOr scenarioOpened

/-- The state after the first line of the opened scenario has been read into a
buffer of 64 bytes. -/
def scenarioRead1 : MState :=
  (readTimes scenarioGw 2 zJunk 0 (some scenarioUri) 64 1 scenarioOpened).stateOr scenarioOpened

/-- A descriptor whose fourth segment does not start with `map:`. -/
def badMapUri : List Char := "sql://u:p@h?db=d/ctx:ct/conf:f/bad".toList

/-- The parser state after the connection segment of `badMapUri`. -/
def badMapDb : PState :=
  (sqlconf_parse_uri_db ⟨Globals.fresh, badMapUri, 6⟩).stateOr ⟨Globals.fresh, badMapUri, 6⟩

/-- The parser state after the context segment of `badMapUri`. -/
def badMapCtx : PState := (sqlconf_parse_uri_ctx badMapDb).stateOr badMapDb

/-- The parser state after the directive segment of `badMapUri`. -/
def badMapConf : PState := (sqlconf_parse_uri_conf badMapCtx).stateOr badMapCtx

/-- The scenario database in which the child context 2 has the key `Limit` and
the empty string as its value. -/
def emptyValueGw : Gateway := fun q =>
  if q.hook = .sql_select ∧ q.text = some "id = 2".toList then
    .handled (some ⟨1, 2, [some "Limit".toList, some []]⟩)
  else scenarioGw q

/-- The state in which the call `sqlconf_read_ctx(p, 2, FALSE)` leaves the
scenario database, started with an empty line array. -/
def limitCtxFinal : MState :=
  (sqlconf_read_ctx scenarioGw 1 2 false ⟨withLines scenarioGlobals [], []⟩).stateOr
    ⟨scenarioGlobals, []⟩

/-- The run with its final state changed by `f`. -/
def Run.map {σ τ : Type} (f : σ → τ) : Run σ → Run τ
  | .ret code s => .ret code (f s)
  | .fault => .fault
  | .nofuel => .nofuel

/-- The state with the where-clause of the mapping record replaced by `w`. -/
def withMapWhere (w : CStr) (st : MState) : MState :=
  { st with g := { st.g with sqlconf_maps := { st.g.sqlconf_maps with «where» := w } } }

/-- The table specifications of the scenario with the context where-clause
`live = 1` and the directive where-clause `on = 1`. -/
def whereGlobals : Globals :=
  { scenarioGlobals with
    sqlconf_ctxs := { scenarioGlobals.sqlconf_ctxs with «where» := some "live = 1".toList },
    sqlconf_confs := { scenarioGlobals.sqlconf_confs with «where» := some "on = 1".toList } }

/-- The state in which the call `sqlconf_read_ctx(p, 2, FALSE)` leaves the
scenario database under `whereGlobals`, started with an empty line array and an
empty log. -/
def whereCtxFinal : MState :=
  (sqlconf_read_ctx scenarioGw 1 2 false ⟨withLines whereGlobals [], []⟩).stateOr
    ⟨whereGlobals, []⟩

/-! ## The dispatched commands of the recursive descent

`askedCtx` follows `sqlconf_read_ctx` line by line and returns, instead of a
changed state, the commands it dispatches, in order. -/

/-- The commands dispatched by a loop whose body's return value is dropped. -/
def askedRows (body : Nat → Run (List Query)) : List Nat → Run (List Query)
  | [] => .ret 0 []
  | i :: is =>
    match body i with
    | .ret _ qs =>
      (match askedRows body is with
      | .ret code qs2 => .ret code (qs ++ qs2)
      | .fault => .fault
      | .nofuel => .nofuel)
    | .fault => .fault
    | .nofuel => .nofuel

/-- The command dispatched by `sqlconf_read_conf`. -/
def askedConf (gw : Gateway) (cf : Confs) (m : Maps) (ctx_id : Int) : Run (List Query) :=
  match gw ⟨.sql_select, confArgs cf m ctx_id⟩ with
  | .error => .ret (-1) [⟨.sql_select, confArgs cf m ctx_id⟩]
  | .nosym => .fault
  | .handled none => .fault
  | .handled (some _) => .ret 0 [⟨.sql_select, confArgs cf m ctx_id⟩]

/-- The commands dispatched by `sqlconf_read_ctx_ctxs`. -/
def askedKids (readCtx : Int → Run (List Query)) (gw : Gateway) (c : Ctxs) (ctx_id : Int) :
    Run (List Query) :=
  match gw ⟨.sql_select, kidsArgs c ctx_id⟩ with
  | .error => .ret (-1) [⟨.sql_select, kidsArgs c ctx_id⟩]
  | .nosym => .fault
  | .handled none => .fault
  | .handled (some sd) =>
    match askedRows (fun i =>
        match sd.cell i with
        | none => .fault
        | some s => readCtx (atoi s)) (List.range sd.rnum) with
    | .ret _ qs => .ret 0 (⟨.sql_select, kidsArgs c ctx_id⟩ :: qs)
    | .fault => .fault
    | .nofuel => .nofuel

/-- The commands dispatched by `sqlconf_read_ctx`; they do not depend on
`isbase`. -/
def askedCtx (gw : Gateway) (c : Ctxs) (cf : Confs) (m : Maps) : Nat → Int → Run (List Query)
  | 0, _ => .nofuel
  | fuel + 1, ctx_id =>
    match gw ⟨.sql_select, tagArgs c ctx_id⟩ with
    | .error => .ret (-1) [⟨.sql_select, tagArgs c ctx_id⟩]
    | .nosym => .fault
    | .handled none => .fault
    | .handled (some sd) =>
      if sd.rnum > 1 then .ret (-1) [⟨.sql_select, tagArgs c ctx_id⟩] else
      match askedConf gw cf m ctx_id with
      | .fault => .fault
      | .nofuel => .nofuel
      | .ret code qs1 =>
      if code < 0 then .ret (-1) (⟨.sql_select, tagArgs c ctx_id⟩ :: qs1) else
      match askedKids (fun id => askedCtx gw c cf m fuel id) gw c ctx_id with
      | .fault => .fault
      | .nofuel => .nofuel
      | .ret code qs2 =>
      if code < 0 then .ret (-1) (⟨.sql_select, tagArgs c ctx_id⟩ :: (qs1 ++ qs2))
      else .ret 0 (⟨.sql_select, tagArgs c ctx_id⟩ :: (qs1 ++ qs2))

/-- A run `R` of a database-reading routine, started with a line array and the
log `log`, agrees with the run `r` of its command list: the same outcome, the
listed commands appended to `log`, and of the globals only the line array
changed. -/
def AgreesLog (r : Run (List Query)) (R : Run MState) (g : Globals) (log : List Query) : Prop :=
  match r with
  | .ret code qs => ∃ ls2, R = .ret code ⟨withLines g ls2, log ++ qs⟩
  | .fault => R = .fault
  | .nofuel => R = .nofuel

/-! ## The child relation and the commands of a context tree -/

/-- The child-context query of `parent` returns a row whose id reads `child`. -/
def isChildRow (gw : Gateway) (c : Ctxs) (parent child : Int) : Bool :=
  match gw ⟨.sql_select, kidsArgs c parent⟩ with
  | .handled (some sd) =>
    (List.range sd.rnum).any fun i =>
      match sd.cell i with
      | some s => decide (atoi s = child)
      | none => false
  | _ => false

/-- One visit of every context of a sibling list, in pre-order: for each
context its tag query, its directive query and its child-context query,
followed by the visits of its children. -/
def forestQueries (c : Ctxs) (cf : Confs) (m : Maps) : CtxForest → List Query
  | .nil => []
  | .node cell _ _ _ kids rest =>
    [⟨.sql_select, tagArgs c (atoi cell)⟩, ⟨.sql_select, confArgs cf m (atoi cell)⟩,
      ⟨.sql_select, kidsArgs c (atoi cell)⟩]
    ++ forestQueries c cf m kids ++ forestQueries c cf m rest

/-- One visit of the context `n` and of every context below it, in pre-order. -/
def treeQueries (c : Ctxs) (cf : Confs) (m : Maps) (n : Int) (t : CtxTree) : List Query :=
  [⟨.sql_select, tagArgs c n⟩, ⟨.sql_select, confArgs cf m n⟩, ⟨.sql_select, kidsArgs c n⟩]
  ++ forestQueries c cf m t.kids

/-- The scenario database in which the row of context 2 has 2 as its parent id
as well: the child-context query of 2 returns the row 2. -/
def loopGw : Gateway := fun q =>
  if q.hook = .sql_select ∧ q.text = some "parent_id = 2".toList then
    .handled (some ⟨1, 1, [some "2".toList]⟩)
  else scenarioGw q

/-- The database `loopGw` in which the directive query of context 2 fails. -/
def loopFailGw : Gateway := fun q =>
  if q.hook = .sql_select ∧ q.text = scenarioConfQuery 2 then .error else loopGw q

/-- The scenario database in which the directive row of the root context 1 has
the key `Port` and an SQL null as its value. -/
def nullValueGw : Gateway := fun q =>
  if q.hook = .sql_select ∧ q.text = scenarioConfQuery 1 then
    .handled (some ⟨1, 2, [some "Port".toList, none]⟩)
  else scenarioGw q

/-- The scenario database in which the root context 1 has two directive rows,
the first with an SQL null as its key and the value `21`, the second `Port 21`. -/
def nullKeyGw : Gateway := fun q =>
  if q.hook = .sql_select ∧ q.text = scenarioConfQuery 1 then
    .handled (some ⟨2, 2, [none, some "21".toList, some "Port".toList, some "21".toList]⟩)
  else scenarioGw q

/-- The state after the first call of `sqlconf_fsio_read_cb` on the opened
scenario over the database `nullKeyGw`, with a buffer of 64 bytes. -/
def nullKeyRead1 : MState :=
  (readTimes nullKeyGw 2 zJunk 0 (some scenarioUri) 64 1 scenarioOpened).stateOr scenarioOpened

/-! ## Lemmas on the database-reading routines -/

@[simp] theorem orFault_some {α σ : Type} (a : α) (k : α → Run σ) : orFault (some a) k = k a := rfl
@[simp] theorem orFault_none {α σ : Type} (k : α → Run σ) : orFault (none : Option α) k = .fault := rfl

theorem dispatch_eq (gw : Gateway) (h : Hook) (args : List CStr) (st : MState) :
    sqlconf_dispatch gw h args st =
      ((match gw ⟨h, args⟩ with
        | .nosym => some none
        | .error => none
        | .handled d => some d), ⟨st.g, st.log ++ [⟨h, args⟩]⟩) := by
  unfold sqlconf_dispatch
  cases gw ⟨h, args⟩ <;> rfl

@[simp] theorem withLines_ctxs (g : Globals) (ls) : (withLines g ls).sqlconf_ctxs = g.sqlconf_ctxs := rfl
@[simp] theorem withLines_confs (g : Globals) (ls) : (withLines g ls).sqlconf_confs = g.sqlconf_confs := rfl
@[simp] theorem withLines_maps (g : Globals) (ls) : (withLines g ls).sqlconf_maps = g.sqlconf_maps := rfl
@[simp] theorem withLines_conf (g : Globals) (ls) : (withLines g ls).sqlconf_conf = some ls := rfl

theorem pushLine_withLines (g : Globals) (ls : List (List Char)) (log : List Query) (l : List Char) :
    pushLine l ⟨withLines g ls, log⟩ = some ⟨withLines g (ls ++ [l]), log⟩ := rfl

theorem forRows_push (L : Nat → List Char) (g : Globals) (log : List Query) :
    ∀ (is : List Nat) (ls : List (List Char)),
      forRows (fun i st => orFault (pushLine (L i) st) fun st => .ret 0 st) is ⟨withLines g ls, log⟩
        = .ret 0 ⟨withLines g (ls ++ is.map L), log⟩ := by
  intro is
  induction is with
  | nil => intro ls; simp [forRows]
  | cons i is ih =>
    intro ls
    rw [forRows]
    simp only [pushLine_withLines, orFault_some]
    rw [ih]
    simp

theorem agrees_conf (gw : Gateway) (g : Globals) (n : Int) (ls : List (List Char)) (log : List Query) :
    Agrees (traceConf gw g.sqlconf_confs g.sqlconf_maps n)
      (sqlconf_read_conf gw n ⟨withLines g ls, log⟩) g ls := by
  unfold traceConf sqlconf_read_conf
  rw [dispatch_eq]
  simp only [withLines_confs, withLines_maps]
  cases hq : gw ⟨.sql_select, confArgs g.sqlconf_confs g.sqlconf_maps n⟩ with
  | nosym => simp [Agrees]
  | error => simp [Agrees]
  | handled d =>
    cases d with
    | none => simp [Agrees]
    | some sd =>
      simp only [Agrees]
      rw [forRows_push]
      refine ⟨log ++ [⟨.sql_select, confArgs g.sqlconf_confs g.sqlconf_maps n⟩], ?_⟩
      simp [List.map_map, Function.comp_def, Ev.text]

theorem agrees_rows (tb : Nat → Run (List Ev)) (b : Nat → MState → Run MState) (g : Globals)
    (hb : ∀ i ls log, Agrees (tb i) (b i ⟨withLines g ls, log⟩) g ls) :
    ∀ (is : List Nat) (ls : List (List Char)) (log : List Query),
      Agrees (traceRows tb is) (forRows b is ⟨withLines g ls, log⟩) g ls := by
  intro is
  induction is with
  | nil => intro ls log; simp [traceRows, forRows, Agrees]
  | cons i is ih =>
    intro ls log
    rw [traceRows, forRows]
    have h1 := hb i ls log
    cases ht : tb i with
    | fault => rw [ht] at h1; simp only [Agrees] at h1; simp [h1, Agrees]
    | nofuel => rw [ht] at h1; simp only [Agrees] at h1; simp [h1, Agrees]
    | ret code evs =>
      rw [ht] at h1
      obtain ⟨log1, h1⟩ := h1
      rw [h1]
      simp only []
      have h2 := ih (ls ++ evs.map Ev.text) log1
      cases ht2 : traceRows tb is with
      | fault => rw [ht2] at h2; simp only [Agrees] at h2; simp [h2, Agrees]
      | nofuel => rw [ht2] at h2; simp only [Agrees] at h2; simp [h2, Agrees]
      | ret code2 evs2 =>
        rw [ht2] at h2
        obtain ⟨log2, h2⟩ := h2
        rw [h2]
        exact ⟨log2, by simp⟩

theorem agrees_kids (gw : Gateway) (g : Globals) (n : Int)
    (tr : Int → Run (List Ev)) (rd : Int → MState → Run MState)
    (hrd : ∀ id ls log, Agrees (tr id) (rd id ⟨withLines g ls, log⟩) g ls)
    (ls : List (List Char)) (log : List Query) :
    Agrees (traceKids tr gw g.sqlconf_ctxs n)
      (sqlconf_read_ctx_ctxs rd gw n ⟨withLines g ls, log⟩) g ls := by
  unfold traceKids sqlconf_read_ctx_ctxs
  rw [dispatch_eq]
  simp only [withLines_ctxs]
  cases hq : gw ⟨.sql_select, kidsArgs g.sqlconf_ctxs n⟩ with
  | nosym => simp [Agrees]
  | error => simp [Agrees]
  | handled d =>
    cases d with
    | none => simp [Agrees]
    | some sd =>
      simp only []
      have h := agrees_rows
        (fun i => match sd.cell i with
          | none => .fault
          | some s => tr (atoi s))
        (fun i st => match sd.cell i with
          | none => .fault
          | some s => rd (atoi s) st) g
        (by
          intro i ls log
          dsimp only
          cases sd.cell i with
          | none => simp [Agrees]
          | some s => exact hrd _ _ _)
        (List.range sd.rnum) ls (log ++ [⟨.sql_select, kidsArgs g.sqlconf_ctxs n⟩])
      revert h
      cases traceRows _ (List.range sd.rnum) with
      | fault => intro h; simp only [Agrees] at h; simp [h, Agrees]
      | nofuel => intro h; simp only [Agrees] at h; simp [h, Agrees]
      | ret code evs =>
        intro h
        obtain ⟨log2, h⟩ := h
        rw [h]
        exact ⟨log2, rfl⟩

theorem agrees_ctx (gw : Gateway) (g : Globals) :
    ∀ (fuel : Nat) (n : Int) (isbase : Bool) (ls : List (List Char)) (log : List Query),
      Agrees (traceCtx gw g.sqlconf_ctxs g.sqlconf_confs g.sqlconf_maps fuel n isbase)
        (sqlconf_read_ctx gw fuel n isbase ⟨withLines g ls, log⟩) g ls := by
  intro fuel
  induction fuel with
  | zero => intro n isbase ls log; simp [traceCtx, sqlconf_read_ctx, Agrees]
  | succ fuel ih =>
    intro n isbase ls log
    rw [traceCtx, sqlconf_read_ctx, dispatch_eq]
    simp only [withLines_ctxs]
    cases hq : gw ⟨.sql_select, tagArgs g.sqlconf_ctxs n⟩ with
    | nosym => simp [Agrees]
    | error => simp [Agrees]
    | handled d =>
      cases d with
      | none => simp [Agrees]
      | some sd =>
        simp only []
        by_cases hr : sd.rnum > 1
        · simp [hr, Agrees]
        · simp only [hr, if_false]
          have hpushO : ∀ (ls : List (List Char)) (log : List Query),
              (if sd.cell 0 ≠ none ∧ isbase = false
                then pushLine (openTag (sd.cell 0) (sd.cell 1)) ⟨withLines g ls, log⟩
                else some ⟨withLines g ls, log⟩)
              = some ⟨withLines g (ls ++ List.map Ev.text (if sd.cell 0 ≠ none ∧ isbase = false
                  then [Ev.opening (sd.cell 0) (openTag (sd.cell 0) (sd.cell 1))] else [])),
                  log⟩ := by
            intro ls log
            split <;> simp [pushLine_withLines, Ev.text]
          have hpushC : ∀ (ls : List (List Char)) (log : List Query),
              (if sd.cell 0 ≠ none ∧ isbase = false
                then pushLine (closeTag (sd.cell 0)) ⟨withLines g ls, log⟩
                else some ⟨withLines g ls, log⟩)
              = some ⟨withLines g (ls ++ List.map Ev.text (if sd.cell 0 ≠ none ∧ isbase = false
                  then [Ev.closing (sd.cell 0) (closeTag (sd.cell 0))] else [])),
                  log⟩ := by
            intro ls log
            split <;> simp [pushLine_withLines, Ev.text]
          simp only [hpushO, orFault_some]
          revert hpushC
          generalize (if sd.cell 0 ≠ none ∧ isbase = false
            then [Ev.opening (sd.cell 0) (openTag (sd.cell 0) (sd.cell 1))] else []) = o
          generalize (if sd.cell 0 ≠ none ∧ isbase = false
            then [Ev.closing (sd.cell 0) (closeTag (sd.cell 0))] else []) = cl
          intro hpushC
          have h1 := agrees_conf gw g n (ls ++ o.map Ev.text)
            (log ++ [⟨.sql_select, tagArgs g.sqlconf_ctxs n⟩])
          revert h1
          cases traceConf gw g.sqlconf_confs g.sqlconf_maps n with
          | fault => intro h1; simp only [Agrees] at h1 ⊢; rw [h1]
          | nofuel => intro h1; simp only [Agrees] at h1 ⊢; rw [h1]
          | ret code1 evs1 =>
            intro h1
            obtain ⟨log1, h1⟩ := h1
            rw [h1]
            simp only []
            by_cases hc1 : code1 < 0
            · simp only [hc1, if_true, Agrees]
              exact ⟨log1, by simp⟩
            · simp only [hc1, if_false]
              have h2 := agrees_kids gw g n
                (fun id => traceCtx gw g.sqlconf_ctxs g.sqlconf_confs g.sqlconf_maps fuel id false)
                (fun id st => sqlconf_read_ctx gw fuel id false st)
                (fun id ls log => ih id false ls log)
                (ls ++ o.map Ev.text ++ evs1.map Ev.text) log1
              revert h2
              cases traceKids _ gw g.sqlconf_ctxs n with
              | fault => intro h2; simp only [Agrees] at h2 ⊢; rw [h2]
              | nofuel => intro h2; simp only [Agrees] at h2 ⊢; rw [h2]
              | ret code2 evs2 =>
                intro h2
                obtain ⟨log2, h2⟩ := h2
                rw [h2]
                simp only []
                by_cases hc2 : code2 < 0
                · simp only [hc2, if_true, Agrees]
                  exact ⟨log2, by simp⟩
                · simp only [hc2, if_false, hpushC, orFault_some, Agrees]
                  exact ⟨log2, by simp⟩

theorem balanced_nil : Balanced [] := by
  intro rest stack; rfl

theorem balanced_append {a b : List Ev} (ha : Balanced a) (hb : Balanced b) : Balanced (a ++ b) := by
  intro rest stack
  rw [List.append_assoc, ha, hb]

theorem balanced_directives (f : Nat → List Char) (is : List Nat) :
    Balanced (is.map fun i => Ev.directive (f i)) := by
  induction is with
  | nil => exact balanced_nil
  | cons i is ih =>
    intro rest stack
    simp only [List.map_cons, List.cons_append, wellNested]
    exact ih rest stack

theorem balanced_opt_wrap (p : Prop) [Decidable p] (k : CStr) (l1 l2 : List Char) {body : List Ev}
    (hb : Balanced body) :
    Balanced ((if p then [Ev.opening k l1] else []) ++ body
      ++ (if p then [Ev.closing k l2] else [])) := by
  by_cases hp : p
  · intro rest stack
    simp only [hp, if_true, List.cons_append, List.nil_append, List.append_assoc, wellNested]
    rw [hb]
    simp [wellNested]
  · intro rest stack
    simp only [hp, if_false, List.nil_append, List.append_nil]
    exact hb rest stack

theorem traceConf_balanced (gw : Gateway) (hok : ∀ q, gw q ≠ .error) (cf : Confs) (m : Maps)
    (n : Int) (code : Int) (evs : List Ev) (h : traceConf gw cf m n = .ret code evs) :
    code = 0 ∧ Balanced evs := by
  unfold traceConf at h
  split at h
  · exact absurd ‹_› (hok _)
  · cases h
  · cases h
  · cases h
    exact ⟨rfl, balanced_directives _ _⟩

theorem traceRows_balanced (tb : Nat → Run (List Ev))
    (hb : ∀ i code evs, tb i = .ret code evs → Balanced evs) :
    ∀ (is : List Nat) (code : Int) (evs : List Ev),
      traceRows tb is = .ret code evs → Balanced evs := by
  intro is
  induction is with
  | nil =>
    intro code evs h
    simp only [traceRows] at h
    cases h
    exact balanced_nil
  | cons i is ih =>
    intro code evs h
    rw [traceRows] at h
    cases h1 : tb i with
    | fault => rw [h1] at h; cases h
    | nofuel => rw [h1] at h; cases h
    | ret c1 e1 =>
      rw [h1] at h
      simp only [] at h
      cases h2 : traceRows tb is with
      | fault => rw [h2] at h; cases h
      | nofuel => rw [h2] at h; cases h
      | ret c2 e2 =>
        rw [h2] at h
        cases h
        exact balanced_append (hb i c1 e1 h1) (ih _ _ h2)

theorem traceKids_balanced (gw : Gateway) (hok : ∀ q, gw q ≠ .error) (c : Ctxs) (n : Int)
    (tr : Int → Run (List Ev)) (htr : ∀ id code evs, tr id = .ret code evs → Balanced evs)
    (code : Int) (evs : List Ev) (h : traceKids tr gw c n = .ret code evs) :
    code = 0 ∧ Balanced evs := by
  unfold traceKids at h
  split at h
  · exact absurd ‹_› (hok _)
  · cases h
  · cases h
  · rename_i sd _
    generalize h2 : traceRows _ _ = r at h
    cases r with
    | fault => cases h
    | nofuel => cases h
    | ret c2 e2 =>
      cases h
      refine ⟨rfl, traceRows_balanced _ ?_ _ _ _ h2⟩
      intro i code evs hi
      split at hi
      · cases hi
      · exact htr _ _ _ hi

theorem traceCtx_balanced (gw : Gateway) (hok : ∀ q, gw q ≠ .error) (c : Ctxs) (cf : Confs)
    (m : Maps) :
    ∀ (fuel : Nat) (n : Int) (isbase : Bool) (code : Int) (evs : List Ev),
      traceCtx gw c cf m fuel n isbase = .ret code evs → Balanced evs := by
  intro fuel
  induction fuel with
  | zero => intro n isbase code evs h; simp [traceCtx] at h
  | succ fuel ih =>
    intro n isbase code evs h
    rw [traceCtx] at h
    split at h
    · exact absurd ‹_› (hok _)
    · cases h
    · cases h
    · rename_i sd _
      split at h
      · cases h; exact balanced_nil
      · generalize h1 : traceConf gw cf m n = r1 at h
        cases r1 with
        | fault => cases h
        | nofuel => cases h
        | ret code1 evs1 =>
          dsimp only at h
          obtain ⟨hc1, hb1⟩ := traceConf_balanced gw hok cf m n code1 evs1 h1
          subst hc1
          simp only [Int.lt_irrefl, if_false] at h
          generalize h2 : traceKids _ gw c n = r2 at h
          cases r2 with
          | fault => cases h
          | nofuel => cases h
          | ret code2 evs2 =>
            dsimp only at h
            obtain ⟨hc2, hb2⟩ := traceKids_balanced gw hok c n _
              (fun id code evs hi => ih id false code evs hi) code2 evs2 h2
            subst hc2
            simp only [Int.lt_irrefl, if_false] at h
            cases h
            simp only [List.append_assoc]
            have := balanced_opt_wrap (sd.cell 0 ≠ none ∧ isbase = false) (sd.cell 0)
              (openTag (sd.cell 0) (sd.cell 1)) (closeTag (sd.cell 0)) (balanced_append hb1 hb2)
            simpa only [List.append_assoc] using this

theorem read_ctx_traced (gw : Gateway) (g : Globals) (fuel : Nat) (n : Int) (isbase : Bool)
    (ls : List (List Char)) (log : List Query) (code : Int) (st2 : MState)
    (h : sqlconf_read_ctx gw fuel n isbase ⟨withLines g ls, log⟩ = .ret code st2) :
    ∃ evs, traceCtx gw g.sqlconf_ctxs g.sqlconf_confs g.sqlconf_maps fuel n isbase = .ret code evs
      ∧ st2.g = withLines g (ls ++ evs.map Ev.text) := by
  have ha := agrees_ctx gw g fuel n isbase ls log
  revert ha
  cases traceCtx gw g.sqlconf_ctxs g.sqlconf_confs g.sqlconf_maps fuel n isbase with
  | fault => intro ha; simp only [Agrees] at ha; rw [ha] at h; cases h
  | nofuel => intro ha; simp only [Agrees] at ha; rw [ha] at h; cases h
  | ret c evs =>
    intro ha
    obtain ⟨log2, ha⟩ := ha
    rw [ha] at h
    cases h
    exact ⟨evs, rfl, rfl⟩

theorem dispatch_ok (gw : Gateway) (hok : ∀ q, gw q ≠ .error) (h : Hook) (args : List CStr)
    (st : MState) :
    ∃ d, sqlconf_dispatch gw h args st = (some d, ⟨st.g, st.log ++ [⟨h, args⟩]⟩) := by
  rw [dispatch_eq]
  cases hq : gw ⟨h, args⟩ with
  | nosym => exact ⟨none, rfl⟩
  | error => exact absurd hq (hok _)
  | handled d => exact ⟨d, rfl⟩


theorem openTag_some (k : List Char) (v : CStr) : openTag (some k) v = specOpen k v := by
  cases v <;> simp [openTag, specOpen, pstrcat]

theorem closeTag_some (k : List Char) : closeTag (some k) = specClose k := by
  simp [closeTag, specClose, pstrcat]

theorem confLine_some (k v : List Char) : confLine (some k) (some v) = specDirLine (k, v) := by
  simp [confLine, specDirLine, pstrcat]

theorem dataIs_true {r : Reply} {p : SqlData → Bool} (h : r.dataIs p = true) :
    ∃ sd, r = .handled (some sd) ∧ p sd = true := by
  unfold Reply.dataIs at h
  split at h
  · exact ⟨_, rfl, h⟩
  · cases h

theorem renderForest_node (cell : List Char) (key val : CStr)
    (dirs : List (List Char × List Char)) (kids rest : CtxForest) :
    renderForest (.node cell key val dirs kids rest)
      = render ⟨key, val, dirs, kids⟩ false ++ renderForest rest := by
  cases key <;> simp [renderForest, render]

theorem traceRows_forest (gw : Gateway) (c : Ctxs) (cf : Confs) (m : Maps) (fuel : Nat)
    (H : ∀ (n : Int) (t : CtxTree), represents gw c cf m n t = true → t.kids.depth + 1 ≤ fuel →
      ∃ evs, traceCtx gw c cf m fuel n false = .ret 0 evs ∧ evs.map Ev.text = render t false)
    (cellOf : Nat → CStr) :
    ∀ (f : CtxForest) (is : List Nat), is.map cellOf = f.cells.map some →
      representsForest gw c cf m f = true → f.depth ≤ fuel →
      ∃ evs, traceRows (fun i =>
          match cellOf i with
          | none => .fault
          | some s => traceCtx gw c cf m fuel (atoi s) false) is = .ret 0 evs
        ∧ evs.map Ev.text = renderForest f := by
  intro f
  induction f with
  | nil =>
    intro is his _ _
    simp only [CtxForest.cells, List.map_nil, List.map_eq_nil_iff] at his
    subst his
    exact ⟨[], rfl, rfl⟩
  | node cell key val dirs kids rest _ ih_rest =>
    intro is his hrep hd
    cases is with
    | nil => simp [CtxForest.cells] at his
    | cons i is =>
      simp only [CtxForest.cells, List.map_cons, List.cons.injEq] at his
      obtain ⟨hi, his⟩ := his
      simp only [representsForest, Bool.and_eq_true] at hrep
      obtain ⟨⟨ha, hk⟩, hr⟩ := hrep
      simp only [CtxForest.depth] at hd
      obtain ⟨e1, ht1, hx1⟩ := H (atoi cell) ⟨key, val, dirs, kids⟩
        (by simp [represents, ha, hk]) (by show kids.depth + 1 ≤ fuel; omega)
      obtain ⟨e2, ht2, hx2⟩ := ih_rest is his hr (by omega)
      refine ⟨e1 ++ e2, ?_, ?_⟩
      · rw [traceRows]
        simp only [hi, ht1, ht2]
      · rw [List.map_append, hx1, hx2, renderForest_node]

theorem map_range_eq_map {α β : Type} (l : List α) (f : α → β) (g : Nat → β)
    (h : ∀ i, (hi : i < l.length) → g i = f (l.get ⟨i, hi⟩)) :
    (List.range l.length).map g = l.map f := by
  apply List.ext_getElem
  · simp
  · intro i h1 h2
    simp only [List.getElem_map, List.getElem_range]
    rw [h i (by simpa using h2)]
    rfl

theorem traceCtx_represents (gw : Gateway) (c : Ctxs) (cf : Confs) (m : Maps) :
    ∀ (fuel : Nat) (n : Int) (t : CtxTree) (isbase : Bool),
      represents gw c cf m n t = true → t.kids.depth + 1 ≤ fuel →
      ∃ evs, traceCtx gw c cf m fuel n isbase = .ret 0 evs
        ∧ evs.map Ev.text = render t isbase := by
  intro fuel
  induction fuel with
  | zero => intro n t isbase _ hf; omega
  | succ fuel ih =>
    intro n t isbase hrep hf
    simp only [represents, answersCtx, Bool.and_eq_true] at hrep
    obtain ⟨⟨⟨htag, hconf⟩, hkids⟩, hforest⟩ := hrep
    obtain ⟨sd1, hq1, hp1⟩ := dataIs_true htag
    obtain ⟨sd2, hq2, hp2⟩ := dataIs_true hconf
    obtain ⟨sd3, hq3, hp3⟩ := dataIs_true hkids
    simp only [Bool.and_eq_true, decide_eq_true_eq, List.all_eq_true, List.mem_range] at hp1 hp2 hp3
    obtain ⟨⟨hr1, hk1⟩, hv1⟩ := hp1
    obtain ⟨hr2, hc2⟩ := hp2
    obtain ⟨hr3, hc3⟩ := hp3
    have hconfT : traceConf gw cf m n = .ret 0 ((List.range sd2.rnum).map fun i =>
        Ev.directive (confLine (sd2.cell (i * sd2.fnum)) (sd2.cell (i * sd2.fnum + 1)))) := by
      simp only [traceConf, hq2]
    have hrows := traceRows_forest gw c cf m fuel (fun n t hr hd => ih n t false hr hd)
      sd3.cell t.kids (List.range sd3.rnum)
      (by
        rw [hr3]
        apply map_range_eq_map
        intro i hi
        rw [hc3 i hi, List.get?_eq_get hi])
      hforest (by omega)
    obtain ⟨e2, ht2, hx2⟩ := hrows
    have hkidsT : traceKids (fun id => traceCtx gw c cf m fuel id false) gw c n = .ret 0 e2 := by
      simp only [traceKids, hq3, ht2]
    rw [traceCtx]
    simp only [hq1, hconfT, hkidsT, hk1, hv1]
    have hr1b : ¬ sd1.rnum > 1 := by omega
    simp only [hr1b, if_false, Int.lt_irrefl]
    refine ⟨_, rfl, ?_⟩
    have hd : List.map Ev.text ((List.range sd2.rnum).map fun i =>
        Ev.directive (confLine (sd2.cell (i * sd2.fnum)) (sd2.cell (i * sd2.fnum + 1))))
        = t.dirs.map specDirLine := by
      rw [List.map_map, hr2]
      apply map_range_eq_map
      intro i hi
      obtain ⟨ha, hb⟩ := hc2 i hi
      simp only [Function.comp, Ev.text, ha, hb, List.get?_eq_get hi, Option.map_some']
      exact confLine_some _ _
    simp only [List.map_append, hd, hx2, render]
    cases hkey : t.key with
    | none => simp
    | some k =>
      cases isbase <;> simp [Ev.text, openTag_some, closeTag_some]

theorem read_db_of_trace (gw : Gateway) (hok : ∀ q, gw q ≠ .error) (g : Globals)
    (log : List Query) (fuel : Nat) (sd : SqlData) (s : List Char)
    (hroot : gw ⟨.sql_select, rootArgs g.sqlconf_ctxs⟩ = .handled (some sd))
    (hguard : ¬ (sd.rnum ≠ 1 ∧ sd.fnum ≠ 1)) (hcell : sd.cell 0 = some s)
    (c : Int) (evs : List Ev)
    (ht : traceCtx gw g.sqlconf_ctxs g.sqlconf_confs g.sqlconf_maps fuel (atoi s) true
      = .ret c evs) :
    ∃ log2, sqlconf_read_db gw fuel ⟨g, log⟩ = .ret 0 ⟨withLines g (evs.map Ev.text), log2⟩ := by
  unfold sqlconf_read_db
  obtain ⟨d0, e0⟩ := dispatch_ok gw hok .sql_load_backend [] ⟨g, log⟩
  rw [e0]
  dsimp only
  obtain ⟨d1, e1⟩ := dispatch_ok gw hok .sql_prepare [] ⟨g, log ++ [⟨.sql_load_backend, []⟩]⟩
  rw [e1]
  dsimp only
  obtain ⟨d2, e2⟩ := dispatch_ok gw hok .sql_define_conn (connArgs g.sqlconf_db)
    ⟨g, log ++ [⟨.sql_load_backend, []⟩] ++ [⟨.sql_prepare, []⟩]⟩
  rw [e2]
  dsimp only
  obtain ⟨d3, e3⟩ := dispatch_ok gw hok .sql_open_conn [some "sqlconf".toList]
    ⟨g, log ++ [⟨.sql_load_backend, []⟩] ++ [⟨.sql_prepare, []⟩]
      ++ [⟨.sql_define_conn, connArgs g.sqlconf_db⟩]⟩
  rw [e3]
  dsimp only
  rw [dispatch_eq, hroot]
  dsimp only
  rw [if_neg hguard]
  simp only [hcell]
  have ha := agrees_ctx gw g fuel (atoi s) true []
    (log ++ [⟨.sql_load_backend, []⟩] ++ [⟨.sql_prepare, []⟩]
      ++ [⟨.sql_define_conn, connArgs g.sqlconf_db⟩]
      ++ [⟨.sql_open_conn, [some "sqlconf".toList]⟩]
      ++ [⟨.sql_select, rootArgs g.sqlconf_ctxs⟩])
  rw [ht] at ha
  obtain ⟨log3, ha⟩ := ha
  have hst : (⟨withLines g [], log ++ [⟨.sql_load_backend, []⟩] ++ [⟨.sql_prepare, []⟩]
      ++ [⟨.sql_define_conn, connArgs g.sqlconf_db⟩]
      ++ [⟨.sql_open_conn, [some "sqlconf".toList]⟩]
      ++ [⟨.sql_select, rootArgs g.sqlconf_ctxs⟩]⟩ : MState)
      = ⟨{ g with sqlconf_conf := some [] }, log ++ [⟨.sql_load_backend, []⟩]
      ++ [⟨.sql_prepare, []⟩]
      ++ [⟨.sql_define_conn, connArgs g.sqlconf_db⟩]
      ++ [⟨.sql_open_conn, [some "sqlconf".toList]⟩]
      ++ [⟨.sql_select, rootArgs g.sqlconf_ctxs⟩]⟩ := rfl
  rw [hst] at ha
  rw [ha]
  dsimp only
  obtain ⟨d5, e5⟩ := dispatch_ok gw hok .sql_close_conn
    [some "sqlconf".toList, some "1".toList] ⟨withLines g ([] ++ evs.map Ev.text), log3⟩
  rw [e5]
  dsimp only
  obtain ⟨d6, e6⟩ := dispatch_ok gw hok .sql_cleanup []
    ⟨withLines g ([] ++ evs.map Ev.text),
      log3 ++ [⟨.sql_close_conn, [some "sqlconf".toList, some "1".toList]⟩]⟩
  rw [e6]
  exact ⟨_, rfl⟩

theorem scenarioGw_ok : ∀ q, scenarioGw q ≠ .error := by
  intro q
  unfold scenarioGw
  repeat' split
  all_goals simp


/-! ## Lemmas on the URI parsing routines -/

theorem scan_hit (c : Char) (a r : List Char) (hc : c ∉ a) (hn : NUL ∉ a) :
    scan c (a ++ c :: r) = some a.length := by
  induction a with
  | nil => simp [scan]
  | cons x a ih =>
    simp only [List.mem_cons, not_or] at hc hn
    have h1 : x ≠ c := fun h => hc.1 h.symm
    have h2 : x ≠ NUL := fun h => hn.1 h.symm
    simp [scan, h1, h2, ih hc.2 hn.2]

theorem scan_miss (c : Char) (a r : List Char) (hc : c ∉ a) (hcn : c ≠ NUL) :
    scan c (a ++ NUL :: r) = none := by
  induction a with
  | nil => simp [scan, hcn.symm]
  | cons x a ih =>
    simp only [List.mem_cons, not_or] at hc
    have h1 : x ≠ c := fun h => hc.1 h.symm
    by_cases h2 : x = NUL
    · have h3 : NUL ≠ c := h2 ▸ h1
      simp [scan, h2, h3]
    · simp [scan, h1, h2, ih hc.2]

theorem scan_miss_end (c : Char) (a : List Char) (hc : c ∉ a) : scan c a = none := by
  induction a with
  | nil => simp [scan]
  | cons x a ih =>
    simp only [List.mem_cons, not_or] at hc
    have h1 : x ≠ c := fun h => hc.1 h.symm
    by_cases h2 : x = NUL
    · have h3 : NUL ≠ c := h2 ▸ h1
      simp [scan, h2, h3]
    · simp [scan, h1, h2, ih hc.2]

theorem untilNul_stop (a r : List Char) (hn : NUL ∉ a) : untilNul (a ++ NUL :: r) = a := by
  induction a with
  | nil => simp [untilNul]
  | cons x a ih =>
    simp only [List.mem_cons, not_or] at hn
    have h2 : x ≠ NUL := fun h => hn.1 h.symm
    simp [untilNul, h2, ih hn.2]

theorem untilNul_end (a : List Char) (hn : NUL ∉ a) : untilNul a = a := by
  induction a with
  | nil => simp [untilNul]
  | cons x a ih =>
    simp only [List.mem_cons, not_or] at hn
    have h2 : x ≠ NUL := fun h => hn.1 h.symm
    simp [untilNul, h2, ih hn.2]

theorem untilNul_append (a r : List Char) (hn : NUL ∉ a) : untilNul (a ++ r) = a ++ untilNul r := by
  induction a with
  | nil => simp
  | cons x a ih =>
    simp only [List.mem_cons, not_or] at hn
    have h2 : x ≠ NUL := fun h => hn.1 h.symm
    simp [untilNul, h2, ih hn.2]

theorem view_skip {buf : List Char} {i : Nat} (a r : List Char) (h : View buf i (a ++ r)) :
    View buf (i + a.length) r := by
  obtain ⟨h1, h2⟩ := h
  have hl : (buf.drop i).length = a.length + r.length := by rw [h2]; simp
  rw [List.length_drop] at hl
  refine ⟨by omega, ?_⟩
  rw [← List.drop_drop, h2]
  simp

theorem view_next {buf : List Char} {i : Nat} (a : List Char) (x : Char) (r : List Char)
    (h : View buf i (a ++ x :: r)) : View buf (i + a.length + 1) r := by
  have := view_skip (a ++ [x]) r (by simpa using h)
  simpa [Nat.add_assoc] using this

theorem view_poke {buf : List Char} {i : Nat} (a : List Char) (x : Char) (r : List Char)
    (h : View buf i (a ++ x :: r)) : View (poke buf (i + a.length)) i (a ++ NUL :: r) := by
  obtain ⟨h1, h2⟩ := h
  refine ⟨by simp [poke]; exact h1, ?_⟩
  unfold poke
  rw [List.drop_set]
  have : ¬ (i + a.length < i) := by omega
  simp only [this, if_false, h2]
  simp

theorem view_poke_behind {buf : List Char} {i j : Nat} {v : List Char} (h : View buf i v)
    (hj : j < i) : View (poke buf j) i v := by
  obtain ⟨h1, h2⟩ := h
  refine ⟨by simp [poke]; exact h1, ?_⟩
  unfold poke
  rw [List.drop_set]
  simp [hj, h2]

theorem cstrAt_view {buf : List Char} {i : Nat} {v : List Char} (h : View buf i v) :
    cstrAt buf i = some (untilNul v) := by
  simp [cstrAt, h.1, h.2]

theorem strchr_view {buf : List Char} {i : Nat} {v : List Char} (h : View buf i v) (c : Char) :
    strchr buf i c = some ((scan c v).map fun k => i + k) := by
  simp [strchr, h.1, h.2]

theorem strncmpEq_view {buf : List Char} {i : Nat} (lit rest : List Char)
    (h : View buf i (lit ++ rest)) (hn : NUL ∉ lit) : strncmpEq buf i lit = some true := by
  simp [strncmpEq, cstrAt_view h, untilNul_append lit rest hn]

theorem strcmpEq_view {buf : List Char} {i : Nat} (lit rest : List Char)
    (h : View buf i (lit ++ NUL :: rest)) (hn : NUL ∉ lit) : strcmpEq buf i lit = some true := by
  simp [strcmpEq, cstrAt_view h, untilNul_stop lit rest hn]

theorem conf_table_only (s : PState) (T r : List Char)
    (hv : View s.buf s.uri ("conf:".toList ++ (T ++ '/' :: r)))
    (h1 : '/' ∉ T) (h2 : ':' ∉ T) (hn : NUL ∉ T) :
    ∃ s2, sqlconf_parse_uri_conf s = .ret 0 s2
      ∧ s2.g = { s.g with sqlconf_confs :=
          { tab := some T, id := some SQLCONF_DEFAULT_ID_NAME,
            key := some SQLCONF_DEFAULT_KEY_NAME, value := some SQLCONF_DEFAULT_VALUE_NAME,
            «where» := none } }
      ∧ View s2.buf s2.uri r := by
  obtain ⟨g, buf, uri⟩ := s
  dsimp only at hv
  unfold sqlconf_parse_uri_conf
  dsimp only
  rw [strncmpEq_view _ _ hv (by decide)]
  have v1 : View buf (uri + 5) (T ++ '/' :: r) := view_skip "conf:".toList _ hv
  have v2 := view_poke T '/' r v1
  simp only [orFault_some, Bool.not_true, Bool.false_eq_true, if_false]
  rw [strchr_view v1, scan_hit '/' T r h1 hn]
  simp only [Option.map_some']
  rw [strchr_view v2, scan_miss ':' T r h2 (by decide)]
  simp only [Option.map_none']
  rw [cstrAt_view v2, untilNul_stop T r hn]
  exact ⟨_, rfl, rfl, view_next T NUL r v2⟩

theorem db_full (s : PState) (U P S D r : List Char)
    (hv : View s.buf s.uri
      (U ++ ':' :: (P ++ '@' :: (S ++ '?' :: ("db".toList ++ '=' :: (D ++ '/' :: r))))))
    (hU : ':' ∉ U) (hP : '@' ∉ P) (hS : '?' ∉ S) (hD : '/' ∉ D)
    (nU : NUL ∉ U) (nP : NUL ∉ P) (nS : NUL ∉ S) (nD : NUL ∉ D) :
    ∃ s2, sqlconf_parse_uri_db s = .ret 0 s2
      ∧ s2.g = { s.g with sqlconf_db :=
          { user := some U, pass := some P, server := some S, database := some D } }
      ∧ View s2.buf s2.uri r := by
  obtain ⟨g, buf, uri⟩ := s
  dsimp only at hv
  unfold sqlconf_parse_uri_db
  dsimp only
  -- user
  rw [strchr_view hv, scan_hit ':' U _ hU nU]
  simp only [Option.map_some']
  have v1 := view_poke U ':' _ hv
  rw [cstrAt_view v1, untilNul_stop U _ nU]
  simp only [orFault_some]
  have v2 := view_next U NUL _ v1
  -- password
  rw [strchr_view v2, scan_hit '@' P _ hP nP]
  simp only [Option.map_some']
  have v3 := view_poke P '@' _ v2
  rw [cstrAt_view v3, untilNul_stop P _ nP]
  simp only [orFault_some]
  have v4 := view_next P NUL _ v3
  -- server
  rw [strchr_view v4, scan_hit '?' S _ hS nS]
  simp only [Option.map_some']
  have v5 := view_poke S '?' _ v4
  rw [cstrAt_view v5, untilNul_stop S _ nS]
  simp only [orFault_some]
  have v6 := view_next S NUL _ v5
  -- db=
  rw [strchr_view v6, scan_hit '=' "db".toList _ (by decide) (by decide)]
  simp only [Option.map_some']
  have v7 := view_poke "db".toList '=' _ v6
  rw [strcmpEq_view _ _ v7 (by decide)]
  simp only [orFault_some, Bool.not_true, Bool.false_eq_true, if_false]
  have v8 := view_next "db".toList NUL _ v7
  -- database
  rw [strchr_view v8, scan_hit '/' D _ hD nD]
  simp only [Option.map_some']
  have v9 := view_poke D '/' _ v8
  rw [cstrAt_view v9, untilNul_stop D _ nD]
  simp only [orFault_some]
  exact ⟨_, rfl, rfl, view_next D NUL _ v9⟩

theorem ctx_table_only (s : PState) (x : Char) (T r : List Char)
    (hv : View s.buf s.uri ("ctx:".toList ++ (x :: (T ++ '/' :: r))))
    (h1 : '/' ∉ T) (h2 : ':' ∉ T) (hn : NUL ∉ T) :
    ∃ s2, sqlconf_parse_uri_ctx s = .ret 0 s2
      ∧ s2.g = { s.g with sqlconf_ctxs :=
          { tab := some T, id := some SQLCONF_DEFAULT_ID_NAME,
            parent_id := some SQLCONF_DEFAULT_PARENT_ID_NAME,
            key := some SQLCONF_DEFAULT_KEY_NAME, value := some SQLCONF_DEFAULT_VALUE_NAME,
            «where» := none, base_id := s.g.sqlconf_ctxs.base_id } }
      ∧ View s2.buf s2.uri r := by
  obtain ⟨g, buf, uri⟩ := s
  dsimp only at hv
  unfold sqlconf_parse_uri_ctx
  dsimp only
  rw [strncmpEq_view _ _ hv (by decide)]
  have v1 : View buf (uri + 5) (T ++ '/' :: r) :=
    view_skip ("ctx:".toList ++ [x]) _ (by simpa using hv)
  have v2 := view_poke T '/' r v1
  simp only [orFault_some, Bool.not_true, Bool.false_eq_true, if_false]
  rw [strchr_view v1, scan_hit '/' T r h1 hn]
  simp only [Option.map_some']
  rw [strchr_view v2, scan_miss ':' T r h2 (by decide)]
  simp only [Option.map_none']
  rw [cstrAt_view v2, untilNul_stop T r hn]
  exact ⟨_, rfl, rfl, view_next T NUL r v2⟩

theorem ctx_where_only (s : PState) (x : Char) (T W r : List Char)
    (hv : View s.buf s.uri
      ("ctx:".toList ++ (x :: (T ++ ':' :: ("where".toList ++ '=' :: (W ++ '/' :: r))))))
    (h1 : '/' ∉ T) (h2 : ':' ∉ T) (hn : NUL ∉ T)
    (h4 : '/' ∉ W) (h5 : ',' ∉ W) (hnW : NUL ∉ W) :
    ∃ s2, sqlconf_parse_uri_ctx s = .ret 0 s2
      ∧ s2.g = { s.g with sqlconf_ctxs :=
          { tab := some T, id := some SQLCONF_DEFAULT_ID_NAME,
            parent_id := some SQLCONF_DEFAULT_PARENT_ID_NAME,
            key := some SQLCONF_DEFAULT_KEY_NAME, value := some SQLCONF_DEFAULT_VALUE_NAME,
            «where» := some W, base_id := s.g.sqlconf_ctxs.base_id } }
      ∧ View s2.buf s2.uri r := by
  obtain ⟨g, buf, uri⟩ := s
  dsimp only at hv
  unfold sqlconf_parse_uri_ctx
  dsimp only
  rw [strncmpEq_view _ _ hv (by decide)]
  simp only [orFault_some, Bool.not_true, Bool.false_eq_true, if_false]
  have v1 : View buf (uri + 5) ((T ++ ':' :: ("where".toList ++ '=' :: W)) ++ '/' :: r) :=
    view_skip ("ctx:".toList ++ [x]) _ (by simpa using hv)
  have hbody1 : '/' ∉ T ++ ':' :: ("where".toList ++ '=' :: W) := by
    simp only [List.mem_append, List.mem_cons, not_or]
    exact ⟨h1, by decide, by decide, by decide, h4⟩
  have hbody2 : NUL ∉ T ++ ':' :: ("where".toList ++ '=' :: W) := by
    simp only [List.mem_append, List.mem_cons, not_or]
    exact ⟨hn, by decide, by decide, by decide, hnW⟩
  rw [strchr_view v1, scan_hit '/' _ r hbody1 hbody2]
  simp only [Option.map_some']
  have v2 := view_poke _ '/' r v1
  -- table
  have v2b : View (poke buf (uri + 5 + (T ++ ':' :: ("where".toList ++ '=' :: W)).length))
      (uri + 5) (T ++ ':' :: ("where".toList ++ '=' :: (W ++ NUL :: r))) := by
    simpa using v2
  rw [strchr_view v2b, scan_hit ':' T _ h2 hn]
  simp only [Option.map_some']
  have v3 := view_poke T ':' _ v2b
  rw [cstrAt_view v3, untilNul_stop T _ hn]
  simp only [orFault_some]
  have v4 := view_next T NUL _ v3
  -- no comma, then where=
  have v4b : View (poke (poke buf (uri + 5 + (T ++ ':' :: ("where".toList ++ '=' :: W)).length))
      (uri + 5 + T.length)) (uri + 5 + T.length + 1)
      (("where".toList ++ '=' :: W) ++ NUL :: r) := by
    simpa using v4
  have hc : ',' ∉ "where".toList ++ '=' :: W := by
    simp only [List.mem_append, List.mem_cons, not_or]
    exact ⟨by decide, by decide, h5⟩
  rw [strchr_view v4b, scan_miss ',' _ r hc (by decide)]
  simp only [Option.map_none']
  rw [strchr_view v4, scan_hit '=' "where".toList _ (by decide) (by decide)]
  simp only [Option.map_some']
  have v5 := view_poke "where".toList '=' _ v4
  rw [strcmpEq_view _ _ v5 (by decide)]
  simp only [orFault_some, if_true]
  have v6 := view_next "where".toList NUL _ v5
  rw [cstrAt_view v6, untilNul_stop W _ hnW]
  simp only [orFault_some]
  refine ⟨_, rfl, rfl, ?_⟩
  have v7 := view_next W NUL r v6
  have v8 : View (poke (poke (poke buf (uri + 5 + (T ++ ':' :: ("where".toList ++ '=' :: W)).length))
      (uri + 5 + T.length)) (uri + 5 + T.length + 1 + "where".toList.length))
      (uri + 5 + (T ++ ':' :: ("where".toList ++ '=' :: W)).length + 1) r := by
    have e : uri + 5 + T.length + 1 + "where".toList.length + 1 + W.length + 1
        = uri + 5 + (T ++ ':' :: ("where".toList ++ '=' :: W)).length + 1 := by
      simp only [List.length_append, List.length_cons]
      omega
    rw [← e]
    exact v7
  exact v8

theorem view_cast {buf : List Char} {i j : Nat} {v : List Char} (h : View buf i v) (e : i = j) :
    View buf j v := e ▸ h

theorem ctx_cols (s : PState) (x : Char)
    (T a b c d r : List Char)
    (hv : View s.buf s.uri ("ctx:".toList ++ (x :: (T ++ ':' :: (a ++ ',' :: (b ++ ',' ::
      (c ++ ',' :: (d ++ '/' :: r))))))))
    (sT : '/' ∉ T) (sa : '/' ∉ a) (sb : '/' ∉ b) (sc : '/' ∉ c) (sd : '/' ∉ d)
    (cT : ':' ∉ T) (ka : ',' ∉ a) (kb : ',' ∉ b) (kc : ',' ∉ c) (cd : ':' ∉ d)
    (nT : NUL ∉ T) (na : NUL ∉ a) (nb : NUL ∉ b) (nc : NUL ∉ c) (nd : NUL ∉ d) :
    ∃ s2, sqlconf_parse_uri_ctx s = .ret 0 s2
      ∧ s2.g = { s.g with sqlconf_ctxs :=
          { tab := some T, id := some a, parent_id := some b, key := some c, value := some d,
            «where» := none, base_id := s.g.sqlconf_ctxs.base_id } }
      ∧ View s2.buf s2.uri r := by
  obtain ⟨g, buf, uri⟩ := s
  dsimp only at hv
  unfold sqlconf_parse_uri_ctx
  dsimp only
  rw [strncmpEq_view _ _ hv (by decide)]
  simp only [orFault_some, Bool.not_true, Bool.false_eq_true, if_false]
  have v1 : View buf (uri + 5)
      ((T ++ ':' :: (a ++ ',' :: (b ++ ',' :: (c ++ ',' :: d)))) ++ '/' :: r) :=
    view_skip ("ctx:".toList ++ [x]) _ (by simpa using hv)
  have hbody1 : '/' ∉ T ++ ':' :: (a ++ ',' :: (b ++ ',' :: (c ++ ',' :: d))) := by
    simp only [List.mem_append, List.mem_cons, not_or]
    exact ⟨sT, by decide, sa, by decide, sb, by decide, sc, by decide, sd⟩
  have hbody2 : NUL ∉ T ++ ':' :: (a ++ ',' :: (b ++ ',' :: (c ++ ',' :: d))) := by
    simp only [List.mem_append, List.mem_cons, not_or]
    exact ⟨nT, by decide, na, by decide, nb, by decide, nc, by decide, nd⟩
  rw [strchr_view v1, scan_hit '/' _ r hbody1 hbody2]
  simp only [Option.map_some']
  have v2 := view_poke _ '/' r v1
  simp only [List.append_assoc, List.cons_append] at v2
  rw [strchr_view v2, scan_hit ':' T _ cT nT]
  simp only [Option.map_some']
  have v3 := view_poke T ':' _ v2
  rw [cstrAt_view v3, untilNul_stop T _ nT]
  simp only [orFault_some]
  have v4 := view_next T NUL _ v3
  rw [strchr_view v4, scan_hit ',' a _ ka na]
  simp only [Option.map_some']
  have v5 := view_poke a ',' _ v4
  rw [cstrAt_view v5, untilNul_stop a _ na]
  simp only [orFault_some]
  have v6 := view_next a NUL _ v5
  rw [strchr_view v6, scan_hit ',' b _ kb nb]
  simp only [Option.map_some']
  have v7 := view_poke b ',' _ v6
  rw [cstrAt_view v7, untilNul_stop b _ nb]
  simp only [orFault_some]
  have v8 := view_next b NUL _ v7
  rw [strchr_view v8, scan_hit ',' c _ kc nc]
  simp only [Option.map_some']
  have v9 := view_poke c ',' _ v8
  rw [cstrAt_view v9, untilNul_stop c _ nc]
  simp only [orFault_some]
  have v10 := view_next c NUL _ v9
  rw [strchr_view v10, scan_miss ':' d r cd (by decide)]
  simp only [Option.map_none']
  rw [cstrAt_view v10, untilNul_stop d r nd]
  simp only [orFault_some]
  refine ⟨_, rfl, rfl, view_cast (view_next d NUL r v10) ?_⟩
  simp only [List.length_append, List.length_cons]
  omega

theorem ctx_cols_where (s : PState) (x : Char)
    (T a b c d W r : List Char)
    (hv : View s.buf s.uri ("ctx:".toList ++ (x :: (T ++ ':' :: (a ++ ',' :: (b ++ ',' ::
      (c ++ ',' :: (d ++ ':' :: ("where=".toList ++ (W ++ '/' :: r))))))))))
    (sT : '/' ∉ T) (sa : '/' ∉ a) (sb : '/' ∉ b) (sc : '/' ∉ c) (sd : '/' ∉ d) (sW : '/' ∉ W)
    (cT : ':' ∉ T) (ka : ',' ∉ a) (kb : ',' ∉ b) (kc : ',' ∉ c) (cd : ':' ∉ d)
    (nT : NUL ∉ T) (na : NUL ∉ a) (nb : NUL ∉ b) (nc : NUL ∉ c) (nd : NUL ∉ d)
    (nW : NUL ∉ W) :
    ∃ s2, sqlconf_parse_uri_ctx s = .ret 0 s2
      ∧ s2.g = { s.g with sqlconf_ctxs :=
          { tab := some T, id := some a, parent_id := some b, key := some c, value := some d,
            «where» := some W, base_id := s.g.sqlconf_ctxs.base_id } }
      ∧ View s2.buf s2.uri r := by
  obtain ⟨g, buf, uri⟩ := s
  dsimp only at hv
  unfold sqlconf_parse_uri_ctx
  dsimp only
  rw [strncmpEq_view _ _ hv (by decide)]
  simp only [orFault_some, Bool.not_true, Bool.false_eq_true, if_false]
  have v1 : View buf (uri + 5)
      ((T ++ ':' :: (a ++ ',' :: (b ++ ',' :: (c ++ ',' :: (d ++ ':' :: ("where=".toList ++ W))))))
        ++ '/' :: r) :=
    view_skip ("ctx:".toList ++ [x]) _ (by simpa using hv)
  have hbody1 : '/' ∉ T ++ ':' :: (a ++ ',' :: (b ++ ',' :: (c ++ ',' ::
      (d ++ ':' :: ("where=".toList ++ W))))) := by
    simp only [List.mem_append, List.mem_cons, not_or]
    exact ⟨sT, by decide, sa, by decide, sb, by decide, sc, by decide, sd, by decide,
      by decide, sW⟩
  have hbody2 : NUL ∉ T ++ ':' :: (a ++ ',' :: (b ++ ',' :: (c ++ ',' ::
      (d ++ ':' :: ("where=".toList ++ W))))) := by
    simp only [List.mem_append, List.mem_cons, not_or]
    exact ⟨nT, by decide, na, by decide, nb, by decide, nc, by decide, nd, by decide,
      by decide, nW⟩
  rw [strchr_view v1, scan_hit '/' _ r hbody1 hbody2]
  simp only [Option.map_some']
  have v2 := view_poke _ '/' r v1
  simp only [List.append_assoc, List.cons_append] at v2
  rw [strchr_view v2, scan_hit ':' T _ cT nT]
  simp only [Option.map_some']
  have v3 := view_poke T ':' _ v2
  rw [cstrAt_view v3, untilNul_stop T _ nT]
  simp only [orFault_some]
  have v4 := view_next T NUL _ v3
  rw [strchr_view v4, scan_hit ',' a _ ka na]
  simp only [Option.map_some']
  have v5 := view_poke a ',' _ v4
  rw [cstrAt_view v5, untilNul_stop a _ na]
  simp only [orFault_some]
  have v6 := view_next a NUL _ v5
  rw [strchr_view v6, scan_hit ',' b _ kb nb]
  simp only [Option.map_some']
  have v7 := view_poke b ',' _ v6
  rw [cstrAt_view v7, untilNul_stop b _ nb]
  simp only [orFault_some]
  have v8 := view_next b NUL _ v7
  rw [strchr_view v8, scan_hit ',' c _ kc nc]
  simp only [Option.map_some']
  have v9 := view_poke c ',' _ v8
  rw [cstrAt_view v9, untilNul_stop c _ nc]
  simp only [orFault_some]
  have v10 := view_next c NUL _ v9
  rw [strchr_view v10, scan_hit ':' d _ cd nd]
  simp only [Option.map_some']
  have v11 := view_poke d ':' _ v10
  rw [cstrAt_view v11, untilNul_stop d _ nd]
  simp only [orFault_some]
  have v12 := view_next d NUL _ v11
  rw [strncmpEq_view _ _ v12 (by decide)]
  simp only [orFault_some, if_true]
  have v13 := view_skip "where=".toList _ v12
  have v13b : View _ (uri + 5 + T.length + 1 + a.length + 1 + b.length + 1 + c.length + 1
      + d.length + 1 + 6) (W ++ NUL :: r) := v13
  rw [cstrAt_view v13b, untilNul_stop W r nW]
  simp only [orFault_some]
  refine ⟨_, rfl, rfl, view_cast (view_next W NUL r v13b) ?_⟩
  have e6 : "where=".toList.length = 6 := rfl
  simp only [List.length_append, List.length_cons, e6]
  omega

theorem conf_where_only (s : PState) (T W r : List Char)
    (hv : View s.buf s.uri
      ("conf:".toList ++ (T ++ ':' :: ("where".toList ++ '=' :: (W ++ '/' :: r)))))
    (h1 : '/' ∉ T) (h2 : ':' ∉ T) (hn : NUL ∉ T)
    (h4 : '/' ∉ W) (h5 : ',' ∉ W) (hnW : NUL ∉ W) :
    ∃ s2, sqlconf_parse_uri_conf s = .ret 0 s2
      ∧ s2.g = { s.g with sqlconf_confs :=
          { tab := some T, id := some SQLCONF_DEFAULT_ID_NAME,
            key := some SQLCONF_DEFAULT_KEY_NAME, value := some SQLCONF_DEFAULT_VALUE_NAME,
            «where» := some W } }
      ∧ View s2.buf s2.uri r := by
  obtain ⟨g, buf, uri⟩ := s
  dsimp only at hv
  unfold sqlconf_parse_uri_conf
  dsimp only
  rw [strncmpEq_view _ _ hv (by decide)]
  simp only [orFault_some, Bool.not_true, Bool.false_eq_true, if_false]
  have v1 : View buf (uri + 5) ((T ++ ':' :: ("where".toList ++ '=' :: W)) ++ '/' :: r) :=
    view_skip "conf:".toList _ (by simpa using hv)
  have hbody1 : '/' ∉ T ++ ':' :: ("where".toList ++ '=' :: W) := by
    simp only [List.mem_append, List.mem_cons, not_or]
    exact ⟨h1, by decide, by decide, by decide, h4⟩
  have hbody2 : NUL ∉ T ++ ':' :: ("where".toList ++ '=' :: W) := by
    simp only [List.mem_append, List.mem_cons, not_or]
    exact ⟨hn, by decide, by decide, by decide, hnW⟩
  rw [strchr_view v1, scan_hit '/' _ r hbody1 hbody2]
  simp only [Option.map_some']
  have v2 := view_poke _ '/' r v1
  simp only [List.append_assoc, List.cons_append] at v2
  rw [strchr_view v2, scan_hit ':' T _ h2 hn]
  simp only [Option.map_some']
  have v3 := view_poke T ':' _ v2
  rw [cstrAt_view v3, untilNul_stop T _ hn]
  simp only [orFault_some]
  have v4 := view_next T NUL _ v3
  have hc : ',' ∉ "where".toList ++ '=' :: W := by
    simp only [List.mem_append, List.mem_cons, not_or]
    exact ⟨by decide, by decide, h5⟩
  have v4c := v4
  rw [show "where".toList ++ '=' :: (W ++ NUL :: r)
      = ("where".toList ++ '=' :: W) ++ NUL :: r by simp] at v4c
  rw [strchr_view v4c, scan_miss ',' _ r hc (by decide)]
  simp only [Option.map_none']
  rw [strchr_view v4, scan_hit '=' "where".toList _ (by decide) (by decide)]
  simp only [Option.map_some']
  have v5 := view_poke "where".toList '=' _ v4
  rw [strcmpEq_view _ _ v5 (by decide)]
  simp only [orFault_some, if_true]
  have v6 := view_next "where".toList NUL _ v5
  rw [cstrAt_view v6, untilNul_stop W _ hnW]
  simp only [orFault_some]
  refine ⟨_, rfl, rfl, view_cast (view_next W NUL r v6) ?_⟩
  have e5 : "where".toList.length = 5 := rfl
  simp only [List.length_append, List.length_cons, e5]
  omega

theorem conf_cols (s : PState) (T a b c r : List Char)
    (hv : View s.buf s.uri ("conf:".toList ++ (T ++ ':' :: (a ++ ',' :: (b ++ ',' ::
      (c ++ '/' :: r))))))
    (sT : '/' ∉ T) (sa : '/' ∉ a) (sb : '/' ∉ b) (sc : '/' ∉ c)
    (cT : ':' ∉ T) (ka : ',' ∉ a) (kb : ',' ∉ b) (cc : ':' ∉ c)
    (nT : NUL ∉ T) (na : NUL ∉ a) (nb : NUL ∉ b) (nc : NUL ∉ c) :
    ∃ s2, sqlconf_parse_uri_conf s = .ret 0 s2
      ∧ s2.g = { s.g with sqlconf_confs :=
          { tab := some T, id := some a, key := some b, value := some c, «where» := none } }
      ∧ View s2.buf s2.uri r := by
  obtain ⟨g, buf, uri⟩ := s
  dsimp only at hv
  unfold sqlconf_parse_uri_conf
  dsimp only
  rw [strncmpEq_view _ _ hv (by decide)]
  simp only [orFault_some, Bool.not_true, Bool.false_eq_true, if_false]
  have v1 : View buf (uri + 5) ((T ++ ':' :: (a ++ ',' :: (b ++ ',' :: c))) ++ '/' :: r) :=
    view_skip "conf:".toList _ (by simpa using hv)
  have hbody1 : '/' ∉ T ++ ':' :: (a ++ ',' :: (b ++ ',' :: c)) := by
    simp only [List.mem_append, List.mem_cons, not_or]
    exact ⟨sT, by decide, sa, by decide, sb, by decide, sc⟩
  have hbody2 : NUL ∉ T ++ ':' :: (a ++ ',' :: (b ++ ',' :: c)) := by
    simp only [List.mem_append, List.mem_cons, not_or]
    exact ⟨nT, by decide, na, by decide, nb, by decide, nc⟩
  rw [strchr_view v1, scan_hit '/' _ r hbody1 hbody2]
  simp only [Option.map_some']
  have v2 := view_poke _ '/' r v1
  simp only [List.append_assoc, List.cons_append] at v2
  rw [strchr_view v2, scan_hit ':' T _ cT nT]
  simp only [Option.map_some']
  have v3 := view_poke T ':' _ v2
  rw [cstrAt_view v3, untilNul_stop T _ nT]
  simp only [orFault_some]
  have v4 := view_next T NUL _ v3
  rw [strchr_view v4, scan_hit ',' a _ ka na]
  simp only [Option.map_some']
  have v5 := view_poke a ',' _ v4
  rw [cstrAt_view v5, untilNul_stop a _ na]
  simp only [orFault_some]
  have v6 := view_next a NUL _ v5
  rw [strchr_view v6, scan_hit ',' b _ kb nb]
  simp only [Option.map_some']
  have v7 := view_poke b ',' _ v6
  rw [cstrAt_view v7, untilNul_stop b _ nb]
  simp only [orFault_some]
  have v8 := view_next b NUL _ v7
  rw [strchr_view v8, scan_miss ':' c r cc (by decide)]
  simp only [Option.map_none']
  rw [cstrAt_view v8, untilNul_stop c r nc]
  simp only [orFault_some]
  refine ⟨_, rfl, rfl, view_cast (view_next c NUL r v8) ?_⟩
  simp only [List.length_append, List.length_cons]
  omega

theorem conf_cols_where (s : PState) (T a b c W r : List Char)
    (hv : View s.buf s.uri ("conf:".toList ++ (T ++ ':' :: (a ++ ',' :: (b ++ ',' ::
      (c ++ ':' :: ("where=".toList ++ (W ++ '/' :: r))))))))
    (sT : '/' ∉ T) (sa : '/' ∉ a) (sb : '/' ∉ b) (sc : '/' ∉ c) (sW : '/' ∉ W)
    (cT : ':' ∉ T) (ka : ',' ∉ a) (kb : ',' ∉ b) (cc : ':' ∉ c)
    (nT : NUL ∉ T) (na : NUL ∉ a) (nb : NUL ∉ b) (nc : NUL ∉ c) (nW : NUL ∉ W) :
    ∃ s2, sqlconf_parse_uri_conf s = .ret 0 s2
      ∧ s2.g = { s.g with sqlconf_confs :=
          { tab := some T, id := some a, key := some b, value := some c, «where» := some W } }
      ∧ View s2.buf s2.uri r := by
  obtain ⟨g, buf, uri⟩ := s
  dsimp only at hv
  unfold sqlconf_parse_uri_conf
  dsimp only
  rw [strncmpEq_view _ _ hv (by decide)]
  simp only [orFault_some, Bool.not_true, Bool.false_eq_true, if_false]
  have v1 : View buf (uri + 5)
      ((T ++ ':' :: (a ++ ',' :: (b ++ ',' :: (c ++ ':' :: ("where=".toList ++ W)))))
        ++ '/' :: r) :=
    view_skip "conf:".toList _ (by simpa using hv)
  have hbody1 : '/' ∉ T ++ ':' :: (a ++ ',' :: (b ++ ',' ::
      (c ++ ':' :: ("where=".toList ++ W)))) := by
    simp only [List.mem_append, List.mem_cons, not_or]
    exact ⟨sT, by decide, sa, by decide, sb, by decide, sc, by decide, by decide, sW⟩
  have hbody2 : NUL ∉ T ++ ':' :: (a ++ ',' :: (b ++ ',' ::
      (c ++ ':' :: ("where=".toList ++ W)))) := by
    simp only [List.mem_append, List.mem_cons, not_or]
    exact ⟨nT, by decide, na, by decide, nb, by decide, nc, by decide, by decide, nW⟩
  rw [strchr_view v1, scan_hit '/' _ r hbody1 hbody2]
  simp only [Option.map_some']
  have v2 := view_poke _ '/' r v1
  simp only [List.append_assoc, List.cons_append] at v2
  rw [strchr_view v2, scan_hit ':' T _ cT nT]
  simp only [Option.map_some']
  have v3 := view_poke T ':' _ v2
  rw [cstrAt_view v3, untilNul_stop T _ nT]
  simp only [orFault_some]
  have v4 := view_next T NUL _ v3
  rw [strchr_view v4, scan_hit ',' a _ ka na]
  simp only [Option.map_some']
  have v5 := view_poke a ',' _ v4
  rw [cstrAt_view v5, untilNul_stop a _ na]
  simp only [orFault_some]
  have v6 := view_next a NUL _ v5
  rw [strchr_view v6, scan_hit ',' b _ kb nb]
  simp only [Option.map_some']
  have v7 := view_poke b ',' _ v6
  rw [cstrAt_view v7, untilNul_stop b _ nb]
  simp only [orFault_some]
  have v8 := view_next b NUL _ v7
  rw [strchr_view v8, scan_hit ':' c _ cc nc]
  simp only [Option.map_some']
  have v9 := view_poke c ':' _ v8
  rw [cstrAt_view v9, untilNul_stop c _ nc]
  simp only [orFault_some]
  have v10 := view_next c NUL _ v9
  rw [strncmpEq_view _ _ v10 (by decide)]
  simp only [orFault_some, if_true]
  have v11 : View _ (uri + 5 + T.length + 1 + a.length + 1 + b.length + 1 + c.length + 1 + 6)
      (W ++ NUL :: r) := view_skip "where=".toList _ v10
  rw [cstrAt_view v11, untilNul_stop W r nW]
  simp only [orFault_some]
  refine ⟨_, rfl, rfl, view_cast (view_next W NUL r v11) ?_⟩
  have e6 : "where=".toList.length = 6 := rfl
  simp only [List.length_append, List.length_cons, e6]
  omega

theorem view_end {buf : List Char} {i : Nat} (a : List Char) (h : View buf i a) :
    View buf (i + a.length) [] :=
  view_skip a [] (by simpa using h)

theorem map_table_only_slash (s : PState) (T r : List Char)
    (hv : View s.buf s.uri ("map:".toList ++ (T ++ '/' :: r)))
    (h1 : '/' ∉ T) (h2 : ':' ∉ T) (hn : NUL ∉ T) :
    ∃ s2, sqlconf_parse_uri_map s = .ret 0 s2
      ∧ s2.g = { s.g with sqlconf_maps :=
          { tab := some T, conf_id := some SQLCONF_DEFAULT_CONF_ID_NAME,
            ctx_id := some SQLCONF_DEFAULT_CTXT_ID_NAME, «where» := none } }
      ∧ View s2.buf s2.uri r := by
  obtain ⟨g, buf, uri⟩ := s
  dsimp only at hv
  unfold sqlconf_parse_uri_map
  dsimp only
  rw [strncmpEq_view _ _ hv (by decide)]
  simp only [orFault_some, Bool.not_true, Bool.false_eq_true, if_false]
  have v1 : View buf (uri + 4) (T ++ '/' :: r) := view_skip "map:".toList _ hv
  rw [strchr_view v1, scan_hit '/' T r h1 hn]
  simp only [Option.map_some', orFault_some]
  have v2 := view_poke T '/' r v1
  rw [strchr_view v2, scan_miss ':' T r h2 (by decide)]
  simp only [Option.map_none']
  rw [cstrAt_view v2, untilNul_stop T r hn]
  exact ⟨_, rfl, rfl, view_next T NUL r v2⟩

theorem map_table_only_end (s : PState) (T : List Char)
    (hv : View s.buf s.uri ("map:".toList ++ T))
    (h1 : '/' ∉ T) (h2 : ':' ∉ T) (hn : NUL ∉ T) :
    ∃ s2, sqlconf_parse_uri_map s = .ret 0 s2
      ∧ s2.g = { s.g with sqlconf_maps :=
          { tab := some T, conf_id := some SQLCONF_DEFAULT_CONF_ID_NAME,
            ctx_id := some SQLCONF_DEFAULT_CTXT_ID_NAME, «where» := none } }
      ∧ View s2.buf s2.uri [] := by
  obtain ⟨g, buf, uri⟩ := s
  dsimp only at hv
  unfold sqlconf_parse_uri_map
  dsimp only
  rw [strncmpEq_view _ _ hv (by decide)]
  simp only [orFault_some, Bool.not_true, Bool.false_eq_true, if_false]
  have v1 : View buf (uri + 4) T := view_skip "map:".toList _ hv
  rw [strchr_view v1, scan_miss_end '/' T h1]
  simp only [Option.map_none', orFault_some]
  rw [strchr_view v1, scan_miss_end ':' T h2]
  simp only [Option.map_none']
  rw [cstrAt_view v1, untilNul_end T hn]
  exact ⟨_, rfl, rfl, view_end T v1⟩

theorem map_cols_slash (s : PState) (T a b r : List Char)
    (hv : View s.buf s.uri ("map:".toList ++ (T ++ ':' :: (a ++ ',' :: (b ++ '/' :: r)))))
    (sT : '/' ∉ T) (sa : '/' ∉ a) (sb : '/' ∉ b)
    (cT : ':' ∉ T) (ka : ',' ∉ a) (cb : ':' ∉ b)
    (nT : NUL ∉ T) (na : NUL ∉ a) (nb : NUL ∉ b) :
    ∃ s2, sqlconf_parse_uri_map s = .ret 0 s2
      ∧ s2.g = { s.g with sqlconf_maps :=
          { tab := some T, conf_id := some a, ctx_id := some b, «where» := none } }
      ∧ View s2.buf s2.uri r := by
  obtain ⟨g, buf, uri⟩ := s
  dsimp only at hv
  unfold sqlconf_parse_uri_map
  dsimp only
  rw [strncmpEq_view _ _ hv (by decide)]
  simp only [orFault_some, Bool.not_true, Bool.false_eq_true, if_false]
  have v1 : View buf (uri + 4) ((T ++ ':' :: (a ++ ',' :: b)) ++ '/' :: r) :=
    view_skip "map:".toList _ (by simpa using hv)
  have hbody1 : '/' ∉ T ++ ':' :: (a ++ ',' :: b) := by
    simp only [List.mem_append, List.mem_cons, not_or]
    exact ⟨sT, by decide, sa, by decide, sb⟩
  have hbody2 : NUL ∉ T ++ ':' :: (a ++ ',' :: b) := by
    simp only [List.mem_append, List.mem_cons, not_or]
    exact ⟨nT, by decide, na, by decide, nb⟩
  rw [strchr_view v1, scan_hit '/' _ r hbody1 hbody2]
  simp only [Option.map_some', orFault_some]
  have v2 := view_poke _ '/' r v1
  simp only [List.append_assoc, List.cons_append] at v2
  rw [strchr_view v2, scan_hit ':' T _ cT nT]
  simp only [Option.map_some']
  have v3 := view_poke T ':' _ v2
  rw [cstrAt_view v3, untilNul_stop T _ nT]
  simp only [orFault_some]
  have v4 := view_next T NUL _ v3
  rw [strchr_view v4, scan_hit ',' a _ ka na]
  simp only [Option.map_some']
  have v5 := view_poke a ',' _ v4
  rw [cstrAt_view v5, untilNul_stop a _ na]
  simp only [orFault_some]
  have v6 := view_next a NUL _ v5
  rw [strchr_view v6, scan_miss ':' b r cb (by decide)]
  simp only [Option.map_none']
  rw [cstrAt_view v6, untilNul_stop b r nb]
  simp only [orFault_some]
  refine ⟨_, rfl, rfl, view_cast (view_next b NUL r v6) ?_⟩
  simp only [List.length_append, List.length_cons]
  omega

theorem map_cols_end (s : PState) (T a b : List Char)
    (hv : View s.buf s.uri ("map:".toList ++ (T ++ ':' :: (a ++ ',' :: b))))
    (sT : '/' ∉ T) (sa : '/' ∉ a) (sb : '/' ∉ b)
    (cT : ':' ∉ T) (ka : ',' ∉ a) (cb : ':' ∉ b)
    (nT : NUL ∉ T) (na : NUL ∉ a) (nb : NUL ∉ b) :
    ∃ s2, sqlconf_parse_uri_map s = .ret 0 s2
      ∧ s2.g = { s.g with sqlconf_maps :=
          { tab := some T, conf_id := some a, ctx_id := some b, «where» := none } }
      ∧ View s2.buf s2.uri [] := by
  obtain ⟨g, buf, uri⟩ := s
  dsimp only at hv
  unfold sqlconf_parse_uri_map
  dsimp only
  rw [strncmpEq_view _ _ hv (by decide)]
  simp only [orFault_some, Bool.not_true, Bool.false_eq_true, if_false]
  have v1 : View buf (uri + 4) (T ++ ':' :: (a ++ ',' :: b)) :=
    view_skip "map:".toList _ hv
  have hbody1 : '/' ∉ T ++ ':' :: (a ++ ',' :: b) := by
    simp only [List.mem_append, List.mem_cons, not_or]
    exact ⟨sT, by decide, sa, by decide, sb⟩
  rw [strchr_view v1, scan_miss_end '/' _ hbody1]
  simp only [Option.map_none', orFault_some]
  rw [strchr_view v1, scan_hit ':' T _ cT nT]
  simp only [Option.map_some']
  have v3 := view_poke T ':' _ v1
  rw [cstrAt_view v3, untilNul_stop T _ nT]
  simp only [orFault_some]
  have v4 := view_next T NUL _ v3
  rw [strchr_view v4, scan_hit ',' a _ ka na]
  simp only [Option.map_some']
  have v5 := view_poke a ',' _ v4
  rw [cstrAt_view v5, untilNul_stop a _ na]
  simp only [orFault_some]
  have v6 := view_next a NUL _ v5
  rw [strchr_view v6, scan_miss_end ':' b cb]
  simp only [Option.map_none']
  rw [cstrAt_view v6, untilNul_end b nb]
  simp only [orFault_some]
  exact ⟨_, rfl, rfl, view_end b v6⟩

theorem map_cols_where_slash (s : PState)
    (T a b W r : List Char)
    (hv : View s.buf s.uri ("map:".toList ++ (T ++ ':' :: (a ++ ',' ::
      (b ++ ':' :: ("where=".toList ++ (W ++ '/' :: r)))))))
    (sT : '/' ∉ T) (sa : '/' ∉ a) (sb : '/' ∉ b) (sW : '/' ∉ W)
    (cT : ':' ∉ T) (ka : ',' ∉ a) (cb : ':' ∉ b)
    (nT : NUL ∉ T) (na : NUL ∉ a) (nb : NUL ∉ b) (nW : NUL ∉ W) :
    ∃ s2, sqlconf_parse_uri_map s = .ret 0 s2
      ∧ s2.g = { s.g with sqlconf_maps :=
          { tab := some T, conf_id := some a, ctx_id := some b, «where» := some W } }
      ∧ View s2.buf s2.uri r := by
  obtain ⟨g, buf, uri⟩ := s
  dsimp only at hv
  unfold sqlconf_parse_uri_map
  dsimp only
  rw [strncmpEq_view _ _ hv (by decide)]
  simp only [orFault_some, Bool.not_true, Bool.false_eq_true, if_false]
  have v1 : View buf (uri + 4)
      ((T ++ ':' :: (a ++ ',' :: (b ++ ':' :: ("where=".toList ++ W)))) ++ '/' :: r) :=
    view_skip "map:".toList _ (by simpa using hv)
  have hbody1 : '/' ∉ T ++ ':' :: (a ++ ',' :: (b ++ ':' :: ("where=".toList ++ W))) := by
    simp only [List.mem_append, List.mem_cons, not_or]
    exact ⟨sT, by decide, sa, by decide, sb, by decide, by decide, sW⟩
  have hbody2 : NUL ∉ T ++ ':' :: (a ++ ',' :: (b ++ ':' :: ("where=".toList ++ W))) := by
    simp only [List.mem_append, List.mem_cons, not_or]
    exact ⟨nT, by decide, na, by decide, nb, by decide, by decide, nW⟩
  rw [strchr_view v1, scan_hit '/' _ r hbody1 hbody2]
  simp only [Option.map_some', orFault_some]
  have v2 := view_poke _ '/' r v1
  simp only [List.append_assoc, List.cons_append] at v2
  rw [strchr_view v2, scan_hit ':' T _ cT nT]
  simp only [Option.map_some']
  have v3 := view_poke T ':' _ v2
  rw [cstrAt_view v3, untilNul_stop T _ nT]
  simp only [orFault_some]
  have v4 := view_next T NUL _ v3
  rw [strchr_view v4, scan_hit ',' a _ ka na]
  simp only [Option.map_some']
  have v5 := view_poke a ',' _ v4
  rw [cstrAt_view v5, untilNul_stop a _ na]
  simp only [orFault_some]
  have v6 := view_next a NUL _ v5
  rw [strchr_view v6, scan_hit ':' b _ cb nb]
  simp only [Option.map_some']
  have v7 := view_poke b ':' _ v6
  rw [cstrAt_view v7, untilNul_stop b _ nb]
  simp only [orFault_some]
  have v8 := view_next b NUL _ v7
  rw [strncmpEq_view _ _ v8 (by decide)]
  simp only [orFault_some, if_true]
  have v9 : View _ (uri + 4 + T.length + 1 + a.length + 1 + b.length + 1 + 6)
      (W ++ NUL :: r) := view_skip "where=".toList _ v8
  rw [cstrAt_view v9, untilNul_stop W r nW]
  simp only [orFault_some]
  refine ⟨_, rfl, rfl, view_cast (view_next W NUL r v9) ?_⟩
  have e6 : "where=".toList.length = 6 := rfl
  simp only [List.length_append, List.length_cons, e6]
  omega

theorem map_cols_where_end (s : PState)
    (T a b W : List Char)
    (hv : View s.buf s.uri ("map:".toList ++ (T ++ ':' :: (a ++ ',' ::
      (b ++ ':' :: ("where=".toList ++ W))))))
    (sT : '/' ∉ T) (sa : '/' ∉ a) (sb : '/' ∉ b) (sW : '/' ∉ W)
    (cT : ':' ∉ T) (ka : ',' ∉ a) (cb : ':' ∉ b)
    (nT : NUL ∉ T) (na : NUL ∉ a) (nb : NUL ∉ b) (nW : NUL ∉ W) :
    ∃ s2, sqlconf_parse_uri_map s = .ret 0 s2
      ∧ s2.g = { s.g with sqlconf_maps :=
          { tab := some T, conf_id := some a, ctx_id := some b, «where» := some W } }
      ∧ View s2.buf s2.uri [] := by
  obtain ⟨g, buf, uri⟩ := s
  dsimp only at hv
  unfold sqlconf_parse_uri_map
  dsimp only
  rw [strncmpEq_view _ _ hv (by decide)]
  simp only [orFault_some, Bool.not_true, Bool.false_eq_true, if_false]
  have v1 : View buf (uri + 4)
      (T ++ ':' :: (a ++ ',' :: (b ++ ':' :: ("where=".toList ++ W)))) :=
    view_skip "map:".toList _ hv
  have hbody1 : '/' ∉ T ++ ':' :: (a ++ ',' :: (b ++ ':' :: ("where=".toList ++ W))) := by
    simp only [List.mem_append, List.mem_cons, not_or]
    exact ⟨sT, by decide, sa, by decide, sb, by decide, by decide, sW⟩
  rw [strchr_view v1, scan_miss_end '/' _ hbody1]
  simp only [Option.map_none', orFault_some]
  rw [strchr_view v1, scan_hit ':' T _ cT nT]
  simp only [Option.map_some']
  have v3 := view_poke T ':' _ v1
  rw [cstrAt_view v3, untilNul_stop T _ nT]
  simp only [orFault_some]
  have v4 := view_next T NUL _ v3
  rw [strchr_view v4, scan_hit ',' a _ ka na]
  simp only [Option.map_some']
  have v5 := view_poke a ',' _ v4
  rw [cstrAt_view v5, untilNul_stop a _ na]
  simp only [orFault_some]
  have v6 := view_next a NUL _ v5
  rw [strchr_view v6, scan_hit ':' b _ cb nb]
  simp only [Option.map_some']
  have v7 := view_poke b ':' _ v6
  rw [cstrAt_view v7, untilNul_stop b _ nb]
  simp only [orFault_some]
  have v8 := view_next b NUL _ v7
  rw [strncmpEq_view _ _ v8 (by decide)]
  simp only [orFault_some, if_true]
  have v9 : View _ (uri + 4 + T.length + 1 + a.length + 1 + b.length + 1 + 6) W :=
    view_skip "where=".toList _ v8
  rw [cstrAt_view v9, untilNul_end W nW]
  simp only [orFault_some]
  exact ⟨_, rfl, rfl, view_end W v9⟩

theorem view_init (p v : List Char) : View (p ++ v) p.length v :=
  ⟨by simp, by simp⟩

theorem parse_tail_none (g : Globals) (buf : List Char) (uri : Nat) (h : View buf uri []) :
    (orFault (cstrAt buf uri) fun rest =>
      if rest ≠ [] then
        if rest.take 8 ≠ "base_id=".toList then Run.ret (-1) (⟨g, buf, uri⟩ : PState)
        else
          orFault (cstrAt buf (uri + 8)) fun b =>
          .ret 0 ⟨{ g with sqlconf_ctxs := { g.sqlconf_ctxs with base_id := some b } },
            buf, uri + 8⟩
      else .ret 0 ⟨g, buf, uri⟩) = .ret 0 ⟨g, buf, uri⟩ := by
  rw [cstrAt_view h]
  simp [untilNul]

theorem parse_tail_some (g : Globals) (buf : List Char) (uri : Nat) (V : List Char)
    (h : View buf uri ("base_id=".toList ++ V)) (hn : NUL ∉ V) :
    (orFault (cstrAt buf uri) fun rest =>
      if rest ≠ [] then
        if rest.take 8 ≠ "base_id=".toList then Run.ret (-1) (⟨g, buf, uri⟩ : PState)
        else
          orFault (cstrAt buf (uri + 8)) fun b =>
          .ret 0 ⟨{ g with sqlconf_ctxs := { g.sqlconf_ctxs with base_id := some b } },
            buf, uri + 8⟩
      else .ret 0 ⟨g, buf, uri⟩)
    = .ret 0 ⟨{ g with sqlconf_ctxs := { g.sqlconf_ctxs with base_id := some V } },
        buf, uri + 8⟩ := by
  have h8 : View buf (uri + 8) V := view_skip "base_id=".toList V h
  have e : untilNul ("base_id=".toList ++ V) = "base_id=".toList ++ V := by
    rw [untilNul_append _ _ (by decide), untilNul_end V hn]
  rw [cstrAt_view h, cstrAt_view h8, untilNul_end V hn, e]
  simp

/-! ## Frame lemmas on the URI parsing routines -/

theorem db_frame (s : PState) (code : Int) (s2 : PState)
    (h : sqlconf_parse_uri_db s = .ret code s2) :
    s2.g.sqlconf_ctxs = s.g.sqlconf_ctxs ∧ s2.g.sqlconf_confs = s.g.sqlconf_confs
    ∧ s2.g.sqlconf_maps = s.g.sqlconf_maps ∧ s2.g.sqlconf_conf = s.g.sqlconf_conf
    ∧ s2.g.sqlconf_confi = s.g.sqlconf_confi := by
  simp only [sqlconf_parse_uri_db, orFault] at h
  repeat' split at h
  all_goals first
    | exact ⟨rfl, rfl, rfl, rfl, rfl⟩
    | (cases h; exact ⟨rfl, rfl, rfl, rfl, rfl⟩)
    | cases h

theorem ctx_frame (s : PState) (code : Int) (s2 : PState)
    (h : sqlconf_parse_uri_ctx s = .ret code s2) :
    s2.g.sqlconf_db = s.g.sqlconf_db ∧ s2.g.sqlconf_confs = s.g.sqlconf_confs
    ∧ s2.g.sqlconf_maps = s.g.sqlconf_maps ∧ s2.g.sqlconf_conf = s.g.sqlconf_conf
    ∧ s2.g.sqlconf_confi = s.g.sqlconf_confi
    ∧ s2.g.sqlconf_ctxs.base_id = s.g.sqlconf_ctxs.base_id := by
  simp only [sqlconf_parse_uri_ctx, orFault] at h
  repeat' split at h
  all_goals first
    | exact ⟨rfl, rfl, rfl, rfl, rfl, rfl⟩
    | (cases h; exact ⟨rfl, rfl, rfl, rfl, rfl, rfl⟩)
    | cases h

theorem conf_frame (s : PState) (code : Int) (s2 : PState)
    (h : sqlconf_parse_uri_conf s = .ret code s2) :
    s2.g.sqlconf_db = s.g.sqlconf_db ∧ s2.g.sqlconf_ctxs = s.g.sqlconf_ctxs
    ∧ s2.g.sqlconf_maps = s.g.sqlconf_maps ∧ s2.g.sqlconf_conf = s.g.sqlconf_conf
    ∧ s2.g.sqlconf_confi = s.g.sqlconf_confi := by
  simp only [sqlconf_parse_uri_conf, orFault] at h
  repeat' split at h
  all_goals first
    | exact ⟨rfl, rfl, rfl, rfl, rfl⟩
    | (cases h; exact ⟨rfl, rfl, rfl, rfl, rfl⟩)
    | cases h

theorem map_frame (s : PState) (code : Int) (s2 : PState)
    (h : sqlconf_parse_uri_map s = .ret code s2) :
    s2.g.sqlconf_db = s.g.sqlconf_db ∧ s2.g.sqlconf_ctxs = s.g.sqlconf_ctxs
    ∧ s2.g.sqlconf_confs = s.g.sqlconf_confs ∧ s2.g.sqlconf_conf = s.g.sqlconf_conf
    ∧ s2.g.sqlconf_confi = s.g.sqlconf_confi := by
  simp only [sqlconf_parse_uri_map, orFault] at h
  repeat' split at h
  all_goals first
    | exact ⟨rfl, rfl, rfl, rfl, rfl⟩
    | (cases h; exact ⟨rfl, rfl, rfl, rfl, rfl⟩)
    | cases h

theorem parse_stages (g : Globals) (buf : List Char) (code : Int) (s : PState)
    (h : sqlconf_parse_uri g buf = .ret code s) :
    (code = -1 ∧ ∃ c1, sqlconf_parse_uri_db ⟨g, buf, 6⟩ = .ret c1 s ∧ c1 < 0)
    ∨ ∃ c1 s1, sqlconf_parse_uri_db ⟨g, buf, 6⟩ = .ret c1 s1 ∧ 0 ≤ c1 ∧
      ((code = -1 ∧ ∃ c2, sqlconf_parse_uri_ctx s1 = .ret c2 s ∧ c2 < 0)
      ∨ ∃ c2 s2, sqlconf_parse_uri_ctx s1 = .ret c2 s2 ∧ 0 ≤ c2 ∧
        ((code = -1 ∧ ∃ c3, sqlconf_parse_uri_conf s2 = .ret c3 s ∧ c3 < 0)
        ∨ ∃ c3 s3, sqlconf_parse_uri_conf s2 = .ret c3 s3 ∧ 0 ≤ c3 ∧
          ((code = -1 ∧ ∃ c4, sqlconf_parse_uri_map s3 = .ret c4 s ∧ c4 < 0)
          ∨ ∃ c4 s4, sqlconf_parse_uri_map s3 = .ret c4 s4 ∧ 0 ≤ c4 ∧
            ((code = -1 ∧ s = s4)
            ∨ (code = 0 ∧ s.g.sqlconf_db = s4.g.sqlconf_db
              ∧ s.g.sqlconf_confs = s4.g.sqlconf_confs ∧ s.g.sqlconf_maps = s4.g.sqlconf_maps
              ∧ s.g.sqlconf_conf = s4.g.sqlconf_conf
              ∧ s.g.sqlconf_confi = s4.g.sqlconf_confi))))) := by
  unfold sqlconf_parse_uri at h
  generalize h1 : sqlconf_parse_uri_db ⟨g, buf, 6⟩ = r1 at h
  cases r1 with
  | fault => cases h
  | nofuel => cases h
  | ret c1 s1 =>
  dsimp only at h
  split at h
  · cases h; exact .inl ⟨rfl, c1, rfl, ‹_›⟩
  · refine .inr ⟨c1, s1, rfl, Int.not_lt.mp ‹_›, ?_⟩
    generalize h2 : sqlconf_parse_uri_ctx s1 = r2 at h
    cases r2 with
    | fault => cases h
    | nofuel => cases h
    | ret c2 s2 =>
    dsimp only at h
    split at h
    · cases h; exact .inl ⟨rfl, c2, rfl, ‹_›⟩
    · refine .inr ⟨c2, s2, rfl, Int.not_lt.mp ‹_›, ?_⟩
      generalize h3 : sqlconf_parse_uri_conf s2 = r3 at h
      cases r3 with
      | fault => cases h
      | nofuel => cases h
      | ret c3 s3 =>
      dsimp only at h
      split at h
      · cases h; exact .inl ⟨rfl, c3, rfl, ‹_›⟩
      · refine .inr ⟨c3, s3, rfl, Int.not_lt.mp ‹_›, ?_⟩
        generalize h4 : sqlconf_parse_uri_map s3 = r4 at h
        cases r4 with
        | fault => cases h
        | nofuel => cases h
        | ret c4 s4 =>
        dsimp only at h
        split at h
        · cases h; exact .inl ⟨rfl, c4, rfl, ‹_›⟩
        · refine .inr ⟨c4, s4, rfl, Int.not_lt.mp ‹_›, ?_⟩
          cases hr : cstrAt s4.buf s4.uri with
          | none => rw [hr] at h; cases h
          | some rest =>
            rw [hr, orFault_some] at h
            split at h
            · split at h
              · cases h; exact .inl ⟨rfl, rfl⟩
              · cases hb : cstrAt s4.buf (s4.uri + 8) with
                | none => rw [hb] at h; cases h
                | some b =>
                  rw [hb, orFault_some] at h
                  cases h
                  exact .inr ⟨rfl, rfl, rfl, rfl, rfl, rfl⟩
            · cases h; exact .inr ⟨rfl, rfl, rfl, rfl, rfl, rfl⟩

/-! ## Lemmas on the FSIO callbacks -/

theorem dispatch_any (gw : Gateway) (h : Hook) (args : List CStr) (st : MState) :
    ∃ d, sqlconf_dispatch gw h args st = (d, ⟨st.g, st.log ++ [⟨h, args⟩]⟩) := by
  rw [dispatch_eq]
  exact ⟨_, rfl⟩

theorem read_db_globals (gw : Gateway) (g : Globals) (log : List Query) (fuel : Nat)
    (code : Int) (st2 : MState) (h : sqlconf_read_db gw fuel ⟨g, log⟩ = .ret code st2) :
    (st2.g = g ∧ code = -1) ∨
    ∃ n c evs, traceCtx gw g.sqlconf_ctxs g.sqlconf_confs g.sqlconf_maps fuel n true = .ret c evs
      ∧ st2.g = withLines g (evs.map Ev.text) := by
  unfold sqlconf_read_db at h
  obtain ⟨d0, e0⟩ := dispatch_any gw .sql_load_backend [] ⟨g, log⟩
  rw [e0] at h
  dsimp only at h
  obtain ⟨d1, e1⟩ := dispatch_any gw .sql_prepare [] ⟨g, log ++ [⟨.sql_load_backend, []⟩]⟩
  rw [e1] at h
  dsimp only at h
  obtain ⟨d2, e2⟩ := dispatch_any gw .sql_define_conn (connArgs g.sqlconf_db)
    ⟨g, log ++ [⟨.sql_load_backend, []⟩] ++ [⟨.sql_prepare, []⟩]⟩
  rw [e2] at h
  cases d2 with
  | none => left; cases h; exact ⟨rfl, rfl⟩
  | some v2 =>
  dsimp only at h
  obtain ⟨d3, e3⟩ := dispatch_any gw .sql_open_conn [some "sqlconf".toList]
    ⟨g, log ++ [⟨.sql_load_backend, []⟩] ++ [⟨.sql_prepare, []⟩]
      ++ [⟨.sql_define_conn, connArgs g.sqlconf_db⟩]⟩
  rw [e3] at h
  cases d3 with
  | none => left; cases h; exact ⟨rfl, rfl⟩
  | some v3 =>
  dsimp only at h
  obtain ⟨d4, e4⟩ := dispatch_any gw .sql_select (rootArgs g.sqlconf_ctxs)
    ⟨g, log ++ [⟨.sql_load_backend, []⟩] ++ [⟨.sql_prepare, []⟩]
      ++ [⟨.sql_define_conn, connArgs g.sqlconf_db⟩]
      ++ [⟨.sql_open_conn, [some "sqlconf".toList]⟩]⟩
  rw [e4] at h
  cases d4 with
  | none => left; cases h; exact ⟨rfl, rfl⟩
  | some v4 =>
  cases v4 with
  | none => cases h
  | some sd =>
    dsimp only at h
    split at h
    · left; cases h; exact ⟨rfl, rfl⟩
    · split at h
      · left; cases h; exact ⟨rfl, rfl⟩
      · rename_i s hs
        generalize hr : sqlconf_read_ctx gw fuel (atoi s) true _ = r at h
        cases r with
        | fault => cases h
        | nofuel => cases h
        | ret c st3 =>
          right
          obtain ⟨evs, ht, hg⟩ := read_ctx_traced gw g fuel (atoi s) true [] _ c st3 hr
          refine ⟨atoi s, c, evs, ht, ?_⟩
          dsimp only at h
          obtain ⟨d5, e5⟩ := dispatch_any gw .sql_close_conn
            [some "sqlconf".toList, some "1".toList] st3
          rw [e5] at h
          cases d5 with
          | none => cases h; simpa using hg
          | some v5 =>
          dsimp only at h
          obtain ⟨d6, e6⟩ := dispatch_any gw .sql_cleanup []
            ⟨st3.g, st3.log ++ [⟨.sql_close_conn, [some "sqlconf".toList, some "1".toList]⟩]⟩
          rw [e6] at h
          cases d6 with
          | none => cases h; simpa using hg
          | some v6 => cases h; simpa using hg

theorem memcpyLine_strlen (line : List Char) (junk : Nat → Char) (buflen : Nat)
    (hn : NUL ∉ line) (hl : line.length < buflen) :
    strlenBuf (memcpyLine line junk buflen) = some line.length
    ∧ (memcpyLine line junk buflen).take line.length = line := by
  have e : memcpyLine line junk buflen
      = line ++ NUL :: (List.range (buflen - line.length - 1)).map junk := by
    unfold memcpyLine
    apply List.take_of_length_le
    simp only [List.length_append, List.length_cons, List.length_map, List.length_range]
    omega
  rw [e]
  constructor
  · unfold strlenBuf
    rw [if_pos (by simp), untilNul_stop _ _ hn]
  · simp

theorem getD_mem (ls : List (List Char)) (i : Nat) (hi : i < ls.length) : ls.getD i [] ∈ ls := by
  rw [List.getD_eq_getElem _ _ hi]
  exact List.getElem_mem _

theorem read_cb_serve (gw : Gateway) (fuel : Nat) (junk : Nat → Nat → Char) (sysRead : Int)
    (path : List Char) (buflen : Nat) (s : MState) (ls : List (List Char))
    (hpath : (untilNul path).take 6 = "sql://".toList)
    (hconf : s.g.sqlconf_conf = some ls) (hc : s.g.sqlconf_confi < ls.length)
    (hn : NUL ∉ ls.getD s.g.sqlconf_confi [])
    (hl : (ls.getD s.g.sqlconf_confi []).length < buflen) :
    sqlconf_fsio_read_cb gw fuel junk sysRead (some path) buflen s
      = .ret ((ls.getD s.g.sqlconf_confi []).length : Nat)
          (⟨{ s.g with sqlconf_confi := s.g.sqlconf_confi + 1 }, s.log⟩,
            some (memcpyLine (ls.getD s.g.sqlconf_confi []) (junk s.g.sqlconf_confi) buflen)) := by
  unfold sqlconf_fsio_read_cb
  simp only [hpath, decide_True, if_true, hconf, Int.lt_irrefl, if_false, hc,
    (memcpyLine_strlen _ (junk s.g.sqlconf_confi) buflen hn hl).1]

theorem read_cb_first (gw : Gateway) (fuel : Nat) (junk : Nat → Nat → Char) (sysRead : Int)
    (path : List Char) (buflen : Nat) (s s1 : MState) (code : Int) (ls : List (List Char))
    (hpath : (untilNul path).take 6 = "sql://".toList)
    (hnone : s.g.sqlconf_conf = none)
    (hdb : sqlconf_read_db gw fuel s = .ret code s1) (hcode : 0 ≤ code)
    (hs1 : s1.g.sqlconf_conf = some ls) :
    sqlconf_fsio_read_cb gw fuel junk sysRead (some path) buflen s
      = sqlconf_fsio_read_cb gw fuel junk sysRead (some path) buflen s1 := by
  unfold sqlconf_fsio_read_cb
  simp only [hpath, decide_True, if_true, hnone, hdb, hs1, Int.lt_irrefl, if_false,
    Int.not_lt.mpr hcode]

theorem readTimes_serve (gw : Gateway) (fuel : Nat) (junk : Nat → Nat → Char) (sysRead : Int)
    (path : List Char) (buflen : Nat) (ls : List (List Char))
    (hpath : (untilNul path).take 6 = "sql://".toList)
    (hnul : ∀ l ∈ ls, NUL ∉ l) (hlen : ∀ l ∈ ls, l.length < buflen) :
    ∀ (k : Nat) (s : MState), s.g.sqlconf_conf = some ls → s.g.sqlconf_confi + k ≤ ls.length →
      readTimes gw fuel junk sysRead (some path) buflen k s
        = .ret 0 ⟨{ s.g with sqlconf_confi := s.g.sqlconf_confi + k }, s.log⟩ := by
  intro k
  induction k with
  | zero => intro s _ _; rfl
  | succ k ih =>
    intro s hconf hk
    have hc : s.g.sqlconf_confi < ls.length := by omega
    have hm := getD_mem ls _ hc
    rw [readTimes, read_cb_serve gw fuel junk sysRead path buflen s ls hpath hconf hc
      (hnul _ hm) (hlen _ hm)]
    have h2 := ih ⟨{ s.g with sqlconf_confi := s.g.sqlconf_confi + 1 }, s.log⟩ hconf
      (by dsimp only; omega)
    dsimp only at h2 ⊢
    rw [h2, Nat.add_assoc, Nat.add_comm 1 k]

theorem readTimes_first (gw : Gateway) (fuel : Nat) (junk : Nat → Nat → Char) (sysRead : Int)
    (path : List Char) (buflen : Nat) (s s1 : MState) (code : Int) (ls : List (List Char))
    (hpath : (untilNul path).take 6 = "sql://".toList)
    (hnone : s.g.sqlconf_conf = none)
    (hdb : sqlconf_read_db gw fuel s = .ret code s1) (hcode : 0 ≤ code)
    (hs1 : s1.g.sqlconf_conf = some ls) (k : Nat) :
    readTimes gw fuel junk sysRead (some path) buflen (k + 1) s
      = readTimes gw fuel junk sysRead (some path) buflen (k + 1) s1 := by
  rw [readTimes, readTimes,
    read_cb_first gw fuel junk sysRead path buflen s s1 code ls hpath hnone hdb hcode hs1]

theorem confLine_ne (k : List Char) (v : CStr) : confLine (some k) v ≠ [] := by
  unfold confLine
  simp [pstrcat]

theorem openTag_ne (k v : CStr) : openTag k v ≠ [] := by
  unfold openTag
  simp [pstrcat]

theorem closeTag_ne (k : CStr) : closeTag k ≠ [] := by
  unfold closeTag
  simp [pstrcat]

theorem traceConf_ne (gw : Gateway) (cf : Confs) (m : Maps) (n : Int)
    (hkey : ∀ sd j, gw ⟨.sql_select, confArgs cf m n⟩ = .handled (some sd) → j < sd.rnum →
      sd.cell (j * sd.fnum) ≠ none)
    (code : Int) (evs : List Ev) (h : traceConf gw cf m n = .ret code evs) :
    ∀ e ∈ evs, e.text ≠ [] := by
  unfold traceConf at h
  split at h
  · cases h; intro e he; cases he
  · cases h
  · cases h
  · rename_i sd hsd
    cases h
    intro e he
    simp only [List.mem_map, List.mem_range] at he
    obtain ⟨j, hj, rfl⟩ := he
    have hk := hkey sd j hsd hj
    cases hc : sd.cell (j * sd.fnum) with
    | none => exact absurd hc hk
    | some k => exact confLine_ne k _

theorem traceRows_ne (tb : Nat → Run (List Ev))
    (hb : ∀ i code evs, tb i = .ret code evs → ∀ e ∈ evs, e.text ≠ []) :
    ∀ (is : List Nat) (code : Int) (evs : List Ev),
      traceRows tb is = .ret code evs → ∀ e ∈ evs, e.text ≠ [] := by
  intro is
  induction is with
  | nil =>
    intro code evs h
    simp only [traceRows] at h
    cases h
    intro e he
    cases he
  | cons i is ih =>
    intro code evs h
    rw [traceRows] at h
    cases h1 : tb i with
    | fault => rw [h1] at h; cases h
    | nofuel => rw [h1] at h; cases h
    | ret c1 e1 =>
      rw [h1] at h
      simp only [] at h
      cases h2 : traceRows tb is with
      | fault => rw [h2] at h; cases h
      | nofuel => rw [h2] at h; cases h
      | ret c2 e2 =>
        rw [h2] at h
        cases h
        intro e he
        rcases List.mem_append.mp he with he | he
        · exact hb i c1 e1 h1 e he
        · exact ih _ _ h2 e he

theorem traceKids_ne (gw : Gateway) (c : Ctxs) (n : Int)
    (tr : Int → Run (List Ev))
    (htr : ∀ id code evs, tr id = .ret code evs → ∀ e ∈ evs, e.text ≠ [])
    (code : Int) (evs : List Ev) (h : traceKids tr gw c n = .ret code evs) :
    ∀ e ∈ evs, e.text ≠ [] := by
  unfold traceKids at h
  split at h
  · cases h; intro e he; cases he
  · cases h
  · cases h
  · rename_i sd _
    generalize h2 : traceRows _ _ = r at h
    cases r with
    | fault => cases h
    | nofuel => cases h
    | ret c2 e2 =>
      cases h
      refine traceRows_ne _ ?_ _ _ _ h2
      intro i code evs hi
      split at hi
      · cases hi
      · exact htr _ _ _ hi

theorem traceCtx_ne (gw : Gateway) (c : Ctxs) (cf : Confs) (m : Maps)
    (hkey : ∀ n sd j, gw ⟨.sql_select, confArgs cf m n⟩ = .handled (some sd) → j < sd.rnum →
      sd.cell (j * sd.fnum) ≠ none) :
    ∀ (fuel : Nat) (n : Int) (isbase : Bool) (code : Int) (evs : List Ev),
      traceCtx gw c cf m fuel n isbase = .ret code evs → ∀ e ∈ evs, e.text ≠ [] := by
  intro fuel
  induction fuel with
  | zero => intro n isbase code evs h; simp [traceCtx] at h
  | succ fuel ih =>
    intro n isbase code evs h
    rw [traceCtx] at h
    split at h
    · cases h; intro e he; cases he
    · cases h
    · cases h
    · rename_i sd _
      split at h
      · cases h; intro e he; cases he
      · have ho : ∀ e ∈ (if sd.cell 0 ≠ none ∧ isbase = false
            then [Ev.opening (sd.cell 0) (openTag (sd.cell 0) (sd.cell 1))] else []),
            e.text ≠ [] := by
          intro e he
          split at he
          · cases he with
            | head => exact openTag_ne _ _
            | tail _ h => cases h
          · cases he
        have hcl : ∀ e ∈ (if sd.cell 0 ≠ none ∧ isbase = false
            then [Ev.closing (sd.cell 0) (closeTag (sd.cell 0))] else []),
            e.text ≠ [] := by
          intro e he
          split at he
          · cases he with
            | head => exact closeTag_ne _
            | tail _ h => cases h
          · cases he
        generalize h1 : traceConf gw cf m n = r1 at h
        cases r1 with
        | fault => cases h
        | nofuel => cases h
        | ret code1 evs1 =>
          dsimp only at h
          have hn1 := traceConf_ne gw cf m n (hkey n) code1 evs1 h1
          split at h
          · cases h
            intro e he
            rcases List.mem_append.mp he with he | he
            · exact ho e he
            · exact hn1 e he
          · generalize h2 : traceKids _ gw c n = r2 at h
            cases r2 with
            | fault => cases h
            | nofuel => cases h
            | ret code2 evs2 =>
              dsimp only at h
              have hn2 := traceKids_ne gw c n _
                (fun id code evs hi => ih id false code evs hi) code2 evs2 h2
              split at h
              · cases h
                intro e he
                rcases List.mem_append.mp he with he | he
                · rcases List.mem_append.mp he with he | he
                  · exact ho e he
                  · exact hn1 e he
                · exact hn2 e he
              · cases h
                intro e he
                rcases List.mem_append.mp he with he | he
                · rcases List.mem_append.mp he with he | he
                  · rcases List.mem_append.mp he with he | he
                    · exact ho e he
                    · exact hn1 e he
                  · exact hn2 e he
                · exact hcl e he

theorem parse_keeps_session (g : Globals) (buf : List Char) (code : Int) (s : PState)
    (h : sqlconf_parse_uri g buf = .ret code s) :
    s.g.sqlconf_conf = g.sqlconf_conf ∧ s.g.sqlconf_confi = g.sqlconf_confi := by
  rcases parse_stages g buf code s h with ⟨_, c1, h1, _⟩ | ⟨c1, s1, h1, _, h⟩
  · have f1 := db_frame _ _ _ h1
    exact ⟨f1.2.2.2.1, f1.2.2.2.2⟩
  · have f1 := db_frame _ _ _ h1
    rcases h with ⟨_, c2, h2, _⟩ | ⟨c2, s2, h2, _, h⟩
    · have f2 := ctx_frame _ _ _ h2
      exact ⟨f2.2.2.2.1.trans f1.2.2.2.1, f2.2.2.2.2.1.trans f1.2.2.2.2⟩
    · have f2 := ctx_frame _ _ _ h2
      rcases h with ⟨_, c3, h3, _⟩ | ⟨c3, s3, h3, _, h⟩
      · have f3 := conf_frame _ _ _ h3
        exact ⟨f3.2.2.2.1.trans (f2.2.2.2.1.trans f1.2.2.2.1),
          f3.2.2.2.2.trans (f2.2.2.2.2.1.trans f1.2.2.2.2)⟩
      · have f3 := conf_frame _ _ _ h3
        rcases h with ⟨_, c4, h4, _⟩ | ⟨c4, s4, h4, _, h⟩
        · have f4 := map_frame _ _ _ h4
          exact ⟨f4.2.2.2.1.trans (f3.2.2.2.1.trans (f2.2.2.2.1.trans f1.2.2.2.1)),
            f4.2.2.2.2.trans (f3.2.2.2.2.trans (f2.2.2.2.2.1.trans f1.2.2.2.2))⟩
        · have f4 := map_frame _ _ _ h4
          have e4 : s4.g.sqlconf_conf = g.sqlconf_conf ∧ s4.g.sqlconf_confi = g.sqlconf_confi :=
            ⟨f4.2.2.2.1.trans (f3.2.2.2.1.trans (f2.2.2.2.1.trans f1.2.2.2.1)),
              f4.2.2.2.2.trans (f3.2.2.2.2.trans (f2.2.2.2.2.1.trans f1.2.2.2.2))⟩
          rcases h with ⟨_, rfl⟩ | ⟨_, _, _, _, h5, h6⟩
          · exact e4
          · exact ⟨h5.trans e4.1, h6.trans e4.2⟩

theorem read_cb_built (gw : Gateway) (fuel : Nat) (junk : Nat → Nat → Char) (sysRead : Int)
    (fh_path : CStr) (buflen : Nat) (s s2 : MState) (ls : List (List Char)) (code : Int)
    (out : Option (List Char))
    (hconf : s.g.sqlconf_conf = some ls)
    (h : sqlconf_fsio_read_cb gw fuel junk sysRead fh_path buflen s = .ret code (s2, out)) :
    s2.log = s.log ∧ s2.g.sqlconf_conf = some ls := by
  unfold sqlconf_fsio_read_cb at h
  simp only [hconf, Int.lt_irrefl, if_false] at h
  split at h
  · split at h
    · split at h
      · cases h
      · cases h; exact ⟨rfl, rfl⟩
    · cases h; exact ⟨rfl, hconf⟩
  · cases h; exact ⟨rfl, hconf⟩

theorem readTimes_built (gw : Gateway) (fuel : Nat) (junk : Nat → Nat → Char) (sysRead : Int)
    (fh_path : CStr) (buflen : Nat) (ls : List (List Char)) :
    ∀ (k : Nat) (s sk : MState) (c : Int), s.g.sqlconf_conf = some ls →
      readTimes gw fuel junk sysRead fh_path buflen k s = .ret c sk →
      sk.log = s.log ∧ sk.g.sqlconf_conf = some ls := by
  intro k
  induction k with
  | zero =>
    intro s sk c hconf h
    rw [readTimes] at h
    cases h
    exact ⟨rfl, hconf⟩
  | succ k ih =>
    intro s sk c hconf h
    rw [readTimes] at h
    generalize hr : sqlconf_fsio_read_cb gw fuel junk sysRead fh_path buflen s = r at h
    cases r with
    | fault => cases h
    | nofuel => cases h
    | ret c1 p =>
      obtain ⟨s2, out⟩ := p
      dsimp only at h
      have h2 := read_cb_built gw fuel junk sysRead fh_path buflen s s2 ls c1 out hconf hr
      have h3 := ih s2 sk c h2.2 h
      exact ⟨h3.1.trans h2.1, h3.2⟩

theorem read_cb_ok_built (gw : Gateway) (fuel : Nat) (junk : Nat → Nat → Char) (sysRead : Int)
    (path : List Char) (buflen : Nat) (s s2 : MState) (code : Int) (out : Option (List Char))
    (hpath : (untilNul path).take 6 = "sql://".toList)
    (h : sqlconf_fsio_read_cb gw fuel junk sysRead (some path) buflen s = .ret code (s2, out))
    (hcode : 0 ≤ code) : s2.g.sqlconf_conf ≠ none := by
  unfold sqlconf_fsio_read_cb at h
  simp only [hpath, decide_True, if_true] at h
  split at h
  · cases h
  · cases h
  · split at h
    · cases h; omega
    · split at h
      · cases h
      · rename_i lines hl
        split at h
        · split at h
          · cases h
          · cases h; simp [hl]
        · cases h; simp [hl]

theorem scenarioGw_keys (cf : Confs) (m : Maps) :
    ∀ n sd j, scenarioGw ⟨.sql_select, confArgs cf m n⟩ = .handled (some sd) → j < sd.rnum →
      sd.cell (j * sd.fnum) ≠ none := by
  intro n sd j h hj
  unfold scenarioGw at h
  dsimp only at h
  repeat' split at h
  all_goals
    cases h
    dsimp only at hj
    first
      | exact absurd hj (Nat.not_lt_zero _)
      | (have hj0 : j = 0 := by omega
         subst hj0
         decide)

/-! ## Column lists that are too short -/

theorem first_split (c : Char) (t : List Char) (h : c ∈ t) :
    ∃ a b, t = a ++ c :: b ∧ c ∉ a := by
  induction t with
  | nil => cases h
  | cons x t ih =>
    by_cases hx : x = c
    · exact ⟨[], t, by simp [hx], by simp⟩
    · have ht : c ∈ t := by
        rcases List.mem_cons.mp h with h | h
        · exact absurd h.symm hx
        · exact h
      obtain ⟨a, b, e, ha⟩ := ih ht
      refine ⟨x :: a, b, by simp [e], ?_⟩
      simp only [List.mem_cons, not_or]
      exact ⟨fun h => hx h.symm, ha⟩

theorem where_test_fails {buf : List Char} {i : Nat} (t rest : List Char)
    (hv : View buf i (t ++ rest)) (hrest : rest = [] ∨ ∃ r, rest = NUL :: r) (nt : NUL ∉ t)
    (hw : t.take 6 ≠ "where=".toList) :
    strchr buf i '=' = some none
    ∨ ∃ p, strchr buf i '=' = some (some p)
        ∧ strcmpEq (poke buf p) i "where".toList = some false := by
  by_cases he : '=' ∈ t
  · obtain ⟨a, b, rfl, ha⟩ := first_split '=' t he
    right
    have nta : NUL ∉ a := fun h => nt (List.mem_append_left _ h)
    have hv2 : View buf i (a ++ '=' :: (b ++ rest)) := by simpa using hv
    refine ⟨i + a.length, ?_, ?_⟩
    · rw [strchr_view hv2, scan_hit '=' a _ ha nta]
      rfl
    · have v := view_poke a '=' _ hv2
      have hne : a ≠ "where".toList := by
        intro h
        subst h
        exact hw (by simp)
      simp only [strcmpEq, cstrAt_view v, untilNul_stop a _ nta, Option.map_some', hne,
        decide_False]
  · left
    rw [strchr_view hv]
    rcases hrest with rfl | ⟨r, rfl⟩
    · rw [List.append_nil, scan_miss_end '=' t he]
      rfl
    · rw [scan_miss '=' t r he (by decide)]
      rfl

theorem ctx_short1 (s : PState) (x : Char) (T t r : List Char)
    (hv : View s.buf s.uri ("ctx:".toList ++ (x :: (T ++ ':' :: (t ++ '/' :: r)))))
    (sT : '/' ∉ T) (cT : ':' ∉ T) (nT : NUL ∉ T)
    (st : '/' ∉ t) (kt : ',' ∉ t) (nt : NUL ∉ t) (hw : t.take 6 ≠ "where=".toList) :
    (sqlconf_parse_uri_ctx s).code? = some (-1) := by
  obtain ⟨g, buf, uri⟩ := s
  dsimp only at hv
  unfold sqlconf_parse_uri_ctx
  dsimp only
  rw [strncmpEq_view _ _ hv (by decide)]
  simp only [orFault_some, Bool.not_true, Bool.false_eq_true, if_false]
  have v1 : View buf (uri + 5) ((T ++ ':' :: t) ++ '/' :: r) :=
    view_skip ("ctx:".toList ++ [x]) _ (by simpa using hv)
  have hbody1 : '/' ∉ T ++ ':' :: t := by
    simp only [List.mem_append, List.mem_cons, not_or]
    exact ⟨sT, by decide, st⟩
  have hbody2 : NUL ∉ T ++ ':' :: t := by
    simp only [List.mem_append, List.mem_cons, not_or]
    exact ⟨nT, by decide, nt⟩
  rw [strchr_view v1, scan_hit '/' _ r hbody1 hbody2]
  simp only [Option.map_some']
  have v2 := view_poke _ '/' r v1
  simp only [List.append_assoc, List.cons_append] at v2
  rw [strchr_view v2, scan_hit ':' T _ cT nT]
  simp only [Option.map_some']
  have v3 := view_poke T ':' _ v2
  rw [cstrAt_view v3, untilNul_stop T _ nT]
  simp only [orFault_some]
  have v4 := view_next T NUL _ v3
  rw [strchr_view v4, scan_miss ',' t r kt (by decide)]
  simp only [Option.map_none']
  rcases where_test_fails t (NUL :: r) v4 (.inr ⟨r, rfl⟩) nt hw with h | ⟨p, h, h2⟩
  · rw [h]
    rfl
  · rw [h]
    dsimp only
    rw [h2]
    rfl

theorem ctx_short2 (s : PState) (x : Char) (T a t r : List Char)
    (hv : View s.buf s.uri ("ctx:".toList ++ (x :: (T ++ ':' :: (a ++ ',' :: (t ++ '/' :: r))))))
    (sT : '/' ∉ T) (cT : ':' ∉ T) (nT : NUL ∉ T)
    (sa : '/' ∉ a) (ka : ',' ∉ a) (na : NUL ∉ a)
    (st : '/' ∉ t) (kt : ',' ∉ t) (nt : NUL ∉ t) :
    (sqlconf_parse_uri_ctx s).code? = some (-1) := by
  obtain ⟨g, buf, uri⟩ := s
  dsimp only at hv
  unfold sqlconf_parse_uri_ctx
  dsimp only
  rw [strncmpEq_view _ _ hv (by decide)]
  simp only [orFault_some, Bool.not_true, Bool.false_eq_true, if_false]
  have v1 : View buf (uri + 5) ((T ++ ':' :: (a ++ ',' :: t)) ++ '/' :: r) :=
    view_skip ("ctx:".toList ++ [x]) _ (by simpa using hv)
  have hbody1 : '/' ∉ T ++ ':' :: (a ++ ',' :: t) := by
    simp only [List.mem_append, List.mem_cons, not_or]
    exact ⟨sT, by decide, sa, by decide, st⟩
  have hbody2 : NUL ∉ T ++ ':' :: (a ++ ',' :: t) := by
    simp only [List.mem_append, List.mem_cons, not_or]
    exact ⟨nT, by decide, na, by decide, nt⟩
  rw [strchr_view v1, scan_hit '/' _ r hbody1 hbody2]
  simp only [Option.map_some']
  have v2 := view_poke _ '/' r v1
  simp only [List.append_assoc, List.cons_append] at v2
  rw [strchr_view v2, scan_hit ':' T _ cT nT]
  simp only [Option.map_some']
  have v3 := view_poke T ':' _ v2
  rw [cstrAt_view v3, untilNul_stop T _ nT]
  simp only [orFault_some]
  have v4 := view_next T NUL _ v3
  rw [strchr_view v4, scan_hit ',' a _ ka na]
  simp only [Option.map_some']
  have v5 := view_poke a ',' _ v4
  rw [cstrAt_view v5, untilNul_stop a _ na]
  simp only [orFault_some]
  have v6 := view_next a NUL _ v5
  rw [strchr_view v6, scan_miss ',' t r kt (by decide)]
  rfl

theorem ctx_short3 (s : PState) (x : Char) (T a b t r : List Char)
    (hv : View s.buf s.uri ("ctx:".toList ++ (x :: (T ++ ':' :: (a ++ ',' :: (b ++ ',' ::
      (t ++ '/' :: r)))))))
    (sT : '/' ∉ T) (cT : ':' ∉ T) (nT : NUL ∉ T)
    (sa : '/' ∉ a) (ka : ',' ∉ a) (na : NUL ∉ a)
    (sb : '/' ∉ b) (kb : ',' ∉ b) (nb : NUL ∉ b)
    (st : '/' ∉ t) (kt : ',' ∉ t) (nt : NUL ∉ t) :
    (sqlconf_parse_uri_ctx s).code? = some (-1) := by
  obtain ⟨g, buf, uri⟩ := s
  dsimp only at hv
  unfold sqlconf_parse_uri_ctx
  dsimp only
  rw [strncmpEq_view _ _ hv (by decide)]
  simp only [orFault_some, Bool.not_true, Bool.false_eq_true, if_false]
  have v1 : View buf (uri + 5) ((T ++ ':' :: (a ++ ',' :: (b ++ ',' :: t))) ++ '/' :: r) :=
    view_skip ("ctx:".toList ++ [x]) _ (by simpa using hv)
  have hbody1 : '/' ∉ T ++ ':' :: (a ++ ',' :: (b ++ ',' :: t)) := by
    simp only [List.mem_append, List.mem_cons, not_or]
    exact ⟨sT, by decide, sa, by decide, sb, by decide, st⟩
  have hbody2 : NUL ∉ T ++ ':' :: (a ++ ',' :: (b ++ ',' :: t)) := by
    simp only [List.mem_append, List.mem_cons, not_or]
    exact ⟨nT, by decide, na, by decide, nb, by decide, nt⟩
  rw [strchr_view v1, scan_hit '/' _ r hbody1 hbody2]
  simp only [Option.map_some']
  have v2 := view_poke _ '/' r v1
  simp only [List.append_assoc, List.cons_append] at v2
  rw [strchr_view v2, scan_hit ':' T _ cT nT]
  simp only [Option.map_some']
  have v3 := view_poke T ':' _ v2
  rw [cstrAt_view v3, untilNul_stop T _ nT]
  simp only [orFault_some]
  have v4 := view_next T NUL _ v3
  rw [strchr_view v4, scan_hit ',' a _ ka na]
  simp only [Option.map_some']
  have v5 := view_poke a ',' _ v4
  rw [cstrAt_view v5, untilNul_stop a _ na]
  simp only [orFault_some]
  have v6 := view_next a NUL _ v5
  rw [strchr_view v6, scan_hit ',' b _ kb nb]
  simp only [Option.map_some']
  have v7 := view_poke b ',' _ v6
  rw [cstrAt_view v7, untilNul_stop b _ nb]
  simp only [orFault_some]
  have v8 := view_next b NUL _ v7
  rw [strchr_view v8, scan_miss ',' t r kt (by decide)]
  rfl

theorem conf_short1 (s : PState) (T t r : List Char)
    (hv : View s.buf s.uri ("conf:".toList ++ (T ++ ':' :: (t ++ '/' :: r))))
    (sT : '/' ∉ T) (cT : ':' ∉ T) (nT : NUL ∉ T)
    (st : '/' ∉ t) (kt : ',' ∉ t) (nt : NUL ∉ t) (hw : t.take 6 ≠ "where=".toList) :
    (sqlconf_parse_uri_conf s).code? = some (-1) := by
  obtain ⟨g, buf, uri⟩ := s
  dsimp only at hv
  unfold sqlconf_parse_uri_conf
  dsimp only
  rw [strncmpEq_view _ _ hv (by decide)]
  simp only [orFault_some, Bool.not_true, Bool.false_eq_true, if_false]
  have v1 : View buf (uri + 5) ((T ++ ':' :: t) ++ '/' :: r) :=
    view_skip "conf:".toList _ (by simpa using hv)
  have hbody1 : '/' ∉ T ++ ':' :: t := by
    simp only [List.mem_append, List.mem_cons, not_or]
    exact ⟨sT, by decide, st⟩
  have hbody2 : NUL ∉ T ++ ':' :: t := by
    simp only [List.mem_append, List.mem_cons, not_or]
    exact ⟨nT, by decide, nt⟩
  rw [strchr_view v1, scan_hit '/' _ r hbody1 hbody2]
  simp only [Option.map_some']
  have v2 := view_poke _ '/' r v1
  simp only [List.append_assoc, List.cons_append] at v2
  rw [strchr_view v2, scan_hit ':' T _ cT nT]
  simp only [Option.map_some']
  have v3 := view_poke T ':' _ v2
  rw [cstrAt_view v3, untilNul_stop T _ nT]
  simp only [orFault_some]
  have v4 := view_next T NUL _ v3
  rw [strchr_view v4, scan_miss ',' t r kt (by decide)]
  simp only [Option.map_none']
  rcases where_test_fails t (NUL :: r) v4 (.inr ⟨r, rfl⟩) nt hw with h | ⟨p, h, h2⟩
  · rw [h]
    rfl
  · rw [h]
    dsimp only
    rw [h2]
    rfl

theorem conf_short2 (s : PState) (T a t r : List Char)
    (hv : View s.buf s.uri ("conf:".toList ++ (T ++ ':' :: (a ++ ',' :: (t ++ '/' :: r)))))
    (sT : '/' ∉ T) (cT : ':' ∉ T) (nT : NUL ∉ T)
    (sa : '/' ∉ a) (ka : ',' ∉ a) (na : NUL ∉ a)
    (st : '/' ∉ t) (kt : ',' ∉ t) (nt : NUL ∉ t) :
    (sqlconf_parse_uri_conf s).code? = some (-1) := by
  obtain ⟨g, buf, uri⟩ := s
  dsimp only at hv
  unfold sqlconf_parse_uri_conf
  dsimp only
  rw [strncmpEq_view _ _ hv (by decide)]
  simp only [orFault_some, Bool.not_true, Bool.false_eq_true, if_false]
  have v1 : View buf (uri + 5) ((T ++ ':' :: (a ++ ',' :: t)) ++ '/' :: r) :=
    view_skip "conf:".toList _ (by simpa using hv)
  have hbody1 : '/' ∉ T ++ ':' :: (a ++ ',' :: t) := by
    simp only [List.mem_append, List.mem_cons, not_or]
    exact ⟨sT, by decide, sa, by decide, st⟩
  have hbody2 : NUL ∉ T ++ ':' :: (a ++ ',' :: t) := by
    simp only [List.mem_append, List.mem_cons, not_or]
    exact ⟨nT, by decide, na, by decide, nt⟩
  rw [strchr_view v1, scan_hit '/' _ r hbody1 hbody2]
  simp only [Option.map_some']
  have v2 := view_poke _ '/' r v1
  simp only [List.append_assoc, List.cons_append] at v2
  rw [strchr_view v2, scan_hit ':' T _ cT nT]
  simp only [Option.map_some']
  have v3 := view_poke T ':' _ v2
  rw [cstrAt_view v3, untilNul_stop T _ nT]
  simp only [orFault_some]
  have v4 := view_next T NUL _ v3
  rw [strchr_view v4, scan_hit ',' a _ ka na]
  simp only [Option.map_some']
  have v5 := view_poke a ',' _ v4
  rw [cstrAt_view v5, untilNul_stop a _ na]
  simp only [orFault_some]
  have v6 := view_next a NUL _ v5
  rw [strchr_view v6, scan_miss ',' t r kt (by decide)]
  rfl

theorem map_short1_slash (s : PState) (T t r : List Char)
    (hv : View s.buf s.uri ("map:".toList ++ (T ++ ':' :: (t ++ '/' :: r))))
    (sT : '/' ∉ T) (cT : ':' ∉ T) (nT : NUL ∉ T)
    (st : '/' ∉ t) (kt : ',' ∉ t) (nt : NUL ∉ t) (hw : t.take 6 ≠ "where=".toList) :
    (sqlconf_parse_uri_map s).code? = some (-1) := by
  obtain ⟨g, buf, uri⟩ := s
  dsimp only at hv
  unfold sqlconf_parse_uri_map
  dsimp only
  rw [strncmpEq_view _ _ hv (by decide)]
  simp only [orFault_some, Bool.not_true, Bool.false_eq_true, if_false]
  have v1 : View buf (uri + 4) ((T ++ ':' :: t) ++ '/' :: r) :=
    view_skip "map:".toList _ (by simpa using hv)
  have hbody1 : '/' ∉ T ++ ':' :: t := by
    simp only [List.mem_append, List.mem_cons, not_or]
    exact ⟨sT, by decide, st⟩
  have hbody2 : NUL ∉ T ++ ':' :: t := by
    simp only [List.mem_append, List.mem_cons, not_or]
    exact ⟨nT, by decide, nt⟩
  rw [strchr_view v1, scan_hit '/' _ r hbody1 hbody2]
  simp only [Option.map_some', orFault_some]
  have v2 := view_poke _ '/' r v1
  simp only [List.append_assoc, List.cons_append] at v2
  rw [strchr_view v2, scan_hit ':' T _ cT nT]
  simp only [Option.map_some']
  have v3 := view_poke T ':' _ v2
  rw [cstrAt_view v3, untilNul_stop T _ nT]
  simp only [orFault_some]
  have v4 := view_next T NUL _ v3
  rw [strchr_view v4, scan_miss ',' t r kt (by decide)]
  simp only [Option.map_none']
  rcases where_test_fails t (NUL :: r) v4 (.inr ⟨r, rfl⟩) nt hw with h | ⟨p, h, h2⟩
  · rw [h]
    rfl
  · rw [h]
    dsimp only
    rw [h2]
    rfl

theorem map_short1_end (s : PState) (T t : List Char)
    (hv : View s.buf s.uri ("map:".toList ++ (T ++ ':' :: t)))
    (sT : '/' ∉ T) (cT : ':' ∉ T) (nT : NUL ∉ T)
    (st : '/' ∉ t) (kt : ',' ∉ t) (nt : NUL ∉ t) (hw : t.take 6 ≠ "where=".toList) :
    (sqlconf_parse_uri_map s).code? = some (-1) := by
  obtain ⟨g, buf, uri⟩ := s
  dsimp only at hv
  unfold sqlconf_parse_uri_map
  dsimp only
  rw [strncmpEq_view _ _ hv (by decide)]
  simp only [orFault_some, Bool.not_true, Bool.false_eq_true, if_false]
  have v1 : View buf (uri + 4) (T ++ ':' :: t) := view_skip "map:".toList _ hv
  have hbody1 : '/' ∉ T ++ ':' :: t := by
    simp only [List.mem_append, List.mem_cons, not_or]
    exact ⟨sT, by decide, st⟩
  rw [strchr_view v1, scan_miss_end '/' _ hbody1]
  simp only [Option.map_none', orFault_some]
  rw [strchr_view v1, scan_hit ':' T _ cT nT]
  simp only [Option.map_some']
  have v3 := view_poke T ':' _ v1
  rw [cstrAt_view v3, untilNul_stop T _ nT]
  simp only [orFault_some]
  have v4 := view_next T NUL _ v3
  rw [strchr_view v4, scan_miss_end ',' t kt]
  simp only [Option.map_none']
  rcases where_test_fails t [] (by simpa using v4) (.inl rfl) nt hw with h | ⟨p, h, h2⟩
  · rw [h]
    rfl
  · rw [h]
    dsimp only
    rw [h2]
    rfl

/-! ## The mapping where-clause in the database-reading routines -/

theorem dispatch_mapWhere (gw : Gateway) (h : Hook) (args : List CStr) (w : CStr) (st : MState) :
    sqlconf_dispatch gw h args (withMapWhere w st)
      = ((sqlconf_dispatch gw h args st).1, withMapWhere w (sqlconf_dispatch gw h args st).2) := by
  rw [dispatch_eq, dispatch_eq]
  rfl

theorem pushLine_mapWhere (l : List Char) (w : CStr) (st : MState) :
    pushLine l (withMapWhere w st) = (pushLine l st).map (withMapWhere w) := by
  unfold pushLine
  cases hc : st.g.sqlconf_conf with
  | none =>
    have : (withMapWhere w st).g.sqlconf_conf = none := hc
    simp only [this, Option.map_none']
  | some ls =>
    have : (withMapWhere w st).g.sqlconf_conf = some ls := hc
    simp only [this, Option.map_some']
    rfl

theorem forRows_mapWhere (w : CStr) (body : Nat → MState → Run MState)
    (hb : ∀ i st, body i (withMapWhere w st) = (body i st).map (withMapWhere w)) :
    ∀ (is : List Nat) (st : MState),
      forRows body is (withMapWhere w st) = (forRows body is st).map (withMapWhere w) := by
  intro is
  induction is with
  | nil => intro st; rfl
  | cons i is ih =>
    intro st
    rw [forRows, forRows, hb]
    cases body i st with
    | fault => rfl
    | nofuel => rfl
    | ret c s => exact ih s

theorem read_conf_mapWhere (gw : Gateway) (w : CStr) (n : Int) (st : MState) :
    sqlconf_read_conf gw n (withMapWhere w st)
      = (sqlconf_read_conf gw n st).map (withMapWhere w) := by
  unfold sqlconf_read_conf
  rw [dispatch_mapWhere]
  have e : confArgs (withMapWhere w st).g.sqlconf_confs (withMapWhere w st).g.sqlconf_maps n
      = confArgs st.g.sqlconf_confs st.g.sqlconf_maps n := rfl
  rw [e]
  generalize sqlconf_dispatch gw .sql_select (confArgs st.g.sqlconf_confs st.g.sqlconf_maps n) st
    = r
  obtain ⟨d, s⟩ := r
  cases d with
  | none => rfl
  | some d =>
    cases d with
    | none => rfl
    | some sd =>
      dsimp only
      apply forRows_mapWhere
      intro i s2
      rw [pushLine_mapWhere]
      cases pushLine _ s2 <;> rfl

theorem read_ctx_ctxs_mapWhere (gw : Gateway) (w : CStr)
    (readCtx : Int → MState → Run MState)
    (hr : ∀ id st, readCtx id (withMapWhere w st) = (readCtx id st).map (withMapWhere w))
    (n : Int) (st : MState) :
    sqlconf_read_ctx_ctxs readCtx gw n (withMapWhere w st)
      = (sqlconf_read_ctx_ctxs readCtx gw n st).map (withMapWhere w) := by
  unfold sqlconf_read_ctx_ctxs
  rw [dispatch_mapWhere]
  have e : kidsArgs (withMapWhere w st).g.sqlconf_ctxs n = kidsArgs st.g.sqlconf_ctxs n := rfl
  rw [e]
  generalize sqlconf_dispatch gw .sql_select (kidsArgs st.g.sqlconf_ctxs n) st = r
  obtain ⟨d, s⟩ := r
  cases d with
  | none => rfl
  | some d =>
    cases d with
    | none => rfl
    | some sd =>
      dsimp only
      rw [forRows_mapWhere w _ _ (List.range sd.rnum) s]
      · cases forRows _ (List.range sd.rnum) s <;> rfl
      · intro i s2
        cases sd.cell i with
        | none => rfl
        | some c => exact hr _ _

theorem read_ctx_mapWhere (gw : Gateway) (w : CStr) :
    ∀ (fuel : Nat) (n : Int) (isbase : Bool) (st : MState),
      sqlconf_read_ctx gw fuel n isbase (withMapWhere w st)
        = (sqlconf_read_ctx gw fuel n isbase st).map (withMapWhere w) := by
  intro fuel
  induction fuel with
  | zero => intro n isbase st; rfl
  | succ fuel ih =>
    intro n isbase st
    rw [sqlconf_read_ctx, sqlconf_read_ctx, dispatch_mapWhere]
    have e : tagArgs (withMapWhere w st).g.sqlconf_ctxs n = tagArgs st.g.sqlconf_ctxs n := rfl
    rw [e]
    generalize sqlconf_dispatch gw .sql_select (tagArgs st.g.sqlconf_ctxs n) st = r
    obtain ⟨d, s⟩ := r
    cases d with
    | none => rfl
    | some d =>
      cases d with
      | none => rfl
      | some sd =>
        dsimp only
        split
        · rfl
        · have hp : ∀ (l : List Char) (s1 : MState),
              (if sd.cell 0 ≠ none ∧ isbase = false then pushLine l (withMapWhere w s1)
                else some (withMapWhere w s1))
              = (if sd.cell 0 ≠ none ∧ isbase = false then pushLine l s1 else some s1).map
                  (withMapWhere w) := by
            intro l s1
            split
            · exact pushLine_mapWhere l w s1
            · rfl
          rw [hp]
          cases (if sd.cell 0 ≠ none ∧ isbase = false
            then pushLine (openTag (sd.cell 0) (sd.cell 1)) s else some s) with
          | none => rfl
          | some s1 =>
            simp only [Option.map_some', orFault_some]
            rw [read_conf_mapWhere]
            cases sqlconf_read_conf gw n s1 with
            | fault => rfl
            | nofuel => rfl
            | ret c1 s2 =>
              simp only [Run.map]
              split
              · rfl
              · rw [read_ctx_ctxs_mapWhere gw w _ (fun id st => ih id false st)]
                cases sqlconf_read_ctx_ctxs _ gw n s2 with
                | fault => rfl
                | nofuel => rfl
                | ret c2 s3 =>
                  simp only [Run.map]
                  split
                  · rfl
                  · rw [hp]
                    cases (if sd.cell 0 ≠ none ∧ isbase = false
                      then pushLine (closeTag (sd.cell 0)) s3 else some s3) with
                    | none => rfl
                    | some s4 => rfl

theorem read_db_mapWhere (gw : Gateway) (w : CStr) (fuel : Nat) (st : MState) :
    sqlconf_read_db gw fuel (withMapWhere w st)
      = (sqlconf_read_db gw fuel st).map (withMapWhere w) := by
  unfold sqlconf_read_db
  rw [dispatch_mapWhere]
  generalize sqlconf_dispatch gw .sql_load_backend [] st = r0
  obtain ⟨d0, s0⟩ := r0
  dsimp only
  rw [dispatch_mapWhere]
  generalize sqlconf_dispatch gw .sql_prepare [] s0 = r1
  obtain ⟨d1, s1⟩ := r1
  dsimp only
  rw [dispatch_mapWhere]
  have e2 : connArgs (withMapWhere w s1).g.sqlconf_db = connArgs s1.g.sqlconf_db := rfl
  rw [e2]
  generalize sqlconf_dispatch gw .sql_define_conn (connArgs s1.g.sqlconf_db) s1 = r2
  obtain ⟨d2, s2⟩ := r2
  cases d2 with
  | none => rfl
  | some v2 =>
  dsimp only
  rw [dispatch_mapWhere]
  generalize sqlconf_dispatch gw .sql_open_conn [some "sqlconf".toList] s2 = r3
  obtain ⟨d3, s3⟩ := r3
  cases d3 with
  | none => rfl
  | some v3 =>
  dsimp only
  rw [dispatch_mapWhere]
  have e4 : rootArgs (withMapWhere w s3).g.sqlconf_ctxs = rootArgs s3.g.sqlconf_ctxs := rfl
  rw [e4]
  generalize sqlconf_dispatch gw .sql_select (rootArgs s3.g.sqlconf_ctxs) s3 = r4
  obtain ⟨d4, s4⟩ := r4
  cases d4 with
  | none => rfl
  | some v4 =>
  cases v4 with
  | none => rfl
  | some sd =>
  dsimp only
  split
  · rfl
  · cases sd.cell 0 with
    | none => rfl
    | some s =>
      dsimp only
      have e5 : (⟨{ (withMapWhere w s4).g with sqlconf_conf := some [] },
          (withMapWhere w s4).log⟩ : MState)
          = withMapWhere w ⟨{ s4.g with sqlconf_conf := some [] }, s4.log⟩ := rfl
      rw [e5, read_ctx_mapWhere]
      cases sqlconf_read_ctx gw fuel (atoi s) true ⟨{ s4.g with sqlconf_conf := some [] }, s4.log⟩
        with
      | fault => rfl
      | nofuel => rfl
      | ret c5 s5 =>
        simp only [Run.map]
        rw [dispatch_mapWhere]
        generalize sqlconf_dispatch gw .sql_close_conn
          [some "sqlconf".toList, some "1".toList] s5 = r6
        obtain ⟨d6, s6⟩ := r6
        cases d6 with
        | none => rfl
        | some v6 =>
        dsimp only
        rw [dispatch_mapWhere]
        generalize sqlconf_dispatch gw .sql_cleanup [] s6 = r7
        obtain ⟨d7, s7⟩ := r7
        cases d7 with
        | none => rfl
        | some v7 => rfl

/-! ## Agreement of the command lists with the code -/

theorem agreesLog_conf (gw : Gateway) (g : Globals) (n : Int) (ls : List (List Char))
    (log : List Query) :
    AgreesLog (askedConf gw g.sqlconf_confs g.sqlconf_maps n)
      (sqlconf_read_conf gw n ⟨withLines g ls, log⟩) g log := by
  unfold askedConf sqlconf_read_conf
  rw [dispatch_eq]
  simp only [withLines_confs, withLines_maps]
  cases hq : gw ⟨.sql_select, confArgs g.sqlconf_confs g.sqlconf_maps n⟩ with
  | nosym => simp [AgreesLog]
  | error => exact ⟨ls, rfl⟩
  | handled d =>
    cases d with
    | none => simp [AgreesLog]
    | some sd =>
      simp only [AgreesLog]
      rw [forRows_push]
      exact ⟨_, rfl⟩

theorem agreesLog_rows (tb : Nat → Run (List Query)) (b : Nat → MState → Run MState)
    (g : Globals)
    (hb : ∀ i ls log, AgreesLog (tb i) (b i ⟨withLines g ls, log⟩) g log) :
    ∀ (is : List Nat) (ls : List (List Char)) (log : List Query),
      AgreesLog (askedRows tb is) (forRows b is ⟨withLines g ls, log⟩) g log := by
  intro is
  induction is with
  | nil =>
    intro ls log
    exact ⟨ls, by simp [forRows]⟩
  | cons i is ih =>
    intro ls log
    rw [askedRows, forRows]
    have h1 := hb i ls log
    cases ht : tb i with
    | fault => rw [ht] at h1; simp only [AgreesLog] at h1; simp [h1, AgreesLog]
    | nofuel => rw [ht] at h1; simp only [AgreesLog] at h1; simp [h1, AgreesLog]
    | ret code qs =>
      rw [ht] at h1
      obtain ⟨ls1, h1⟩ := h1
      rw [h1]
      simp only []
      have h2 := ih ls1 (log ++ qs)
      cases ht2 : askedRows tb is with
      | fault => rw [ht2] at h2; simp only [AgreesLog] at h2; simp [h2, AgreesLog]
      | nofuel => rw [ht2] at h2; simp only [AgreesLog] at h2; simp [h2, AgreesLog]
      | ret code2 qs2 =>
        rw [ht2] at h2
        obtain ⟨ls2, h2⟩ := h2
        rw [h2]
        exact ⟨ls2, by simp⟩

theorem agreesLog_kids (gw : Gateway) (g : Globals) (n : Int)
    (tr : Int → Run (List Query)) (rd : Int → MState → Run MState)
    (hrd : ∀ id ls log, AgreesLog (tr id) (rd id ⟨withLines g ls, log⟩) g log)
    (ls : List (List Char)) (log : List Query) :
    AgreesLog (askedKids tr gw g.sqlconf_ctxs n)
      (sqlconf_read_ctx_ctxs rd gw n ⟨withLines g ls, log⟩) g log := by
  unfold askedKids sqlconf_read_ctx_ctxs
  rw [dispatch_eq]
  simp only [withLines_ctxs]
  cases hq : gw ⟨.sql_select, kidsArgs g.sqlconf_ctxs n⟩ with
  | nosym => simp [AgreesLog]
  | error => exact ⟨ls, rfl⟩
  | handled d =>
    cases d with
    | none => simp [AgreesLog]
    | some sd =>
      simp only []
      have h := agreesLog_rows
        (fun i => match sd.cell i with
          | none => .fault
          | some s => tr (atoi s))
        (fun i st => match sd.cell i with
          | none => .fault
          | some s => rd (atoi s) st) g
        (by
          intro i ls log
          dsimp only
          cases sd.cell i with
          | none => simp [AgreesLog]
          | some s => exact hrd _ _ _)
        (List.range sd.rnum) ls (log ++ [⟨.sql_select, kidsArgs g.sqlconf_ctxs n⟩])
      revert h
      cases askedRows _ (List.range sd.rnum) with
      | fault => intro h; simp only [AgreesLog] at h; simp [h, AgreesLog]
      | nofuel => intro h; simp only [AgreesLog] at h; simp [h, AgreesLog]
      | ret code qs =>
        intro h
        obtain ⟨ls2, h⟩ := h
        rw [h]
        exact ⟨ls2, by simp⟩

theorem agreesLog_ctx (gw : Gateway) (g : Globals) :
    ∀ (fuel : Nat) (n : Int) (isbase : Bool) (ls : List (List Char)) (log : List Query),
      AgreesLog (askedCtx gw g.sqlconf_ctxs g.sqlconf_confs g.sqlconf_maps fuel n)
        (sqlconf_read_ctx gw fuel n isbase ⟨withLines g ls, log⟩) g log := by
  intro fuel
  induction fuel with
  | zero => intro n isbase ls log; simp [askedCtx, sqlconf_read_ctx, AgreesLog]
  | succ fuel ih =>
    intro n isbase ls log
    rw [askedCtx, sqlconf_read_ctx, dispatch_eq]
    simp only [withLines_ctxs]
    cases hq : gw ⟨.sql_select, tagArgs g.sqlconf_ctxs n⟩ with
    | nosym => simp [AgreesLog]
    | error => exact ⟨ls, rfl⟩
    | handled d =>
      cases d with
      | none => simp [AgreesLog]
      | some sd =>
        simp only []
        by_cases hr : sd.rnum > 1
        · simp only [hr, if_true]
          exact ⟨ls, rfl⟩
        · simp only [hr, if_false]
          have hpush : ∀ (l : List Char) (ls : List (List Char)) (log : List Query),
              ∃ ls1, (if sd.cell 0 ≠ none ∧ isbase = false
                then pushLine l ⟨withLines g ls, log⟩
                else some ⟨withLines g ls, log⟩) = some ⟨withLines g ls1, log⟩ := by
            intro l ls log
            split
            · exact ⟨_, pushLine_withLines g ls log l⟩
            · exact ⟨ls, rfl⟩
          obtain ⟨ls0, e0⟩ := hpush (openTag (sd.cell 0) (sd.cell 1)) ls
            (log ++ [⟨.sql_select, tagArgs g.sqlconf_ctxs n⟩])
          rw [e0, orFault_some]
          have h1 := agreesLog_conf gw g n ls0 (log ++ [⟨.sql_select, tagArgs g.sqlconf_ctxs n⟩])
          revert h1
          cases askedConf gw g.sqlconf_confs g.sqlconf_maps n with
          | fault => intro h1; simp only [AgreesLog] at h1 ⊢; rw [h1]
          | nofuel => intro h1; simp only [AgreesLog] at h1 ⊢; rw [h1]
          | ret code1 qs1 =>
            intro h1
            obtain ⟨ls1, h1⟩ := h1
            rw [h1]
            simp only []
            by_cases hc1 : code1 < 0
            · simp only [hc1, if_true, AgreesLog]
              exact ⟨ls1, by simp⟩
            · simp only [hc1, if_false]
              have h2 := agreesLog_kids gw g n
                (fun id => askedCtx gw g.sqlconf_ctxs g.sqlconf_confs g.sqlconf_maps fuel id)
                (fun id st => sqlconf_read_ctx gw fuel id false st)
                (fun id ls log => ih id false ls log)
                ls1 (log ++ [⟨.sql_select, tagArgs g.sqlconf_ctxs n⟩] ++ qs1)
              revert h2
              cases askedKids _ gw g.sqlconf_ctxs n with
              | fault => intro h2; simp only [AgreesLog] at h2 ⊢; rw [h2]
              | nofuel => intro h2; simp only [AgreesLog] at h2 ⊢; rw [h2]
              | ret code2 qs2 =>
                intro h2
                obtain ⟨ls2, h2⟩ := h2
                rw [h2]
                simp only []
                by_cases hc2 : code2 < 0
                · simp only [hc2, if_true, AgreesLog]
                  exact ⟨ls2, by simp⟩
                · simp only [hc2, if_false, AgreesLog]
                  obtain ⟨ls3, e3⟩ := hpush (closeTag (sd.cell 0)) ls2
                    (log ++ [⟨.sql_select, tagArgs g.sqlconf_ctxs n⟩] ++ qs1 ++ qs2)
                  rw [e3, orFault_some]
                  exact ⟨ls3, by simp⟩

theorem fmtInt_toString (n : Int) : fmtInt n = (toString n).toList := by
  cases n with
  | ofNat k =>
    show natDigits k = (toString (Int.ofNat k)).toList
    rfl
  | negSucc k =>
    show '-' :: natDigits (k + 1) = (toString (Int.negSucc k)).toList
    rfl

theorem ctxWhere_text (c : Ctxs) (col idstr : List Char) :
    ctxWhere c (some col) idstr
      = col ++ (" = ".toList ++ (idstr ++ (match c.«where» with
          | none => []
          | some W => " AND ".toList ++ W))) := by
  unfold ctxWhere
  cases c.«where» with
  | none => simp [pstrcat]
  | some W => simp [pstrcat]

theorem askedCtx_first (gw : Gateway) (c : Ctxs) (cf : Confs) (m : Maps) (fuel : Nat) (n : Int)
    (code : Int) (qs : List Query) (h : askedCtx gw c cf m (fuel + 1) n = .ret code qs) :
    ∃ rest, qs = ⟨.sql_select, tagArgs c n⟩ :: rest
      ∧ (rest = [] ∨ ∃ rest2, rest = ⟨.sql_select, confArgs cf m n⟩ :: rest2
        ∧ (rest2 = [] ∨ ∃ rest3, rest2 = ⟨.sql_select, kidsArgs c n⟩ :: rest3)) := by
  rw [askedCtx] at h
  split at h
  · cases h; exact ⟨[], rfl, .inl rfl⟩
  · cases h
  · cases h
  · split at h
    · cases h; exact ⟨[], rfl, .inl rfl⟩
    · generalize h1 : askedConf gw cf m n = r1 at h
      cases r1 with
      | fault => cases h
      | nofuel => cases h
      | ret c1 qs1 =>
        have e1 : qs1 = [⟨.sql_select, confArgs cf m n⟩] := by
          unfold askedConf at h1
          split at h1 <;> cases h1 <;> rfl
        subst e1
        dsimp only at h
        split at h
        · cases h; exact ⟨_, rfl, .inr ⟨[], rfl, .inl rfl⟩⟩
        · generalize h2 : askedKids _ gw c n = r2 at h
          cases r2 with
          | fault => cases h
          | nofuel => cases h
          | ret c2 qs2 =>
            have e2 : ∃ rest3, qs2 = ⟨.sql_select, kidsArgs c n⟩ :: rest3 := by
              unfold askedKids at h2
              split at h2
              · cases h2; exact ⟨[], rfl⟩
              · cases h2
              · cases h2
              · generalize askedRows _ _ = r3 at h2
                cases r3 with
                | fault => cases h2
                | nofuel => cases h2
                | ret c3 qs3 => cases h2; exact ⟨qs3, rfl⟩
            obtain ⟨rest3, rfl⟩ := e2
            dsimp only at h
            split at h <;>
              (cases h; exact ⟨_, rfl, .inr ⟨_, rfl, .inr ⟨rest3, rfl⟩⟩⟩)

/-! ## The recursive descent on a finite tree, and its termination -/

theorem askedRows_forest (gw : Gateway) (c : Ctxs) (cf : Confs) (m : Maps) (fuel : Nat)
    (H : ∀ (n : Int) (t : CtxTree), represents gw c cf m n t = true → t.kids.depth + 1 ≤ fuel →
      askedCtx gw c cf m fuel n = .ret 0 (treeQueries c cf m n t))
    (cellOf : Nat → CStr) :
    ∀ (f : CtxForest) (is : List Nat), is.map cellOf = f.cells.map some →
      representsForest gw c cf m f = true → f.depth ≤ fuel →
      askedRows (fun i =>
          match cellOf i with
          | none => .fault
          | some s => askedCtx gw c cf m fuel (atoi s)) is = .ret 0 (forestQueries c cf m f) := by
  intro f
  induction f with
  | nil =>
    intro is his _ _
    simp only [CtxForest.cells, List.map_nil, List.map_eq_nil_iff] at his
    subst his
    rfl
  | node cell key val dirs kids rest _ ih_rest =>
    intro is his hrep hd
    cases is with
    | nil => simp [CtxForest.cells] at his
    | cons i is =>
      simp only [CtxForest.cells, List.map_cons, List.cons.injEq] at his
      obtain ⟨hi, his⟩ := his
      simp only [representsForest, Bool.and_eq_true] at hrep
      obtain ⟨⟨ha, hk⟩, hr⟩ := hrep
      simp only [CtxForest.depth] at hd
      have ht1 := H (atoi cell) ⟨key, val, dirs, kids⟩
        (by simp [represents, ha, hk]) (by show kids.depth + 1 ≤ fuel; omega)
      have ht2 := ih_rest is his hr (by omega)
      rw [askedRows]
      simp only [hi, ht1, ht2]
      simp [treeQueries, forestQueries]

theorem askedCtx_represents (gw : Gateway) (c : Ctxs) (cf : Confs) (m : Maps) :
    ∀ (fuel : Nat) (n : Int) (t : CtxTree),
      represents gw c cf m n t = true → t.kids.depth + 1 ≤ fuel →
      askedCtx gw c cf m fuel n = .ret 0 (treeQueries c cf m n t) := by
  intro fuel
  induction fuel with
  | zero => intro n t _ hf; omega
  | succ fuel ih =>
    intro n t hrep hf
    simp only [represents, answersCtx, Bool.and_eq_true] at hrep
    obtain ⟨⟨⟨htag, hconf⟩, hkids⟩, hforest⟩ := hrep
    obtain ⟨sd1, hq1, hp1⟩ := dataIs_true htag
    obtain ⟨sd2, hq2, hp2⟩ := dataIs_true hconf
    obtain ⟨sd3, hq3, hp3⟩ := dataIs_true hkids
    simp only [Bool.and_eq_true, decide_eq_true_eq, List.all_eq_true, List.mem_range] at hp1 hp3
    obtain ⟨⟨hr1, hk1⟩, hv1⟩ := hp1
    obtain ⟨hr3, hc3⟩ := hp3
    have hconfT : askedConf gw cf m n = .ret 0 [⟨.sql_select, confArgs cf m n⟩] := by
      simp only [askedConf, hq2]
    have hrows := askedRows_forest gw c cf m fuel (fun n t hr hd => ih n t hr hd)
      sd3.cell t.kids (List.range sd3.rnum)
      (by
        rw [hr3]
        apply map_range_eq_map
        intro i hi
        rw [hc3 i hi, List.get?_eq_get hi])
      hforest (by omega)
    have hkidsT : askedKids (fun id => askedCtx gw c cf m fuel id) gw c n
        = .ret 0 (⟨.sql_select, kidsArgs c n⟩ :: forestQueries c cf m t.kids) := by
      simp only [askedKids, hq3, hrows]
    rw [askedCtx]
    simp only [hq1, hconfT, hkidsT]
    have hr1b : ¬ sd1.rnum > 1 := by omega
    simp only [hr1b, if_false, Int.lt_irrefl]
    simp [treeQueries]

theorem askedRows_ne_nofuel (body : Nat → Run (List Query)) :
    ∀ (is : List Nat), (∀ i ∈ is, body i ≠ .nofuel) → askedRows body is ≠ .nofuel := by
  intro is
  induction is with
  | nil => intro _ h; cases h
  | cons i is ih =>
    intro hb h
    rw [askedRows] at h
    have h1 := hb i (List.mem_cons_self _ _)
    cases hi : body i with
    | fault => rw [hi] at h; cases h
    | nofuel => exact h1 hi
    | ret c qs =>
      rw [hi] at h
      dsimp only at h
      have h2 := ih (fun j hj => hb j (List.mem_cons_of_mem _ hj))
      cases hr : askedRows body is with
      | fault => rw [hr] at h; cases h
      | nofuel => exact h2 hr
      | ret c2 q2 => rw [hr] at h; cases h

theorem askedRows_ne_fault (body : Nat → Run (List Query)) :
    ∀ (is : List Nat), (∀ i ∈ is, body i ≠ .fault) → askedRows body is ≠ .fault := by
  intro is
  induction is with
  | nil => intro _ h; cases h
  | cons i is ih =>
    intro hb h
    rw [askedRows] at h
    have h1 := hb i (List.mem_cons_self _ _)
    cases hi : body i with
    | fault => exact h1 hi
    | nofuel => rw [hi] at h; cases h
    | ret c qs =>
      rw [hi] at h
      dsimp only at h
      have h2 := ih (fun j hj => hb j (List.mem_cons_of_mem _ hj))
      cases hr : askedRows body is with
      | fault => exact h2 hr
      | nofuel => rw [hr] at h; cases h
      | ret c2 q2 => rw [hr] at h; cases h

theorem askedRows_nofuel (body : Nat → Run (List Query)) :
    ∀ (is : List Nat) (i : Nat), i ∈ is → body i = .nofuel → (∀ j ∈ is, body j ≠ .fault) →
      askedRows body is = .nofuel := by
  intro is
  induction is with
  | nil => intro i hi; cases hi
  | cons j is ih =>
    intro i hi hn hf
    rw [askedRows]
    cases hj : body j with
    | fault => exact absurd hj (hf j (List.mem_cons_self _ _))
    | nofuel => rfl
    | ret c qs =>
      dsimp only
      have hi2 : i ∈ is := by
        rcases List.mem_cons.mp hi with h | h
        · subst h
          rw [hn] at hj
          cases hj
        · exact h
      rw [ih i hi2 hn (fun k hk => hf k (List.mem_cons_of_mem _ hk))]

theorem isChildRow_of_row (gw : Gateway) (c : Ctxs) (n : Int) (sd : SqlData) (i : Nat)
    (s : List Char) (hq : gw ⟨.sql_select, kidsArgs c n⟩ = .handled (some sd))
    (hi : i < sd.rnum) (hs : sd.cell i = some s) : isChildRow gw c n (atoi s) = true := by
  unfold isChildRow
  rw [hq]
  simp only [List.any_eq_true, List.mem_range]
  exact ⟨i, hi, by simp [hs]⟩

theorem row_of_isChildRow (gw : Gateway) (c : Ctxs) (n m : Int)
    (h : isChildRow gw c n m = true) :
    ∃ sd i s, gw ⟨.sql_select, kidsArgs c n⟩ = .handled (some sd) ∧ i < sd.rnum
      ∧ sd.cell i = some s ∧ atoi s = m := by
  unfold isChildRow at h
  split at h
  · rename_i sd hq
    simp only [List.any_eq_true, List.mem_range] at h
    obtain ⟨i, hi, hx⟩ := h
    cases hs : sd.cell i with
    | none => rw [hs] at hx; cases hx
    | some s =>
      rw [hs] at hx
      exact ⟨sd, i, s, hq, hi, hs, by simpa using hx⟩
  · cases h

theorem askedConf_ne_nofuel (gw : Gateway) (cf : Confs) (m : Maps) (n : Int) :
    askedConf gw cf m n ≠ .nofuel := by
  unfold askedConf
  split <;> intro h <;> cases h

theorem askedKids_ne_nofuel (gw : Gateway) (c : Ctxs) (n : Int) (tr : Int → Run (List Query))
    (h : ∀ sd, gw ⟨.sql_select, kidsArgs c n⟩ = .handled (some sd) →
      ∀ i, i < sd.rnum → ∀ s, sd.cell i = some s → tr (atoi s) ≠ .nofuel) :
    askedKids tr gw c n ≠ .nofuel := by
  unfold askedKids
  split
  · intro h; cases h
  · intro h; cases h
  · intro h; cases h
  · rename_i sd hq
    have hr := askedRows_ne_nofuel (fun i =>
        match sd.cell i with
        | none => .fault
        | some s => tr (atoi s)) (List.range sd.rnum)
      (by
        intro i hi
        dsimp only
        cases hs : sd.cell i with
        | none => intro h; cases h
        | some s => exact h sd hq i (List.mem_range.mp hi) s hs)
    intro hk
    cases hx : askedRows (fun i =>
        match sd.cell i with
        | none => .fault
        | some s => tr (atoi s)) (List.range sd.rnum) with
    | fault => rw [hx] at hk; cases hk
    | nofuel => exact hr hx
    | ret c2 q2 => rw [hx] at hk; cases hk

theorem askedCtx_terminates (gw : Gateway) (c : Ctxs) (cf : Confs) (m : Maps) (n : Int)
    (h : Acc (fun child parent => isChildRow gw c parent child = true) n) :
    ∃ F, ∀ fuel, F ≤ fuel → askedCtx gw c cf m fuel n ≠ .nofuel := by
  induction h with
  | intro n _ ih =>
    have hrows : ∀ sd, gw ⟨.sql_select, kidsArgs c n⟩ = .handled (some sd) →
        ∀ k, k ≤ sd.rnum → ∃ F, ∀ i, i < k → ∀ s, sd.cell i = some s →
          ∀ fuel, F ≤ fuel → askedCtx gw c cf m fuel (atoi s) ≠ .nofuel := by
      intro sd hq k
      induction k with
      | zero => intro _; exact ⟨0, fun i hi => absurd hi (Nat.not_lt_zero _)⟩
      | succ k ihk =>
        intro hk
        obtain ⟨F1, h1⟩ := ihk (by omega)
        cases hs : sd.cell k with
        | none =>
          refine ⟨F1, fun i hi s hsi => ?_⟩
          rcases Nat.lt_succ_iff_lt_or_eq.mp hi with hlt | heq
          · exact h1 i hlt s hsi
          · subst heq
            rw [hs] at hsi
            cases hsi
        | some s0 =>
          obtain ⟨F2, h2⟩ := ih (atoi s0) (isChildRow_of_row gw c n sd k s0 hq (by omega) hs)
          refine ⟨max F1 F2, fun i hi s hsi fuel hf => ?_⟩
          rcases Nat.lt_succ_iff_lt_or_eq.mp hi with hlt | heq
          · exact h1 i hlt s hsi fuel (le_trans (le_max_left _ _) hf)
          · subst heq
            rw [hs] at hsi
            cases hsi
            exact h2 fuel (le_trans (le_max_right _ _) hf)
    have hF : ∃ F, ∀ sd, gw ⟨.sql_select, kidsArgs c n⟩ = .handled (some sd) →
        ∀ i, i < sd.rnum → ∀ s, sd.cell i = some s →
          ∀ fuel, F ≤ fuel → askedCtx gw c cf m fuel (atoi s) ≠ .nofuel := by
      cases hq : gw ⟨.sql_select, kidsArgs c n⟩ with
      | nosym => exact ⟨0, fun sd2 h2 => by cases h2⟩
      | error => exact ⟨0, fun sd2 h2 => by cases h2⟩
      | handled d =>
        cases d with
        | none => exact ⟨0, fun sd2 h2 => by cases h2⟩
        | some sd =>
          obtain ⟨F, hF⟩ := hrows sd hq sd.rnum (le_refl _)
          exact ⟨F, fun sd2 h2 => by cases h2; exact hF⟩
    obtain ⟨F, hF⟩ := hF
    refine ⟨F + 1, fun fuel hf => ?_⟩
    obtain ⟨f, rfl⟩ : ∃ f, fuel = f + 1 := ⟨fuel - 1, by omega⟩
    have hk := askedKids_ne_nofuel gw c n (fun id => askedCtx gw c cf m f id)
      (fun sd hq i hi s hs => hF sd hq i hi s hs f (by omega))
    have hc := askedConf_ne_nofuel gw cf m n
    rw [askedCtx]
    split
    · intro h; cases h
    · intro h; cases h
    · intro h; cases h
    · split
      · intro h; cases h
      · cases h1 : askedConf gw cf m n with
        | fault => intro h; cases h
        | nofuel => exact absurd h1 hc
        | ret c1 q1 =>
          dsimp only
          split
          · intro h; cases h
          · cases h2 : askedKids (fun id => askedCtx gw c cf m f id) gw c n with
            | fault => intro h; cases h
            | nofuel => exact absurd h2 hk
            | ret c2 q2 =>
              dsimp only
              split <;> (intro h; cases h)

theorem askedCtx_no_fault (gw : Gateway) (c : Ctxs) (cf : Confs) (m : Maps)
    (htag : ∀ n, ∃ sd, gw ⟨.sql_select, tagArgs c n⟩ = .handled (some sd) ∧ sd.rnum ≤ 1)
    (hconf : ∀ n, ∃ sd, gw ⟨.sql_select, confArgs cf m n⟩ = .handled (some sd))
    (hkids : ∀ n, ∃ sd, gw ⟨.sql_select, kidsArgs c n⟩ = .handled (some sd)
      ∧ ∀ i, i < sd.rnum → sd.cell i ≠ none) :
    ∀ (fuel : Nat) (n : Int), askedCtx gw c cf m fuel n ≠ .fault := by
  intro fuel
  induction fuel with
  | zero => intro n h; cases h
  | succ fuel ih =>
    intro n
    obtain ⟨sd1, hq1, hr1⟩ := htag n
    obtain ⟨sd2, hq2⟩ := hconf n
    obtain ⟨sd3, hq3, hc3⟩ := hkids n
    have e2 : askedConf gw cf m n = .ret 0 [⟨.sql_select, confArgs cf m n⟩] := by
      simp only [askedConf, hq2]
    have hrows := askedRows_ne_fault (fun i =>
        match sd3.cell i with
        | none => .fault
        | some s => askedCtx gw c cf m fuel (atoi s)) (List.range sd3.rnum)
      (by
        intro i hi
        dsimp only
        cases hs : sd3.cell i with
        | none => exact absurd hs (hc3 i (List.mem_range.mp hi))
        | some s => exact ih _)
    rw [askedCtx, hq1]
    dsimp only
    rw [if_neg (by omega), e2]
    dsimp only
    rw [if_neg (by decide)]
    unfold askedKids
    rw [hq3]
    dsimp only
    cases hx : askedRows (fun i =>
        match sd3.cell i with
        | none => .fault
        | some s => askedCtx gw c cf m fuel (atoi s)) (List.range sd3.rnum) with
    | fault => exact absurd hx hrows
    | nofuel => intro h; cases h
    | ret c2 q2 =>
      dsimp only
      rw [if_neg (by decide)]
      intro h
      cases h

theorem askedCtx_diverges (gw : Gateway) (c : Ctxs) (cf : Confs) (m : Maps)
    (htag : ∀ n, ∃ sd, gw ⟨.sql_select, tagArgs c n⟩ = .handled (some sd) ∧ sd.rnum ≤ 1)
    (hconf : ∀ n, ∃ sd, gw ⟨.sql_select, confArgs cf m n⟩ = .handled (some sd))
    (hkids : ∀ n, ∃ sd, gw ⟨.sql_select, kidsArgs c n⟩ = .handled (some sd)
      ∧ ∀ i, i < sd.rnum → sd.cell i ≠ none) :
    ∀ (fuel : Nat) (n : Int),
      ¬ Acc (fun child parent => isChildRow gw c parent child = true) n →
      askedCtx gw c cf m fuel n = .nofuel := by
  intro fuel
  induction fuel with
  | zero => intro n _; rfl
  | succ fuel ih =>
    intro n hna
    have hex : ∃ k, isChildRow gw c n k = true
        ∧ ¬ Acc (fun child parent => isChildRow gw c parent child = true) k := by
      by_contra hcon
      apply hna
      refine Acc.intro n (fun k hk => ?_)
      by_contra hk2
      exact hcon ⟨k, hk, hk2⟩
    obtain ⟨k, hk, hnk⟩ := hex
    obtain ⟨sd3, i, s, hq3, hi, hs, rfl⟩ := row_of_isChildRow gw c n k hk
    obtain ⟨sd1, hq1, hr1⟩ := htag n
    obtain ⟨sd2, hq2⟩ := hconf n
    obtain ⟨sd4, hq4, hc4⟩ := hkids n
    rw [hq3] at hq4
    cases hq4
    have e2 : askedConf gw cf m n = .ret 0 [⟨.sql_select, confArgs cf m n⟩] := by
      simp only [askedConf, hq2]
    have hrows := askedRows_nofuel (fun i =>
        match sd3.cell i with
        | none => .fault
        | some s => askedCtx gw c cf m fuel (atoi s)) (List.range sd3.rnum) i
      (List.mem_range.mpr hi)
      (by
        dsimp only
        rw [hs]
        exact ih _ hnk)
      (by
        intro j hj
        dsimp only
        cases hsj : sd3.cell j with
        | none => exact absurd hsj (hc4 j (List.mem_range.mp hj))
        | some s2 => exact askedCtx_no_fault gw c cf m htag hconf hkids fuel _)
    rw [askedCtx, hq1]
    dsimp only
    rw [if_neg (by omega), e2]
    dsimp only
    rw [if_neg (by decide)]
    unfold askedKids
    rw [hq3]
    dsimp only
    rw [hrows]

theorem not_acc_of_self {α : Type} (r : α → α → Prop) (x : α) (h : r x x) : ¬ Acc r x := by
  intro ha
  induction ha with
  | intro x _ ih => exact ih x h h

theorem forRows_mono (b1 b2 : Nat → MState → Run MState)
    (hb : ∀ i st r, b1 i st = r → r ≠ .nofuel → b2 i st = r) :
    ∀ (is : List Nat) (st : MState) (r : Run MState),
      forRows b1 is st = r → r ≠ .nofuel → forRows b2 is st = r := by
  intro is
  induction is with
  | nil => intro st r h _; exact h
  | cons i is ih =>
    intro st r h hr
    rw [forRows] at h ⊢
    cases h1 : b1 i st with
    | fault =>
      rw [hb i st .fault h1 (by intro h; cases h)]
      rw [h1] at h
      exact h
    | nofuel =>
      rw [h1] at h
      exact absurd h.symm hr
    | ret c s =>
      rw [hb i st (.ret c s) h1 (by intro h; cases h)]
      rw [h1] at h
      exact ih s r h hr

theorem read_ctx_ctxs_mono (gw : Gateway) (rd1 rd2 : Int → MState → Run MState)
    (hrd : ∀ id st r, rd1 id st = r → r ≠ .nofuel → rd2 id st = r)
    (n : Int) (st : MState) (r : Run MState)
    (h : sqlconf_read_ctx_ctxs rd1 gw n st = r) (hr : r ≠ .nofuel) :
    sqlconf_read_ctx_ctxs rd2 gw n st = r := by
  unfold sqlconf_read_ctx_ctxs at h ⊢
  generalize sqlconf_dispatch gw .sql_select (kidsArgs st.g.sqlconf_ctxs n) st = d at h ⊢
  obtain ⟨d, s⟩ := d
  cases d with
  | none => exact h
  | some d =>
    cases d with
    | none => exact h
    | some sd =>
      dsimp only at h ⊢
      cases h1 : forRows (fun i st =>
          match sd.cell i with
          | none => .fault
          | some s => rd1 (atoi s) st) (List.range sd.rnum) s with
      | nofuel =>
        rw [h1] at h
        exact absurd h.symm hr
      | fault =>
        rw [h1] at h
        rw [forRows_mono _ (fun i st =>
            match sd.cell i with
            | none => .fault
            | some s => rd2 (atoi s) st) (by
              intro i st r h hr
              dsimp only at h ⊢
              cases hs : sd.cell i with
              | none => rw [hs] at h; exact h
              | some s0 => rw [hs] at h; exact hrd _ _ _ h hr)
          (List.range sd.rnum) s .fault h1 (by intro h; cases h)]
        exact h
      | ret c2 s2 =>
        rw [h1] at h
        rw [forRows_mono _ (fun i st =>
            match sd.cell i with
            | none => .fault
            | some s => rd2 (atoi s) st) (by
              intro i st r h hr
              dsimp only at h ⊢
              cases hs : sd.cell i with
              | none => rw [hs] at h; exact h
              | some s0 => rw [hs] at h; exact hrd _ _ _ h hr)
          (List.range sd.rnum) s (.ret c2 s2) h1 (by intro h; cases h)]
        exact h

theorem read_ctx_mono (gw : Gateway) :
    ∀ (f : Nat) (n : Int) (b : Bool) (st : MState) (r : Run MState),
      sqlconf_read_ctx gw f n b st = r → r ≠ .nofuel → sqlconf_read_ctx gw (f + 1) n b st = r := by
  intro f
  induction f with
  | zero =>
    intro n b st r h hr
    rw [sqlconf_read_ctx] at h
    exact absurd h.symm hr
  | succ f ih =>
    intro n b st r h hr
    rw [sqlconf_read_ctx] at h ⊢
    generalize sqlconf_dispatch gw .sql_select (tagArgs st.g.sqlconf_ctxs n) st = d at h ⊢
    obtain ⟨d, s⟩ := d
    cases d with
    | none => exact h
    | some d =>
      cases d with
      | none => exact h
      | some sd =>
        dsimp only at h ⊢
        by_cases hc : sd.rnum > 1
        · rw [if_pos hc] at h ⊢
          exact h
        · rw [if_neg hc] at h ⊢
          generalize (if sd.cell 0 ≠ none ∧ b = false
            then pushLine (openTag (sd.cell 0) (sd.cell 1)) s else some s) = o at h ⊢
          cases o with
          | none => exact h
          | some s1 =>
            rw [orFault_some] at h ⊢
            generalize sqlconf_read_conf gw n s1 = r1 at h ⊢
            cases r1 with
            | fault => exact h
            | nofuel => exact h
            | ret c1 s2 =>
              dsimp only at h ⊢
              by_cases hc1 : c1 < 0
              · rw [if_pos hc1] at h ⊢
                exact h
              · rw [if_neg hc1] at h ⊢
                cases h2 : sqlconf_read_ctx_ctxs (fun id st => sqlconf_read_ctx gw f id false st)
                    gw n s2 with
                | nofuel =>
                  rw [h2] at h
                  exact absurd h.symm hr
                | fault =>
                  rw [h2] at h
                  rw [read_ctx_ctxs_mono gw _
                    (fun id st => sqlconf_read_ctx gw (f + 1) id false st)
                    (fun id st r h hr => ih id false st r h hr) n s2 .fault h2
                    (by intro h; cases h)]
                  exact h
                | ret c2 s3 =>
                  rw [h2] at h
                  rw [read_ctx_ctxs_mono gw _
                    (fun id st => sqlconf_read_ctx gw (f + 1) id false st)
                    (fun id st r h hr => ih id false st r h hr) n s2 (.ret c2 s3) h2
                    (by intro h; cases h)]
                  exact h

theorem read_ctx_stable (gw : Gateway) (F : Nat) (n : Int) (b : Bool) (st : MState)
    (hF : sqlconf_read_ctx gw F n b st ≠ .nofuel) :
    ∀ f, F ≤ f → sqlconf_read_ctx gw f n b st = sqlconf_read_ctx gw F n b st := by
  intro f hf
  induction f with
  | zero =>
    have : F = 0 := by omega
    subst this
    rfl
  | succ f ih =>
    rcases Nat.lt_or_ge f F with hlt | hge
    · have : F = f + 1 := by omega
      subst this
      rfl
    · exact read_ctx_mono gw f n b st _ (ih hge) hF

theorem scenario_acc :
    Acc (fun child parent =>
      isChildRow scenarioGw scenarioGlobals.sqlconf_ctxs parent child = true) 1 := by
  have e1 : scenarioGw ⟨.sql_select, kidsArgs scenarioGlobals.sqlconf_ctxs 1⟩
      = .handled (some ⟨1, 1, [some "2".toList]⟩) := by decide
  have e2 : scenarioGw ⟨.sql_select, kidsArgs scenarioGlobals.sqlconf_ctxs 2⟩
      = .handled (some ⟨0, 1, []⟩) := by decide
  have a2 : Acc (fun child parent =>
      isChildRow scenarioGw scenarioGlobals.sqlconf_ctxs parent child = true) 2 := by
    refine Acc.intro 2 (fun k hk => ?_)
    obtain ⟨sd, i, s, hq, hi, _, _⟩ := row_of_isChildRow _ _ _ _ hk
    rw [e2] at hq
    cases hq
    exact absurd hi (Nat.not_lt_zero _)
  refine Acc.intro 1 (fun k hk => ?_)
  obtain ⟨sd, i, s, hq, hi, hs, rfl⟩ := row_of_isChildRow _ _ _ _ hk
  rw [e1] at hq
  cases hq
  have hi0 : i = 0 := by
    dsimp only at hi
    omega
  subst hi0
  have hs2 : s = "2".toList := by
    have : (SqlData.mk 1 1 [some "2".toList]).cell 0 = some "2".toList := rfl
    rw [this] at hs
    cases hs
    rfl
  subst hs2
  have e3 : atoi "2".toList = 2 := by decide
  rw [e3]
  exact a2

theorem loopGw_tag (k : Int) :
    ∃ sd, loopGw ⟨.sql_select, tagArgs scenarioGlobals.sqlconf_ctxs k⟩ = .handled (some sd)
      ∧ sd.rnum ≤ 1 := by
  have h : (loopGw ⟨.sql_select, tagArgs scenarioGlobals.sqlconf_ctxs k⟩).dataIs
      (fun sd => decide (sd.rnum ≤ 1)) = true := by
    unfold loopGw scenarioGw
    dsimp only
    repeat' split
    all_goals rfl
  obtain ⟨sd, hq, hp⟩ := dataIs_true h
  exact ⟨sd, hq, by simpa using hp⟩

theorem loopGw_conf (k : Int) :
    ∃ sd, loopGw ⟨.sql_select,
      confArgs scenarioGlobals.sqlconf_confs scenarioGlobals.sqlconf_maps k⟩
        = .handled (some sd) := by
  have h : (loopGw ⟨.sql_select,
      confArgs scenarioGlobals.sqlconf_confs scenarioGlobals.sqlconf_maps k⟩).dataIs
      (fun _ => true) = true := by
    unfold loopGw scenarioGw
    dsimp only
    repeat' split
    all_goals rfl
  obtain ⟨sd, hq, _⟩ := dataIs_true h
  exact ⟨sd, hq⟩

theorem loopGw_kids (k : Int) :
    ∃ sd, loopGw ⟨.sql_select, kidsArgs scenarioGlobals.sqlconf_ctxs k⟩ = .handled (some sd)
      ∧ ∀ i, i < sd.rnum → sd.cell i ≠ none := by
  have h : (loopGw ⟨.sql_select, kidsArgs scenarioGlobals.sqlconf_ctxs k⟩).dataIs
      (fun sd => (List.range sd.rnum).all fun i => (sd.cell i).isSome) = true := by
    unfold loopGw scenarioGw
    dsimp only
    repeat' split
    all_goals rfl
  obtain ⟨sd, hq, hp⟩ := dataIs_true h
  refine ⟨sd, hq, fun i hi hn => ?_⟩
  simp only [List.all_eq_true, List.mem_range] at hp
  have := hp i hi
  rw [hn] at this
  cases this

theorem loopGw_not_acc :
    ¬ Acc (fun child parent =>
      isChildRow loopGw scenarioGlobals.sqlconf_ctxs parent child = true) 1 := by
  intro h
  have h2 := Acc.inv h (show isChildRow loopGw scenarioGlobals.sqlconf_ctxs 1 2 = true by decide)
  exact not_acc_of_self _ 2
    (show isChildRow loopGw scenarioGlobals.sqlconf_ctxs 2 2 = true by decide) h2

/-! ## Theorems -/

/-- Rendering of a database whose directive rows hold no SQL null: when every
command dispatched to the gateway succeeds, the root lookup returns one row, and
the gateway presents a finite context tree `t` at the root id (each tag query
returns at most one row with the key and value of the context, each directive
query rows of two strings, each child query the child ids), then
`sqlconf_read_db`, given at least as much recursion budget as the tree is deep,
returns 0 and leaves exactly `render t true` in the line array. -/
theorem materialize_eq_render (gw : Gateway) (g : Globals) (log : List Query) (fuel : Nat)
    (t : CtxTree) (sd : SqlData) (cell : List Char)
    (hok : ∀ q, gw q ≠ .error)
    (hroot : gw ⟨.sql_select, rootArgs g.sqlconf_ctxs⟩ = .handled (some sd))
    (hone : sd.rnum = 1) (hcell : sd.cell 0 = some cell)
    (hrep : represents gw g.sqlconf_ctxs g.sqlconf_confs g.sqlconf_maps (atoi cell) t = true)
    (hfuel : t.kids.depth + 1 ≤ fuel) :
    ∃ log2, sqlconf_read_db gw fuel ⟨g, log⟩ = .ret 0 ⟨withLines g (render t true), log2⟩ := by
  obtain ⟨evs, ht, hx⟩ := traceCtx_represents gw _ _ _ fuel (atoi cell) t true hrep hfuel
  obtain ⟨log2, h⟩ := read_db_of_trace gw hok g log fuel sd cell hroot (by omega) hcell 0 evs ht
  exact ⟨log2, by rw [h, hx]⟩

/-- The rendering scenario (root without key, directive `Port 21`, child
`Limit LOGIN` without directives) renders as `Port 21`, `<Limit LOGIN>`,
`</Limit>`. -/
theorem materialize_eq_render_witness :
    render scenarioTree true = ["Port 21\n".toList, "<Limit LOGIN>\n".toList, "</Limit>\n".toList]
    ∧ ∃ log2, sqlconf_read_db scenarioGw 2 ⟨scenarioGlobals, []⟩
        = .ret 0 ⟨withLines scenarioGlobals (render scenarioTree true), log2⟩ :=
  ⟨by decide,
    materialize_eq_render scenarioGw scenarioGlobals [] 2 scenarioTree
      ⟨1, 1, [some "1".toList]⟩ "1".toList scenarioGw_ok (by decide) (by decide) (by decide)
      (by decide) (by decide)⟩


/-- C1. The reference rendering fails on an SQL null in the value cell of a
directive row.  In the database `nullValueGw` no command fails and the root
context 1 has the single directive row (`Port`, NULL); `sqlconf_read_db`
returns 0 and leaves the three lines `Port ` (the key and a blank, without a
value and without a newline), `<Limit LOGIN>` and `</Limit>`: the directive row
has not become a line of the form `key value` closed by a newline. -/
theorem null_value_line_unterminated :
    (∀ q, nullValueGw q ≠ .error)
    ∧ nullValueGw
        ⟨.sql_select, confArgs scenarioGlobals.sqlconf_confs scenarioGlobals.sqlconf_maps 1⟩
      = .handled (some ⟨1, 2, [some "Port".toList, none]⟩)
    ∧ (sqlconf_read_db nullValueGw 2 ⟨scenarioGlobals, []⟩).code? = some 0
    ∧ ((sqlconf_read_db nullValueGw 2 ⟨scenarioGlobals, []⟩).state?.map
        fun s => s.g.sqlconf_conf)
      = some (some ["Port ".toList, "<Limit LOGIN>\n".toList, "</Limit>\n".toList]) := by
  refine ⟨?_, by decide, by decide, by decide⟩
  intro q
  unfold nullValueGw
  split
  · simp
  · exact scenarioGw_ok q

/-- C2. Defaults: for every descriptor
`sql://U:P@S?db=D/ctx:<x T1>/conf:T2/map:T3` with an optional `/base_id=V`, in
which no table name holds a `:` or a `/` (the context table name is the
non-empty `x :: T1`), `sqlconf_parse_uri` from the fresh module state returns 0
with the connection fields `U`, `P`, `S`, `D`, the default column names in the
three table records, no where-clause, and a base id exactly when the trailing
segment is there. -/
theorem parse_defaults (U P S D T1 T2 T3 : List Char) (x : Char) (base : Option (List Char))
    (hU : ':' ∉ U) (hP : '@' ∉ P) (hS : '?' ∉ S) (hD : '/' ∉ D)
    (nU : NUL ∉ U) (nP : NUL ∉ P) (nS : NUL ∉ S) (nD : NUL ∉ D)
    (s1' : '/' ∉ T1) (c1 : ':' ∉ T1) (n1 : NUL ∉ T1)
    (s2' : '/' ∉ T2) (c2 : ':' ∉ T2) (n2 : NUL ∉ T2)
    (s3' : '/' ∉ T3) (c3 : ':' ∉ T3) (n3 : NUL ∉ T3)
    (nV : ∀ V, base = some V → NUL ∉ V) :
    ∃ st, sqlconf_parse_uri Globals.fresh (uriText U P S D (x :: T1) T2 T3 base) = .ret 0 st
      ∧ st.g.sqlconf_db = ⟨some U, some P, some S, some D⟩
      ∧ st.g.sqlconf_ctxs.id = some "id".toList
      ∧ st.g.sqlconf_ctxs.parent_id = some "parent_id".toList
      ∧ st.g.sqlconf_ctxs.key = some "key".toList
      ∧ st.g.sqlconf_ctxs.value = some "value".toList
      ∧ st.g.sqlconf_ctxs.«where» = none
      ∧ st.g.sqlconf_ctxs.base_id = base
      ∧ st.g.sqlconf_confs
        = ⟨some T2, some "id".toList, some "key".toList, some "value".toList, none⟩
      ∧ st.g.sqlconf_maps = ⟨some T3, some "conf_id".toList, some "ctx_id".toList, none⟩ := by
  unfold sqlconf_parse_uri uriText
  have v0 := view_init "sql://".toList (U ++ ':' :: (P ++ '@' :: (S ++ '?' ::
    ("db".toList ++ '=' :: (D ++ '/' :: ("ctx:".toList ++ ((x :: T1) ++ '/' ::
      ("conf:".toList ++ (T2 ++ '/' :: ("map:".toList ++ (T3 ++ trailer base)))))))))))
  obtain ⟨s1, e1, g1, v1⟩ := db_full ⟨Globals.fresh, _, 6⟩ U P S D _ v0 hU hP hS hD nU nP nS nD
  obtain ⟨s2, e2, g2, v2⟩ := ctx_table_only s1 x T1 _ v1 s1' c1 n1
  obtain ⟨s3, e3, g3, v3⟩ := conf_table_only s2 T2 _ v2 s2' c2 n2
  cases base with
  | none =>
    obtain ⟨s4, e4, g4, v4⟩ := map_table_only_end s3 T3 (by simpa [trailer] using v3)
      s3' c3 n3
    simp only [e1, e2, e3, e4, Int.lt_irrefl, if_false]
    rw [parse_tail_none _ _ _ v4]
    refine ⟨_, rfl, ?_⟩
    dsimp only
    rw [g4, g3, g2, g1]
    exact ⟨rfl, rfl, rfl, rfl, rfl, rfl, rfl, rfl, rfl⟩
  | some V =>
    obtain ⟨s4, e4, g4, v4⟩ := map_table_only_slash s3 T3 _ (by simpa [trailer] using v3)
      s3' c3 n3
    simp only [e1, e2, e3, e4, Int.lt_irrefl, if_false]
    rw [parse_tail_some _ _ _ V v4 (nV V rfl)]
    refine ⟨_, rfl, ?_⟩
    dsimp only
    rw [g4, g3, g2, g1]
    exact ⟨rfl, rfl, rfl, rfl, rfl, rfl, rfl, rfl, rfl⟩

/-- C2, witness: the scenario descriptor
`sql://u:p@host?db=d/ctx:contexts/conf:directives/map:links`. -/
theorem parse_defaults_witness :
    uriText "u".toList "p".toList "host".toList "d".toList "contexts".toList
      "directives".toList "links".toList none = scenarioUri
    ∧ ∃ st, sqlconf_parse_uri Globals.fresh
        (uriText "u".toList "p".toList "host".toList "d".toList ('c' :: "ontexts".toList)
          "directives".toList "links".toList none) = .ret 0 st
      ∧ st.g.sqlconf_db
        = ⟨some "u".toList, some "p".toList, some "host".toList, some "d".toList⟩
      ∧ st.g.sqlconf_ctxs.id = some "id".toList
      ∧ st.g.sqlconf_ctxs.parent_id = some "parent_id".toList
      ∧ st.g.sqlconf_ctxs.key = some "key".toList
      ∧ st.g.sqlconf_ctxs.value = some "value".toList
      ∧ st.g.sqlconf_ctxs.«where» = none
      ∧ st.g.sqlconf_ctxs.base_id = none
      ∧ st.g.sqlconf_confs
        = ⟨some "directives".toList, some "id".toList, some "key".toList,
            some "value".toList, none⟩
      ∧ st.g.sqlconf_maps
        = ⟨some "links".toList, some "conf_id".toList, some "ctx_id".toList, none⟩ :=
  ⟨by decide,
    parse_defaults "u".toList "p".toList "host".toList "d".toList "ontexts".toList
      "directives".toList "links".toList 'c' none
      (by decide) (by decide) (by decide) (by decide) (by decide) (by decide) (by decide)
      (by decide) (by decide) (by decide) (by decide) (by decide) (by decide) (by decide)
      (by decide) (by decide) (by decide) (by intro V h; cases h)⟩

/-- C3. On the scenario descriptor the parse succeeds and the context table
name it stores is `ontexts`: the text after `ctx:` without its first byte, not
`contexts`, while the directive and mapping table names are the whole text
after `conf:` and `map:`. -/
theorem ctx_table_drops_first_byte :
    (sqlconf_parse_uri Globals.fresh scenarioUri).code? = some 0
    ∧ ((sqlconf_parse_uri Globals.fresh scenarioUri).state?.map
        fun s => (s.g.sqlconf_ctxs.tab, s.g.sqlconf_confs.tab, s.g.sqlconf_maps.tab))
      = some (some "ontexts".toList, some "directives".toList, some "links".toList) := by
  decide

/-- C4. A failing query below the root does not fail the materialization: when
the directive query of the child context fails, `sqlconf_read_db` returns 0 and
leaves the truncated line sequence `Port 21`, `<Limit LOGIN>` (no closing tag)
in `sqlconf_conf`. -/
theorem failed_child_query_not_fatal :
    (sqlconf_read_db failingChildGw 5 ⟨scenarioGlobals, []⟩).code? = some 0
    ∧ ((sqlconf_read_db failingChildGw 5 ⟨scenarioGlobals, []⟩).state?.map
        fun s => s.g.sqlconf_conf)
      = some (some ["Port 21\n".toList, "<Limit LOGIN>\n".toList]) := by
  decide

/-- C5, counterexample: the clause `a,b` holds no `/` and is not empty, yet a
descriptor with the context segment `ctx:ct:where=a,b/`, and one with the
directive segment `conf:ct:where=a,b/`, does not parse (return code -1): a comma
in the clause sends the segment down the column-list path. -/
theorem where_only_with_comma_rejected :
    IsName "ct".toList ∧ IsClause "a,b".toList ∧ "a,b".toList ≠ []
    ∧ (sqlconf_parse_uri Globals.fresh
        "sql://u:p@h?db=d/ctx:ct:where=a,b/conf:f/map:m".toList).code? = some (-1)
    ∧ (sqlconf_parse_uri Globals.fresh
        "sql://u:p@h?db=d/ctx:ct/conf:ct:where=a,b/map:m".toList).code? = some (-1) := by
  unfold IsName IsClause
  decide

/-- C5, amended. Where-only segment: for every non-empty table name `x :: T`
free of `:` and `/` and every clause `W` that holds no `/` and no `,`, at any
place in the buffer (after any bytes `p`, before any text `r`, with any
globals), `sqlconf_parse_uri_ctx` on `ctx:<x T>:where=W/` and
`sqlconf_parse_uri_conf` on `conf:<x T>:where=W/` return 0 with all column
names at their defaults and the where-clause `W`, and leave the cursor on `r`. -/
theorem where_only_segment (g : Globals) (p r : List Char) (x : Char) (T W : List Char)
    (hT : IsName (x :: T)) (hW : IsClause W) (hk : ',' ∉ W) :
    (∃ s2, sqlconf_parse_uri_ctx ⟨g, p ++ ("ctx:".toList ++ (x :: (T ++ ':' ::
          ("where".toList ++ '=' :: (W ++ '/' :: r))))), p.length⟩ = .ret 0 s2
        ∧ s2.g.sqlconf_ctxs.id = some "id".toList
        ∧ s2.g.sqlconf_ctxs.parent_id = some "parent_id".toList
        ∧ s2.g.sqlconf_ctxs.key = some "key".toList
        ∧ s2.g.sqlconf_ctxs.value = some "value".toList
        ∧ s2.g.sqlconf_ctxs.«where» = some W
        ∧ View s2.buf s2.uri r)
    ∧ (∃ s2, sqlconf_parse_uri_conf ⟨g, p ++ ("conf:".toList ++ ((x :: T) ++ ':' ::
          ("where".toList ++ '=' :: (W ++ '/' :: r)))), p.length⟩ = .ret 0 s2
        ∧ s2.g.sqlconf_confs
          = ⟨some (x :: T), some "id".toList, some "key".toList, some "value".toList, some W⟩
        ∧ View s2.buf s2.uri r) := by
  obtain ⟨cT, -, sT, nT⟩ := hT
  obtain ⟨sW, nW⟩ := hW
  have cT2 : ':' ∉ T := fun h => cT (List.mem_cons_of_mem _ h)
  have sT2 : '/' ∉ T := fun h => sT (List.mem_cons_of_mem _ h)
  have nT2 : NUL ∉ T := fun h => nT (List.mem_cons_of_mem _ h)
  refine ⟨?_, ?_⟩
  · obtain ⟨s2, e, hg, v⟩ := ctx_where_only ⟨g, _, p.length⟩ x T W r (view_init p _)
      sT2 cT2 nT2 sW hk nW
    refine ⟨s2, e, ?_, ?_, ?_, ?_, ?_, v⟩ <;> rw [hg] <;> rfl
  · obtain ⟨s2, e, hg, v⟩ := conf_where_only ⟨g, _, p.length⟩ (x :: T) W r (view_init p _)
      sT cT nT sW hk nW
    refine ⟨s2, e, ?_, v⟩
    rw [hg]
    rfl

/-- C5, witness: the segments `ctx:ct:where=a=1/` and `conf:ct:where=a=1/`;
a whole descriptor with both parses. -/
theorem where_only_segment_witness :
    (sqlconf_parse_uri Globals.fresh
        "sql://u:p@h?db=d/ctx:ct:where=a=1/conf:ct:where=a=1/map:m".toList).code? = some 0
    ∧ (∃ s2, sqlconf_parse_uri_ctx ⟨Globals.fresh, "sql://u:p@h?db=d/".toList
          ++ ("ctx:".toList ++ ('c' :: ("t".toList ++ ':' ::
          ("where".toList ++ '=' :: ("a=1".toList ++ '/' :: "conf:f/map:m".toList))))),
          "sql://u:p@h?db=d/".toList.length⟩ = .ret 0 s2
        ∧ s2.g.sqlconf_ctxs.id = some "id".toList
        ∧ s2.g.sqlconf_ctxs.parent_id = some "parent_id".toList
        ∧ s2.g.sqlconf_ctxs.key = some "key".toList
        ∧ s2.g.sqlconf_ctxs.value = some "value".toList
        ∧ s2.g.sqlconf_ctxs.«where» = some "a=1".toList
        ∧ View s2.buf s2.uri "conf:f/map:m".toList)
    ∧ (∃ s2, sqlconf_parse_uri_conf ⟨Globals.fresh, "sql://u:p@h?db=d/".toList
          ++ ("conf:".toList ++ (('c' :: "t".toList) ++ ':' ::
          ("where".toList ++ '=' :: ("a=1".toList ++ '/' :: "conf:f/map:m".toList)))),
          "sql://u:p@h?db=d/".toList.length⟩ = .ret 0 s2
        ∧ s2.g.sqlconf_confs
          = ⟨some ('c' :: "t".toList), some "id".toList, some "key".toList,
              some "value".toList, some "a=1".toList⟩
        ∧ View s2.buf s2.uri "conf:f/map:m".toList) :=
  ⟨by decide,
    where_only_segment Globals.fresh "sql://u:p@h?db=d/".toList "conf:f/map:m".toList
      'c' "t".toList "a=1".toList (by unfold IsName; decide)
      (by unfold IsClause; decide) (by decide)⟩

/-- C6. Explicit column lists: for all names `a`, `b`, `c`, `d` and every
non-empty table name `x :: T` free of `:`, `,`, `/`, and every clause `W` free
of `/`, at any place in the buffer, the context segment with four names, the
directive segment with three and the mapping segment with two (at the end of
the descriptor or before a `/`) are parsed with return code 0 into exactly
these column names; the where-clause is `W` with the suffix `:where=W` and
unset without it; the cursor is left on what follows the segment. -/
theorem column_list_segments (g : Globals) (p r : List Char) (x : Char)
    (T a b c d W : List Char)
    (hT : IsName (x :: T)) (ha : IsName a) (hb : IsName b) (hc : IsName c) (hd : IsName d)
    (hW : IsClause W) :
    (∃ s2, sqlconf_parse_uri_ctx ⟨g, p ++ ("ctx:".toList ++ (x :: (T ++ ':' :: (a ++ ',' ::
          (b ++ ',' :: (c ++ ',' :: (d ++ ':' :: ("where=".toList ++ (W ++ '/' :: r))))))))),
          p.length⟩ = .ret 0 s2
        ∧ s2.g.sqlconf_ctxs.id = some a ∧ s2.g.sqlconf_ctxs.parent_id = some b
        ∧ s2.g.sqlconf_ctxs.key = some c ∧ s2.g.sqlconf_ctxs.value = some d
        ∧ s2.g.sqlconf_ctxs.«where» = some W ∧ View s2.buf s2.uri r)
    ∧ (∃ s2, sqlconf_parse_uri_ctx ⟨g, p ++ ("ctx:".toList ++ (x :: (T ++ ':' :: (a ++ ',' ::
          (b ++ ',' :: (c ++ ',' :: (d ++ '/' :: r))))))), p.length⟩ = .ret 0 s2
        ∧ s2.g.sqlconf_ctxs.id = some a ∧ s2.g.sqlconf_ctxs.parent_id = some b
        ∧ s2.g.sqlconf_ctxs.key = some c ∧ s2.g.sqlconf_ctxs.value = some d
        ∧ s2.g.sqlconf_ctxs.«where» = none ∧ View s2.buf s2.uri r)
    ∧ (∃ s2, sqlconf_parse_uri_conf ⟨g, p ++ ("conf:".toList ++ ((x :: T) ++ ':' :: (a ++ ',' ::
          (b ++ ',' :: (c ++ ':' :: ("where=".toList ++ (W ++ '/' :: r))))))), p.length⟩
          = .ret 0 s2
        ∧ s2.g.sqlconf_confs = ⟨some (x :: T), some a, some b, some c, some W⟩
        ∧ View s2.buf s2.uri r)
    ∧ (∃ s2, sqlconf_parse_uri_conf ⟨g, p ++ ("conf:".toList ++ ((x :: T) ++ ':' :: (a ++ ',' ::
          (b ++ ',' :: (c ++ '/' :: r))))), p.length⟩ = .ret 0 s2
        ∧ s2.g.sqlconf_confs = ⟨some (x :: T), some a, some b, some c, none⟩
        ∧ View s2.buf s2.uri r)
    ∧ (∃ s2, sqlconf_parse_uri_map ⟨g, p ++ ("map:".toList ++ ((x :: T) ++ ':' :: (a ++ ',' ::
          (b ++ ':' :: ("where=".toList ++ W))))), p.length⟩ = .ret 0 s2
        ∧ s2.g.sqlconf_maps = ⟨some (x :: T), some a, some b, some W⟩
        ∧ View s2.buf s2.uri [])
    ∧ (∃ s2, sqlconf_parse_uri_map ⟨g, p ++ ("map:".toList ++ ((x :: T) ++ ':' :: (a ++ ',' ::
          (b ++ ':' :: ("where=".toList ++ (W ++ '/' :: r)))))), p.length⟩ = .ret 0 s2
        ∧ s2.g.sqlconf_maps = ⟨some (x :: T), some a, some b, some W⟩
        ∧ View s2.buf s2.uri r)
    ∧ (∃ s2, sqlconf_parse_uri_map ⟨g, p ++ ("map:".toList ++ ((x :: T) ++ ':' :: (a ++ ',' ::
          b))), p.length⟩ = .ret 0 s2
        ∧ s2.g.sqlconf_maps = ⟨some (x :: T), some a, some b, none⟩
        ∧ View s2.buf s2.uri [])
    ∧ (∃ s2, sqlconf_parse_uri_map ⟨g, p ++ ("map:".toList ++ ((x :: T) ++ ':' :: (a ++ ',' ::
          (b ++ '/' :: r)))), p.length⟩ = .ret 0 s2
        ∧ s2.g.sqlconf_maps = ⟨some (x :: T), some a, some b, none⟩
        ∧ View s2.buf s2.uri r) := by
  obtain ⟨cT, -, sT, nT⟩ := hT
  obtain ⟨ca, ka, sa, na⟩ := ha
  obtain ⟨cb, kb, sb, nb⟩ := hb
  obtain ⟨cc, kc, sc, nc⟩ := hc
  obtain ⟨cd, kd, sd, nd⟩ := hd
  obtain ⟨sW, nW⟩ := hW
  have cT2 : ':' ∉ T := fun h => cT (List.mem_cons_of_mem _ h)
  have sT2 : '/' ∉ T := fun h => sT (List.mem_cons_of_mem _ h)
  have nT2 : NUL ∉ T := fun h => nT (List.mem_cons_of_mem _ h)
  refine ⟨?_, ?_, ?_, ?_, ?_, ?_, ?_, ?_⟩
  · obtain ⟨s2, e, hg, v⟩ := ctx_cols_where ⟨g, _, p.length⟩ x T a b c d W r (view_init p _)
      sT2 sa sb sc sd sW cT2 ka kb kc cd nT2 na nb nc nd nW
    refine ⟨s2, e, ?_, ?_, ?_, ?_, ?_, v⟩ <;> rw [hg]
  · obtain ⟨s2, e, hg, v⟩ := ctx_cols ⟨g, _, p.length⟩ x T a b c d r (view_init p _)
      sT2 sa sb sc sd cT2 ka kb kc cd nT2 na nb nc nd
    refine ⟨s2, e, ?_, ?_, ?_, ?_, ?_, v⟩ <;> rw [hg]
  · obtain ⟨s2, e, hg, v⟩ := conf_cols_where ⟨g, _, p.length⟩ (x :: T) a b c W r
      (view_init p _) sT sa sb sc sW cT ka kb cc nT na nb nc nW
    exact ⟨s2, e, by rw [hg], v⟩
  · obtain ⟨s2, e, hg, v⟩ := conf_cols ⟨g, _, p.length⟩ (x :: T) a b c r
      (view_init p _) sT sa sb sc cT ka kb cc nT na nb nc
    exact ⟨s2, e, by rw [hg], v⟩
  · obtain ⟨s2, e, hg, v⟩ := map_cols_where_end ⟨g, _, p.length⟩ (x :: T) a b W
      (view_init p _) sT sa sb sW cT ka cb nT na nb nW
    exact ⟨s2, e, by rw [hg], v⟩
  · obtain ⟨s2, e, hg, v⟩ := map_cols_where_slash ⟨g, _, p.length⟩ (x :: T) a b W r
      (view_init p _) sT sa sb sW cT ka cb nT na nb nW
    exact ⟨s2, e, by rw [hg], v⟩
  · obtain ⟨s2, e, hg, v⟩ := map_cols_end ⟨g, _, p.length⟩ (x :: T) a b
      (view_init p _) sT sa sb cT ka cb nT na nb
    exact ⟨s2, e, by rw [hg], v⟩
  · obtain ⟨s2, e, hg, v⟩ := map_cols_slash ⟨g, _, p.length⟩ (x :: T) a b r
      (view_init p _) sT sa sb cT ka cb nT na nb
    exact ⟨s2, e, by rw [hg], v⟩

/-- C6, witness: the context segment `ctx:ct:i,p,k,v:where=a=1/`; a whole
descriptor with column lists in all three segments parses. -/
theorem column_list_segments_witness :
    (sqlconf_parse_uri Globals.fresh
        "sql://u:p@h?db=d/ctx:ct:i,p,k,v:where=a=1/conf:ct:i,k,v/map:ct:i,p:where=a=1".toList
      ).code? = some 0
    ∧ ∃ s2, sqlconf_parse_uri_ctx ⟨Globals.fresh, "sql://u:p@h?db=d/".toList
          ++ ("ctx:".toList ++ ('c' :: ("t".toList ++ ':' :: ("i".toList ++ ',' ::
          ("p".toList ++ ',' :: ("k".toList ++ ',' :: ("v".toList ++ ':' ::
          ("where=".toList ++ ("a=1".toList ++ '/' :: "conf:f/map:m".toList))))))))),
          "sql://u:p@h?db=d/".toList.length⟩ = .ret 0 s2
        ∧ s2.g.sqlconf_ctxs.id = some "i".toList
        ∧ s2.g.sqlconf_ctxs.parent_id = some "p".toList
        ∧ s2.g.sqlconf_ctxs.key = some "k".toList
        ∧ s2.g.sqlconf_ctxs.value = some "v".toList
        ∧ s2.g.sqlconf_ctxs.«where» = some "a=1".toList
        ∧ View s2.buf s2.uri "conf:f/map:m".toList :=
  ⟨by decide,
    (column_list_segments Globals.fresh "sql://u:p@h?db=d/".toList "conf:f/map:m".toList
      'c' "t".toList "i".toList "p".toList "k".toList "v".toList "a=1".toList
      (by unfold IsName; decide) (by unfold IsName; decide) (by unfold IsName; decide)
      (by unfold IsName; decide) (by unfold IsName; decide)
      (by unfold IsClause; decide)).1⟩

/-- C7. A descriptor without the `?db=` clause does not parse: the server field
receives the whole remainder of the descriptor, the cursor stays in front of it,
and the parse returns -1 at the context segment. -/
theorem missing_db_clause_fails :
    (sqlconf_parse_uri Globals.fresh
      "sql://u:p@host/ctx:contexts/conf:directives/map:links".toList).code? = some (-1)
    ∧ ((sqlconf_parse_uri Globals.fresh
      "sql://u:p@host/ctx:contexts/conf:directives/map:links".toList).state?.map
        fun s => (s.g.sqlconf_db.server, s.g.sqlconf_ctxs.tab))
      = some (some "host/ctx:contexts/conf:directives/map:links".toList, none) := by
  decide

/-- C8. After a where-only mapping segment the trailing segment is not read:
with `base_id=7` behind it the parse succeeds and leaves the base id unset, and
with `junk` behind it the parse succeeds as well. -/
theorem where_only_map_skips_trailing :
    ((sqlconf_parse_uri Globals.fresh
      "sql://u:p@h?db=d/ctx:ct/conf:f/map:m:where=x=1/base_id=7".toList).code? = some 0
    ∧ ((sqlconf_parse_uri Globals.fresh
      "sql://u:p@h?db=d/ctx:ct/conf:f/map:m:where=x=1/base_id=7".toList).state?.map
        fun s => (s.g.sqlconf_maps.«where», s.g.sqlconf_ctxs.base_id))
      = some (some "x=1".toList, none))
    ∧ (sqlconf_parse_uri Globals.fresh
      "sql://u:p@h?db=d/ctx:ct/conf:f/map:m:where=x=1/junk".toList).code? = some 0 := by
  decide

/-- C9. A root lookup that returns two rows is accepted: `sqlconf_read_db`
returns 0 and renders the first of the two candidates. -/
theorem two_root_rows_accepted :
    (sqlconf_read_db twoRootsGw 5 ⟨scenarioGlobals, []⟩).code? = some 0
    ∧ ((sqlconf_read_db twoRootsGw 5 ⟨scenarioGlobals, []⟩).state?.map
        fun s => s.g.sqlconf_conf)
      = some (some ["Port 21\n".toList, "<Limit LOGIN>\n".toList, "</Limit>\n".toList]) := by
  decide

/-- C10. Nesting invariant: when no command dispatched to the gateway fails and
`sqlconf_read_db` returns, either no line array was built (the root lookup
found no usable row and the globals are unchanged), or the line array consists
of the lines pushed by the root call of `sqlconf_read_ctx`, and these lines,
each taken with the statement that pushed it, are well nested: every closing
tag closes the innermost open tag and carries its key, and every opening tag
is closed. -/
theorem tag_lines_well_nested (gw : Gateway) (hok : ∀ q, gw q ≠ .error) (g : Globals)
    (log : List Query) (fuel : Nat) (code : Int) (st2 : MState)
    (h : sqlconf_read_db gw fuel ⟨g, log⟩ = .ret code st2) :
    st2.g = g ∨
    ∃ n c evs,
      traceCtx gw g.sqlconf_ctxs g.sqlconf_confs g.sqlconf_maps fuel n true = .ret c evs
      ∧ st2.g = withLines g (evs.map Ev.text)
      ∧ wellNested evs [] = true := by
  unfold sqlconf_read_db at h
  obtain ⟨d0, e0⟩ := dispatch_ok gw hok .sql_load_backend [] ⟨g, log⟩
  rw [e0] at h
  dsimp only at h
  obtain ⟨d1, e1⟩ := dispatch_ok gw hok .sql_prepare [] ⟨g, log ++ [⟨.sql_load_backend, []⟩]⟩
  rw [e1] at h
  dsimp only at h
  obtain ⟨d2, e2⟩ := dispatch_ok gw hok .sql_define_conn (connArgs g.sqlconf_db)
    ⟨g, log ++ [⟨.sql_load_backend, []⟩] ++ [⟨.sql_prepare, []⟩]⟩
  rw [e2] at h
  dsimp only at h
  obtain ⟨d3, e3⟩ := dispatch_ok gw hok .sql_open_conn [some "sqlconf".toList]
    ⟨g, log ++ [⟨.sql_load_backend, []⟩] ++ [⟨.sql_prepare, []⟩]
      ++ [⟨.sql_define_conn, connArgs g.sqlconf_db⟩]⟩
  rw [e3] at h
  dsimp only at h
  obtain ⟨d4, e4⟩ := dispatch_ok gw hok .sql_select (rootArgs g.sqlconf_ctxs)
    ⟨g, log ++ [⟨.sql_load_backend, []⟩] ++ [⟨.sql_prepare, []⟩]
      ++ [⟨.sql_define_conn, connArgs g.sqlconf_db⟩]
      ++ [⟨.sql_open_conn, [some "sqlconf".toList]⟩]⟩
  rw [e4] at h
  cases d4 with
  | none => cases h
  | some sd =>
    dsimp only at h
    split at h
    · left; cases h; rfl
    · split at h
      · left; cases h; rfl
      · rename_i s hs
        generalize hr : sqlconf_read_ctx gw fuel (atoi s) true _ = r at h
        cases r with
        | fault => cases h
        | nofuel => cases h
        | ret c st3 =>
          right
          obtain ⟨evs, ht, hg⟩ := read_ctx_traced gw g fuel (atoi s) true [] _ c st3 hr
          refine ⟨atoi s, c, evs, ht, ?_, ?_⟩
          · dsimp only at h
            obtain ⟨d5, e5⟩ := dispatch_ok gw hok .sql_close_conn
              [some "sqlconf".toList, some "1".toList] st3
            rw [e5] at h
            dsimp only at h
            obtain ⟨d6, e6⟩ := dispatch_ok gw hok .sql_cleanup []
              ⟨st3.g, st3.log ++ [⟨.sql_close_conn, [some "sqlconf".toList, some "1".toList]⟩]⟩
            rw [e6] at h
            cases h
            simpa using hg
          · have hb := traceCtx_balanced gw hok _ _ _ fuel (atoi s) true c evs ht [] []
            simpa [wellNested] using hb

/-- C10, witness: the rendering scenario returns with the lines `Port 21`,
`<Limit LOGIN>`, `</Limit>`, which are well nested. -/
theorem tag_lines_well_nested_witness :
    sqlconf_read_db scenarioGw 2 ⟨scenarioGlobals, []⟩ = .ret 0 scenarioFinal
    ∧ scenarioFinal.g.sqlconf_conf
      = some ["Port 21\n".toList, "<Limit LOGIN>\n".toList, "</Limit>\n".toList]
    ∧ (scenarioFinal.g = scenarioGlobals ∨
      ∃ n c evs,
        traceCtx scenarioGw scenarioGlobals.sqlconf_ctxs scenarioGlobals.sqlconf_confs
          scenarioGlobals.sqlconf_maps 2 n true = .ret c evs
        ∧ scenarioFinal.g = withLines scenarioGlobals (evs.map Ev.text)
        ∧ wellNested evs [] = true) :=
  ⟨by decide, by decide,
    tag_lines_well_nested scenarioGw scenarioGw_ok scenarioGlobals [] 2 0 scenarioFinal
      (by decide)⟩

/-- Delivery in order when no key cell is an SQL null: take a session in which
no line array exists and the cursor is 0, whose materialization
`sqlconf_read_db` returns without error and leaves the lines `ls` (C strings),
every one shorter than the size bound `buflen`, from a gateway whose directive rows carry a key (no SQL null in the
key cell).  Then for every `i` below the number of lines the first `i` calls of
`sqlconf_fsio_read_cb` leave the cursor at `i`, and the next call returns the
length of line `i`, which is positive, stores exactly the bytes of line `i` in
the first that many bytes of the caller's buffer, and leaves the cursor at
`i + 1` and the lines as they are. -/
theorem lines_read_in_order (gw : Gateway) (fuel : Nat) (junk : Nat → Nat → Char)
    (sysRead : Int) (path : List Char) (buflen : Nat) (st st1 : MState) (code : Int)
    (ls : List (List Char)) (i : Nat)
    (hpath : (untilNul path).take 6 = "sql://".toList)
    (hfresh : st.g.sqlconf_conf = none) (hcur : st.g.sqlconf_confi = 0)
    (hmat : sqlconf_read_db gw fuel st = .ret code st1) (hcode : 0 ≤ code)
    (hls : st1.g.sqlconf_conf = some ls)
    (hkey : ∀ n sd j, gw ⟨.sql_select, confArgs st.g.sqlconf_confs st.g.sqlconf_maps n⟩
      = .handled (some sd) → j < sd.rnum → sd.cell (j * sd.fnum) ≠ none)
    (hnul : ∀ l ∈ ls, NUL ∉ l) (hlen : ∀ l ∈ ls, l.length < buflen)
    (hi : i < ls.length) :
    ∃ si s2 out,
      readTimes gw fuel junk sysRead (some path) buflen i st = .ret 0 si
      ∧ si.g.sqlconf_confi = i
      ∧ sqlconf_fsio_read_cb gw fuel junk sysRead (some path) buflen si
          = .ret ((ls.getD i []).length : Nat) (s2, some out)
      ∧ 0 < (ls.getD i []).length
      ∧ out.take (ls.getD i []).length = ls.getD i []
      ∧ s2.g.sqlconf_confi = i + 1
      ∧ s2.g.sqlconf_conf = some ls := by
  have hm := getD_mem ls i hi
  have hg : st1.g.sqlconf_confi = 0 ∧ ∀ l ∈ ls, l ≠ [] := by
    rcases read_db_globals gw st.g st.log fuel code st1 hmat with ⟨_, hc⟩ | ⟨n, c, evs, ht, hg⟩
    · omega
    · rw [hg] at hls ⊢
      refine ⟨hcur, ?_⟩
      simp only [withLines_conf, Option.some.injEq] at hls
      subst hls
      intro l hl
      obtain ⟨e, he, rfl⟩ := List.mem_map.mp hl
      exact traceCtx_ne gw _ _ _ hkey fuel n true c evs ht e he
  obtain ⟨h0, hne⟩ := hg
  have hpos : 0 < (ls.getD i []).length := List.length_pos.mpr (hne _ hm)
  have hs := memcpyLine_strlen (ls.getD i []) (junk i) buflen (hnul _ hm) (hlen _ hm)
  cases i with
  | zero =>
    refine ⟨st, ⟨{ st1.g with sqlconf_confi := st1.g.sqlconf_confi + 1 }, st1.log⟩,
      memcpyLine (ls.getD 0 []) (junk 0) buflen, rfl, hcur, ?_, hpos, hs.2, ?_, hls⟩
    · rw [read_cb_first gw fuel junk sysRead path buflen st st1 code ls hpath hfresh hmat hcode
        hls]
      have := read_cb_serve gw fuel junk sysRead path buflen st1 ls hpath hls
        (by rw [h0]; exact hi) (by rw [h0]; exact hnul _ hm) (by rw [h0]; exact hlen _ hm)
      rw [h0] at this
      rw [this, h0]
    · dsimp only
      rw [h0]
  | succ k =>
    have hk := readTimes_serve gw fuel junk sysRead path buflen ls hpath hnul hlen (k + 1) st1 hls
      (by rw [h0]; omega)
    rw [h0, Nat.zero_add] at hk
    have hsv := read_cb_serve gw fuel junk sysRead path buflen
      ⟨{ st1.g with sqlconf_confi := k + 1 }, st1.log⟩ ls hpath hls hi (hnul _ hm) (hlen _ hm)
    refine ⟨⟨{ st1.g with sqlconf_confi := k + 1 }, st1.log⟩,
      ⟨{ st1.g with sqlconf_confi := k + 1 + 1 }, st1.log⟩,
      memcpyLine (ls.getD (k + 1) []) (junk (k + 1)) buflen, ?_, rfl, hsv, hpos, hs.2, rfl,
      hls⟩
    rw [readTimes_first gw fuel junk sysRead path buflen st st1 code ls hpath hfresh hmat hcode
      hls, hk]

/-- The opened scenario read into a buffer of 64 bytes.  After one call the
cursor is 1, and the second call returns 14, the length of `<Limit LOGIN>` with
its newline, with these bytes at the head of the buffer. -/
theorem lines_read_in_order_witness :
    sqlconf_read_db scenarioGw 2 scenarioOpened = .ret 0 scenarioBuilt
    ∧ scenarioBuilt.g.sqlconf_conf
      = some ["Port 21\n".toList, "<Limit LOGIN>\n".toList, "</Limit>\n".toList]
    ∧ ∃ si s2 out,
      readTimes scenarioGw 2 zJunk 0 (some scenarioUri) 64 1 scenarioOpened = .ret 0 si
      ∧ si.g.sqlconf_confi = 1
      ∧ sqlconf_fsio_read_cb scenarioGw 2 zJunk 0 (some scenarioUri) 64 si
          = .ret ((["Port 21\n".toList, "<Limit LOGIN>\n".toList,
              "</Limit>\n".toList].getD 1 []).length : Nat) (s2, some out)
      ∧ 0 < (["Port 21\n".toList, "<Limit LOGIN>\n".toList, "</Limit>\n".toList].getD 1
          []).length
      ∧ out.take (["Port 21\n".toList, "<Limit LOGIN>\n".toList,
            "</Limit>\n".toList].getD 1 []).length
          = ["Port 21\n".toList, "<Limit LOGIN>\n".toList, "</Limit>\n".toList].getD 1 []
      ∧ s2.g.sqlconf_confi = 1 + 1
      ∧ s2.g.sqlconf_conf
        = some ["Port 21\n".toList, "<Limit LOGIN>\n".toList, "</Limit>\n".toList] :=
  ⟨by decide, by decide,
    lines_read_in_order scenarioGw 2 zJunk 0 scenarioUri 64 scenarioOpened scenarioBuilt 0
      ["Port 21\n".toList, "<Limit LOGIN>\n".toList, "</Limit>\n".toList] 1
      (by decide) (by decide) (by decide) (by decide) (by decide) (by decide)
      (scenarioGw_keys _ _) (by decide) (by decide) (by decide)⟩

/-- C12. Delivery in order fails on an SQL null in the key cell of a directive
row.  In the database `nullKeyGw` no command fails and the root context 1 has
the directive rows (NULL, `21`) and (`Port`, `21`).  The opened scenario is a
fresh session (no line array, cursor 0); its first call of
`sqlconf_fsio_read_cb` with a buffer of 64 bytes materializes four lines, the
empty line, `Port 21`, `<Limit LOGIN>` and `</Limit>`, and returns 0, the count
that reports the end of the data, with the cursor at 1 and three lines unread;
the second call returns 8, the length of `Port 21` with its newline. -/
theorem null_key_line_reads_as_end :
    (∀ q, nullKeyGw q ≠ .error)
    ∧ scenarioOpened.g.sqlconf_conf = none
    ∧ scenarioOpened.g.sqlconf_confi = 0
    ∧ (sqlconf_fsio_read_cb nullKeyGw 2 zJunk 0 (some scenarioUri) 64 scenarioOpened).code?
      = some 0
    ∧ ((sqlconf_fsio_read_cb nullKeyGw 2 zJunk 0 (some scenarioUri) 64
          scenarioOpened).state?.map fun s => (s.1.g.sqlconf_conf, s.1.g.sqlconf_confi))
      = some (some [[], "Port 21\n".toList, "<Limit LOGIN>\n".toList, "</Limit>\n".toList], 1)
    ∧ nullKeyRead1.g.sqlconf_confi = 1
    ∧ (sqlconf_fsio_read_cb nullKeyGw 2 zJunk 0 (some scenarioUri) 64 nullKeyRead1).code?
      = some 8 := by
  refine ⟨?_, by decide, by decide, by decide, by decide, by decide, by decide⟩
  intro q
  unfold nullKeyGw
  split
  · simp
  · exact scenarioGw_ok q

/-- C15, counterexample: behind a server that refuses the connection the first
read of the opened scenario returns -1 after four dispatched commands, and the
second read dispatches the same four commands again. -/
theorem failed_first_read_queries_again :
    (sqlconf_fsio_read_cb noConnGw 2 zJunk 0 (some scenarioUri) 64 scenarioOpened).code?
      = some (-1)
    ∧ ((readTimes noConnGw 2 zJunk 0 (some scenarioUri) 64 1 scenarioOpened).state?.map
        fun s => s.log.map Query.hook)
      = some [.sql_load_backend, .sql_prepare, .sql_define_conn, .sql_open_conn]
    ∧ ((readTimes noConnGw 2 zJunk 0 (some scenarioUri) 64 2 scenarioOpened).state?.map
        fun s => s.log.map Query.hook)
      = some [.sql_load_backend, .sql_prepare, .sql_define_conn, .sql_open_conn,
          .sql_load_backend, .sql_prepare, .sql_define_conn, .sql_open_conn] := by
  decide

/-- C15, amended. The materializer runs until the line array exists: a call of
`sqlconf_fsio_read_cb` on a matching handle that returns without error leaves a
line array, and once a call has left a line array, any number `k` of further
calls dispatch no command (the query log stays as it is) and keep that line
array. -/
theorem queries_stop_once_built (gw : Gateway) (fuel : Nat) (junk : Nat → Nat → Char)
    (sysRead : Int) (path : List Char) (buflen : Nat) (s s2 sk : MState) (code c : Int)
    (out : Option (List Char)) (k : Nat)
    (hpath : (untilNul path).take 6 = "sql://".toList)
    (h1 : sqlconf_fsio_read_cb gw fuel junk sysRead (some path) buflen s = .ret code (s2, out))
    (hk : readTimes gw fuel junk sysRead (some path) buflen k s2 = .ret c sk) :
    (0 ≤ code → s2.g.sqlconf_conf ≠ none)
    ∧ (s2.g.sqlconf_conf ≠ none →
      sk.log = s2.log ∧ sk.g.sqlconf_conf = s2.g.sqlconf_conf) := by
  refine ⟨read_cb_ok_built gw fuel junk sysRead path buflen s s2 code out hpath h1, ?_⟩
  intro hb
  cases hc : s2.g.sqlconf_conf with
  | none => exact absurd hc hb
  | some ls =>
    exact readTimes_built gw fuel junk sysRead (some path) buflen ls k s2 sk c hc hk

/-- C15, witness: the first read of the opened scenario returns 8 and leaves
the line array; the two reads after it leave the query log and the line array
as the first read left them. -/
theorem queries_stop_once_built_witness :
    sqlconf_fsio_read_cb scenarioGw 2 zJunk 0 (some scenarioUri) 64 scenarioOpened
      = .ret 8 (scenarioRead1, some (memcpyLine "Port 21\n".toList (zJunk 0) 64))
    ∧ readTimes scenarioGw 2 zJunk 0 (some scenarioUri) 64 2 scenarioRead1
      = .ret 0 scenarioDrained
    ∧ scenarioRead1.g.sqlconf_conf ≠ none
    ∧ scenarioDrained.log = scenarioRead1.log
    ∧ scenarioDrained.g.sqlconf_conf = scenarioRead1.g.sqlconf_conf :=
  ⟨by decide, by decide,
    (queries_stop_once_built scenarioGw 2 zJunk 0 scenarioUri 64 scenarioOpened scenarioRead1
      scenarioDrained 8 0 (some (memcpyLine "Port 21\n".toList (zJunk 0) 64)) 2
      (by decide) (by decide) (by decide)).1 (by decide),
    (queries_stop_once_built scenarioGw 2 zJunk 0 scenarioUri 64 scenarioOpened scenarioRead1
      scenarioDrained 8 0 (some (memcpyLine "Port 21\n".toList (zJunk 0) 64)) 2
      (by decide) (by decide) (by decide)).2 (by decide)⟩

/-- C16, counterexample: the descriptor `sql://u:p@h?db=d/ctx:ct/conf:f/bad`
does not parse, yet after the call from the freshly loaded module the
connection record holds `u`, `p`, `h`, `d` and the context and directive table
names are set, while all of them were unset before the call. -/
theorem failed_parse_keeps_earlier_segments :
    (sqlconf_parse_uri Globals.fresh badMapUri).code? = some (-1)
    ∧ ((sqlconf_parse_uri Globals.fresh badMapUri).state?.map
        fun s => (s.g.sqlconf_db, s.g.sqlconf_ctxs.tab, s.g.sqlconf_confs.tab))
      = some (⟨some "u".toList, some "p".toList, some "h".toList, some "d".toList⟩,
          some "t".toList, some "f".toList)
    ∧ (Globals.fresh.sqlconf_db, Globals.fresh.sqlconf_ctxs.tab, Globals.fresh.sqlconf_confs.tab)
      = (⟨none, none, none, none⟩, none, none) := by
  decide

/-- C16, amended. A failed parse rolls nothing back and touches nothing behind
the failing segment: when `sqlconf_parse_uri` returns a negative code, the line
array and the cursor are as before the call, and the failure lies in one
segment (or in the trailing text).  The records of the segments after the
failing one are as before the call, and the records of the segments before it
are as these segments left them. -/
theorem failed_parse_leaves_later_segments (g : Globals) (buf : List Char) (code : Int)
    (s : PState) (h : sqlconf_parse_uri g buf = .ret code s) (hc : code < 0) :
    s.g.sqlconf_conf = g.sqlconf_conf ∧ s.g.sqlconf_confi = g.sqlconf_confi
    ∧ ((∃ c1, sqlconf_parse_uri_db ⟨g, buf, 6⟩ = .ret c1 s ∧ c1 < 0
        ∧ s.g.sqlconf_ctxs = g.sqlconf_ctxs ∧ s.g.sqlconf_confs = g.sqlconf_confs
        ∧ s.g.sqlconf_maps = g.sqlconf_maps)
      ∨ (∃ c1 s1 c2, sqlconf_parse_uri_db ⟨g, buf, 6⟩ = .ret c1 s1 ∧ 0 ≤ c1
        ∧ sqlconf_parse_uri_ctx s1 = .ret c2 s ∧ c2 < 0
        ∧ s.g.sqlconf_db = s1.g.sqlconf_db ∧ s.g.sqlconf_confs = g.sqlconf_confs
        ∧ s.g.sqlconf_maps = g.sqlconf_maps)
      ∨ (∃ c1 s1 c2 s2 c3, sqlconf_parse_uri_db ⟨g, buf, 6⟩ = .ret c1 s1 ∧ 0 ≤ c1
        ∧ sqlconf_parse_uri_ctx s1 = .ret c2 s2 ∧ 0 ≤ c2
        ∧ sqlconf_parse_uri_conf s2 = .ret c3 s ∧ c3 < 0
        ∧ s.g.sqlconf_db = s1.g.sqlconf_db ∧ s.g.sqlconf_ctxs = s2.g.sqlconf_ctxs
        ∧ s.g.sqlconf_maps = g.sqlconf_maps)
      ∨ (∃ c1 s1 c2 s2 c3 s3 c4, sqlconf_parse_uri_db ⟨g, buf, 6⟩ = .ret c1 s1 ∧ 0 ≤ c1
        ∧ sqlconf_parse_uri_ctx s1 = .ret c2 s2 ∧ 0 ≤ c2
        ∧ sqlconf_parse_uri_conf s2 = .ret c3 s3 ∧ 0 ≤ c3
        ∧ sqlconf_parse_uri_map s3 = .ret c4 s
        ∧ s.g.sqlconf_db = s1.g.sqlconf_db ∧ s.g.sqlconf_ctxs = s2.g.sqlconf_ctxs
        ∧ s.g.sqlconf_confs = s3.g.sqlconf_confs)) := by
  obtain ⟨k1, k2⟩ := parse_keeps_session g buf code s h
  refine ⟨k1, k2, ?_⟩
  rcases parse_stages g buf code s h with ⟨_, c1, h1, n1⟩ | ⟨c1, s1, h1, p1, h⟩
  · have f1 := db_frame _ _ _ h1
    exact .inl ⟨c1, h1, n1, f1.1, f1.2.1, f1.2.2.1⟩
  · have f1 := db_frame _ _ _ h1
    rcases h with ⟨_, c2, h2, n2⟩ | ⟨c2, s2, h2, p2, h⟩
    · have f2 := ctx_frame _ _ _ h2
      exact .inr (.inl ⟨c1, s1, c2, h1, p1, h2, n2, f2.1, f2.2.1.trans f1.2.1,
        f2.2.2.1.trans f1.2.2.1⟩)
    · have f2 := ctx_frame _ _ _ h2
      rcases h with ⟨_, c3, h3, n3⟩ | ⟨c3, s3, h3, p3, h⟩
      · have f3 := conf_frame _ _ _ h3
        exact .inr (.inr (.inl ⟨c1, s1, c2, s2, c3, h1, p1, h2, p2, h3, n3,
          f3.1.trans f2.1, f3.2.1, f3.2.2.1.trans (f2.2.2.1.trans f1.2.2.1)⟩))
      · have f3 := conf_frame _ _ _ h3
        rcases h with ⟨_, c4, h4, _⟩ | ⟨c4, s4, h4, _, h⟩
        · have f4 := map_frame _ _ _ h4
          exact .inr (.inr (.inr ⟨c1, s1, c2, s2, c3, s3, c4, h1, p1, h2, p2, h3, p3, h4,
            f4.1.trans (f3.1.trans f2.1), f4.2.1.trans f3.2.1, f4.2.2.1⟩))
        · have f4 := map_frame _ _ _ h4
          rcases h with ⟨_, rfl⟩ | ⟨h0, _⟩
          · exact .inr (.inr (.inr ⟨c1, s1, c2, s2, c3, s3, c4, h1, p1, h2, p2, h3, p3, h4,
              f4.1.trans (f3.1.trans f2.1), f4.2.1.trans f3.2.1, f4.2.2.1⟩))
          · omega

/-- C16, witness: the descriptor `sql://u:p@h?db=d/ctx:ct/conf:f/bad` parsed
in the freshly loaded module fails in the mapping segment and returns the
state that the directive segment left. -/
theorem failed_parse_leaves_later_segments_witness :
    sqlconf_parse_uri Globals.fresh badMapUri = .ret (-1) badMapConf
    ∧ badMapConf.g.sqlconf_conf = Globals.fresh.sqlconf_conf
    ∧ badMapConf.g.sqlconf_confi = Globals.fresh.sqlconf_confi
    ∧ ((∃ c1, sqlconf_parse_uri_db ⟨Globals.fresh, badMapUri, 6⟩ = .ret c1 badMapConf ∧ c1 < 0
        ∧ badMapConf.g.sqlconf_ctxs = Globals.fresh.sqlconf_ctxs
        ∧ badMapConf.g.sqlconf_confs = Globals.fresh.sqlconf_confs
        ∧ badMapConf.g.sqlconf_maps = Globals.fresh.sqlconf_maps)
      ∨ (∃ c1 s1 c2, sqlconf_parse_uri_db ⟨Globals.fresh, badMapUri, 6⟩ = .ret c1 s1 ∧ 0 ≤ c1
        ∧ sqlconf_parse_uri_ctx s1 = .ret c2 badMapConf ∧ c2 < 0
        ∧ badMapConf.g.sqlconf_db = s1.g.sqlconf_db
        ∧ badMapConf.g.sqlconf_confs = Globals.fresh.sqlconf_confs
        ∧ badMapConf.g.sqlconf_maps = Globals.fresh.sqlconf_maps)
      ∨ (∃ c1 s1 c2 s2 c3, sqlconf_parse_uri_db ⟨Globals.fresh, badMapUri, 6⟩ = .ret c1 s1
        ∧ 0 ≤ c1
        ∧ sqlconf_parse_uri_ctx s1 = .ret c2 s2 ∧ 0 ≤ c2
        ∧ sqlconf_parse_uri_conf s2 = .ret c3 badMapConf ∧ c3 < 0
        ∧ badMapConf.g.sqlconf_db = s1.g.sqlconf_db
        ∧ badMapConf.g.sqlconf_ctxs = s2.g.sqlconf_ctxs
        ∧ badMapConf.g.sqlconf_maps = Globals.fresh.sqlconf_maps)
      ∨ (∃ c1 s1 c2 s2 c3 s3 c4, sqlconf_parse_uri_db ⟨Globals.fresh, badMapUri, 6⟩ = .ret c1 s1
        ∧ 0 ≤ c1
        ∧ sqlconf_parse_uri_ctx s1 = .ret c2 s2 ∧ 0 ≤ c2
        ∧ sqlconf_parse_uri_conf s2 = .ret c3 s3 ∧ 0 ≤ c3
        ∧ sqlconf_parse_uri_map s3 = .ret c4 badMapConf
        ∧ badMapConf.g.sqlconf_db = s1.g.sqlconf_db
        ∧ badMapConf.g.sqlconf_ctxs = s2.g.sqlconf_ctxs
        ∧ badMapConf.g.sqlconf_confs = s3.g.sqlconf_confs)) :=
  ⟨by decide,
    failed_parse_leaves_later_segments Globals.fresh badMapUri (-1) badMapConf (by decide)
      (by decide)⟩

/-- C17, counterexample: a descriptor whose context segment lists five names,
whose directive segment lists four and whose mapping segment lists three
parses with return code 0; the surplus names end up, with their commas, in the
last column name of each segment.  A context segment with two names and a
where-suffix that holds two commas parses as well: the commas of the clause
are taken for the missing separators. -/
theorem surplus_names_accepted :
    (sqlconf_parse_uri Globals.fresh
      "sql://u:p@h?db=d/ctx:ct:a,b,c,d,e/conf:f:a,b,c,d/map:m:a,b,c".toList).code? = some 0
    ∧ ((sqlconf_parse_uri Globals.fresh
      "sql://u:p@h?db=d/ctx:ct:a,b,c,d,e/conf:f:a,b,c,d/map:m:a,b,c".toList).state?.map
        fun s => (s.g.sqlconf_ctxs.value, s.g.sqlconf_confs.value, s.g.sqlconf_maps.ctx_id))
      = some (some "d,e".toList, some "c,d".toList, some "b,c".toList)
    ∧ (sqlconf_parse_uri Globals.fresh
      "sql://u:p@h?db=d/ctx:ct:a,b:where=x,y,z/conf:f/map:m".toList).code? = some 0
    ∧ ((sqlconf_parse_uri Globals.fresh
      "sql://u:p@h?db=d/ctx:ct:a,b:where=x,y,z/conf:f/map:m".toList).state?.map
        fun s => (s.g.sqlconf_ctxs.parent_id, s.g.sqlconf_ctxs.key, s.g.sqlconf_ctxs.value))
      = some (some "b:where=x".toList, some "y".toList, some "z".toList) := by
  decide

/-- C17, amended. Too few names: at any place in the buffer, a context segment
with one, two or three names, a directive segment with one or two names and a
mapping segment with one name (before a `/` or at the end of the descriptor)
make the segment function return -1.  The names before the last are names of
the grammar; the last text `t` (`t1` where it is the only name) is any text
without `,` and `/`, so a name alone or a name with a comma-free
`:where=` suffix; an only name does not begin with `where=`, which would make
the segment a where-only segment. -/
theorem short_column_list_fails (g : Globals) (p r : List Char) (x : Char)
    (T a b t1 t : List Char)
    (hT : IsName (x :: T)) (ha : IsName a) (hb : IsName b)
    (h1 : ',' ∉ t1 ∧ '/' ∉ t1 ∧ NUL ∉ t1) (hw : t1.take 6 ≠ "where=".toList)
    (ht : ',' ∉ t ∧ '/' ∉ t ∧ NUL ∉ t) :
    (sqlconf_parse_uri_ctx ⟨g, p ++ ("ctx:".toList ++ (x :: (T ++ ':' :: (t1 ++ '/' :: r)))),
        p.length⟩).code? = some (-1)
    ∧ (sqlconf_parse_uri_ctx ⟨g, p ++ ("ctx:".toList ++ (x :: (T ++ ':' :: (a ++ ',' ::
        (t ++ '/' :: r))))), p.length⟩).code? = some (-1)
    ∧ (sqlconf_parse_uri_ctx ⟨g, p ++ ("ctx:".toList ++ (x :: (T ++ ':' :: (a ++ ',' ::
        (b ++ ',' :: (t ++ '/' :: r)))))), p.length⟩).code? = some (-1)
    ∧ (sqlconf_parse_uri_conf ⟨g, p ++ ("conf:".toList ++ ((x :: T) ++ ':' ::
        (t1 ++ '/' :: r))), p.length⟩).code? = some (-1)
    ∧ (sqlconf_parse_uri_conf ⟨g, p ++ ("conf:".toList ++ ((x :: T) ++ ':' :: (a ++ ',' ::
        (t ++ '/' :: r)))), p.length⟩).code? = some (-1)
    ∧ (sqlconf_parse_uri_map ⟨g, p ++ ("map:".toList ++ ((x :: T) ++ ':' ::
        (t1 ++ '/' :: r))), p.length⟩).code? = some (-1)
    ∧ (sqlconf_parse_uri_map ⟨g, p ++ ("map:".toList ++ ((x :: T) ++ ':' :: t1)),
        p.length⟩).code? = some (-1) := by
  obtain ⟨cT, -, sT, nT⟩ := hT
  obtain ⟨-, ka, sa, na⟩ := ha
  obtain ⟨-, kb, sb, nb⟩ := hb
  obtain ⟨k1, s1, n1⟩ := h1
  obtain ⟨kt, st, nt⟩ := ht
  have cT2 : ':' ∉ T := fun h => cT (List.mem_cons_of_mem _ h)
  have sT2 : '/' ∉ T := fun h => sT (List.mem_cons_of_mem _ h)
  have nT2 : NUL ∉ T := fun h => nT (List.mem_cons_of_mem _ h)
  exact ⟨ctx_short1 ⟨g, _, p.length⟩ x T t1 r (view_init p _) sT2 cT2 nT2 s1 k1 n1 hw,
    ctx_short2 ⟨g, _, p.length⟩ x T a t r (view_init p _) sT2 cT2 nT2 sa ka na st kt nt,
    ctx_short3 ⟨g, _, p.length⟩ x T a b t r (view_init p _) sT2 cT2 nT2 sa ka na sb kb nb
      st kt nt,
    conf_short1 ⟨g, _, p.length⟩ (x :: T) t1 r (view_init p _) sT cT nT s1 k1 n1 hw,
    conf_short2 ⟨g, _, p.length⟩ (x :: T) a t r (view_init p _) sT cT nT sa ka na st kt nt,
    map_short1_slash ⟨g, _, p.length⟩ (x :: T) t1 r (view_init p _) sT cT nT s1 k1 n1 hw,
    map_short1_end ⟨g, _, p.length⟩ (x :: T) t1 (view_init p _) sT cT nT s1 k1 n1 hw⟩

/-- C17, witness: behind `sql://u:p@h?db=d/` the context segments `ctx:ct:k/`,
`ctx:ct:i,k/` and `ctx:ct:i,p,k/`, the directive segments `conf:ct:k/` and
`conf:ct:i,k/` and the mapping segments `map:ct:k/` and `map:ct:k` are
rejected, and a whole descriptor with three names in the context segment does
not parse. -/
theorem short_column_list_fails_witness :
    (sqlconf_parse_uri Globals.fresh
      "sql://u:p@h?db=d/ctx:ct:i,p,k/conf:f/map:m".toList).code? = some (-1)
    ∧ (sqlconf_parse_uri_ctx ⟨Globals.fresh, "sql://u:p@h?db=d/".toList ++ ("ctx:".toList ++
        ('c' :: ("t".toList ++ ':' :: ("k".toList ++ '/' :: "conf:f/map:m".toList)))),
        "sql://u:p@h?db=d/".toList.length⟩).code? = some (-1)
    ∧ (sqlconf_parse_uri_ctx ⟨Globals.fresh, "sql://u:p@h?db=d/".toList ++ ("ctx:".toList ++
        ('c' :: ("t".toList ++ ':' :: ("i".toList ++ ',' ::
          ("k".toList ++ '/' :: "conf:f/map:m".toList))))),
        "sql://u:p@h?db=d/".toList.length⟩).code? = some (-1)
    ∧ (sqlconf_parse_uri_ctx ⟨Globals.fresh, "sql://u:p@h?db=d/".toList ++ ("ctx:".toList ++
        ('c' :: ("t".toList ++ ':' :: ("i".toList ++ ',' :: ("p".toList ++ ',' ::
          ("k".toList ++ '/' :: "conf:f/map:m".toList)))))),
        "sql://u:p@h?db=d/".toList.length⟩).code? = some (-1)
    ∧ (sqlconf_parse_uri_conf ⟨Globals.fresh, "sql://u:p@h?db=d/".toList ++ ("conf:".toList ++
        (('c' :: "t".toList) ++ ':' :: ("k".toList ++ '/' :: "conf:f/map:m".toList))),
        "sql://u:p@h?db=d/".toList.length⟩).code? = some (-1)
    ∧ (sqlconf_parse_uri_conf ⟨Globals.fresh, "sql://u:p@h?db=d/".toList ++ ("conf:".toList ++
        (('c' :: "t".toList) ++ ':' :: ("i".toList ++ ',' ::
          ("k".toList ++ '/' :: "conf:f/map:m".toList)))),
        "sql://u:p@h?db=d/".toList.length⟩).code? = some (-1)
    ∧ (sqlconf_parse_uri_map ⟨Globals.fresh, "sql://u:p@h?db=d/".toList ++ ("map:".toList ++
        (('c' :: "t".toList) ++ ':' :: ("k".toList ++ '/' :: "conf:f/map:m".toList))),
        "sql://u:p@h?db=d/".toList.length⟩).code? = some (-1)
    ∧ (sqlconf_parse_uri_map ⟨Globals.fresh, "sql://u:p@h?db=d/".toList ++ ("map:".toList ++
        (('c' :: "t".toList) ++ ':' :: "k".toList)),
        "sql://u:p@h?db=d/".toList.length⟩).code? = some (-1) :=
  ⟨by decide,
    short_column_list_fails Globals.fresh "sql://u:p@h?db=d/".toList "conf:f/map:m".toList
      'c' "t".toList "i".toList "p".toList "k".toList "k".toList
      (by unfold IsName; decide) (by unfold IsName; decide) (by unfold IsName; decide)
      (by decide) (by decide) (by decide)⟩

/-- C18. Tag prefix required: let the connection segment of a descriptor
return without error in the state `s1`.  If the text at the cursor of `s1` does
not begin with `ctx:`, `sqlconf_parse_uri` returns -1 in the state `s1` itself,
with the context, directive and mapping records as before the call.  If the
context segment returns without error in `s2` and the text at its cursor does
not begin with `conf:`, the parse returns -1 in `s2`, with the directive and
mapping records as before the call.  If the directive segment as well returns
without error in `s3` and the text at its cursor does not begin with `map:`,
the parse returns -1 in `s3`, with the mapping record as before the call. -/
theorem missing_tag_fails (g : Globals) (buf : List Char) (c1 c2 c3 : Int) (s1 s2 s3 : PState)
    (h1 : sqlconf_parse_uri_db ⟨g, buf, 6⟩ = .ret c1 s1) (hc1 : 0 ≤ c1) :
    (strncmpEq s1.buf s1.uri "ctx:".toList = some false →
      sqlconf_parse_uri g buf = .ret (-1) s1
      ∧ s1.g.sqlconf_ctxs = g.sqlconf_ctxs ∧ s1.g.sqlconf_confs = g.sqlconf_confs
      ∧ s1.g.sqlconf_maps = g.sqlconf_maps)
    ∧ (sqlconf_parse_uri_ctx s1 = .ret c2 s2 → 0 ≤ c2 →
      (strncmpEq s2.buf s2.uri "conf:".toList = some false →
        sqlconf_parse_uri g buf = .ret (-1) s2
        ∧ s2.g.sqlconf_confs = g.sqlconf_confs ∧ s2.g.sqlconf_maps = g.sqlconf_maps)
      ∧ (sqlconf_parse_uri_conf s2 = .ret c3 s3 → 0 ≤ c3 →
        strncmpEq s3.buf s3.uri "map:".toList = some false →
        sqlconf_parse_uri g buf = .ret (-1) s3 ∧ s3.g.sqlconf_maps = g.sqlconf_maps)) := by
  have f1 := db_frame _ _ _ h1
  have n1 : ¬ c1 < 0 := Int.not_lt.mpr hc1
  refine ⟨?_, ?_⟩
  · intro ht
    have e : sqlconf_parse_uri_ctx s1 = .ret (-1) s1 := by
      unfold sqlconf_parse_uri_ctx
      rw [ht]
      rfl
    refine ⟨?_, f1.1, f1.2.1, f1.2.2.1⟩
    unfold sqlconf_parse_uri
    rw [h1]
    dsimp only
    rw [if_neg n1, e]
    rfl
  · intro h2 hc2
    have f2 := ctx_frame _ _ _ h2
    have n2 : ¬ c2 < 0 := Int.not_lt.mpr hc2
    refine ⟨?_, ?_⟩
    · intro ht
      have e : sqlconf_parse_uri_conf s2 = .ret (-1) s2 := by
        unfold sqlconf_parse_uri_conf
        rw [ht]
        rfl
      refine ⟨?_, f2.2.1.trans f1.2.1, f2.2.2.1.trans f1.2.2.1⟩
      unfold sqlconf_parse_uri
      rw [h1]
      dsimp only
      rw [if_neg n1, h2]
      dsimp only
      rw [if_neg n2, e]
      rfl
    · intro h3 hc3 ht
      have f3 := conf_frame _ _ _ h3
      have n3 : ¬ c3 < 0 := Int.not_lt.mpr hc3
      have e : sqlconf_parse_uri_map s3 = .ret (-1) s3 := by
        unfold sqlconf_parse_uri_map
        rw [ht]
        rfl
      refine ⟨?_, f3.2.2.1.trans (f2.2.2.1.trans f1.2.2.1)⟩
      unfold sqlconf_parse_uri
      rw [h1]
      dsimp only
      rw [if_neg n1, h2]
      dsimp only
      rw [if_neg n2, h3]
      dsimp only
      rw [if_neg n3, e]
      rfl

/-- C18, witness: in `sql://u:p@h?db=d/ctx:ct/conf:f/bad` the first three
segments parse and the text `bad` at the fourth does not begin with `map:`; the
parse returns -1 in the state left by the directive segment, with the mapping
record unset. -/
theorem missing_tag_fails_witness :
    sqlconf_parse_uri_db ⟨Globals.fresh, badMapUri, 6⟩ = .ret 0 badMapDb
    ∧ sqlconf_parse_uri_ctx badMapDb = .ret 0 badMapCtx
    ∧ sqlconf_parse_uri_conf badMapCtx = .ret 0 badMapConf
    ∧ cstrAt badMapConf.buf badMapConf.uri = some "bad".toList
    ∧ strncmpEq badMapConf.buf badMapConf.uri "map:".toList = some false
    ∧ sqlconf_parse_uri Globals.fresh badMapUri = .ret (-1) badMapConf
    ∧ badMapConf.g.sqlconf_maps = Globals.fresh.sqlconf_maps :=
  ⟨by decide, by decide, by decide, by decide, by decide,
    ((missing_tag_fails Globals.fresh badMapUri 0 0 0 badMapDb badMapCtx badMapConf
      (by decide) (by decide)).2 (by decide) (by decide)).2 (by decide) (by decide)
      (by decide)⟩

/-- C19. A descriptor that ends with a where-only mapping segment is not parsed
to a result: on `sql://u:p@h?db=d/ctx:ct/conf:f/map:m:where=x=1` the mapping
segment finds no `/` behind it, moves the cursor to the null pointer plus one
and reads there, which is a fault. -/
theorem where_only_map_at_end_faults :
    sqlconf_parse_uri Globals.fresh "sql://u:p@h?db=d/ctx:ct/conf:f/map:m:where=x=1".toList
      = .fault := by
  decide

/-- C20. The base id of an earlier parse survives a later one: the descriptor
`sql://u:p@h?db=d/ctx:ct/conf:f/map:m` parses with return code 0 both in the
freshly loaded module and in the state left by a parse of the same descriptor
followed by `/base_id=7`; the first leaves the base id unset, the second leaves
it `7`. -/
theorem base_id_survives_next_parse :
    (sqlconf_parse_uri Globals.fresh "sql://u:p@h?db=d/ctx:ct/conf:f/map:m".toList).code? = some 0
    ∧ (sqlconf_parse_uri afterBaseId "sql://u:p@h?db=d/ctx:ct/conf:f/map:m".toList).code? = some 0
    ∧ ((sqlconf_parse_uri Globals.fresh "sql://u:p@h?db=d/ctx:ct/conf:f/map:m".toList).state?.map
        fun s => s.g.sqlconf_ctxs.base_id) = some none
    ∧ ((sqlconf_parse_uri afterBaseId "sql://u:p@h?db=d/ctx:ct/conf:f/map:m".toList).state?.map
        fun s => s.g.sqlconf_ctxs.base_id) = some (some "7".toList) := by
  decide

/-- C21, counterexample: when the tag query of the child context returns the
key `Limit` with the empty string as value, the opening tag line is `<Limit >`
with a space before the `>`, not `<Limit>`. -/
theorem empty_value_keeps_space :
    emptyValueGw ⟨.sql_select, tagArgs scenarioGlobals.sqlconf_ctxs 2⟩
      = .handled (some ⟨1, 2, [some "Limit".toList, some []]⟩)
    ∧ (sqlconf_read_db emptyValueGw 2 ⟨scenarioGlobals, []⟩).code? = some 0
    ∧ ((sqlconf_read_db emptyValueGw 2 ⟨scenarioGlobals, []⟩).state?.map
        fun s => s.g.sqlconf_conf)
      = some (some ["Port 21\n".toList, "<Limit >\n".toList, "</Limit>\n".toList]) := by
  decide

/-- C21, amended. Tag line format: let the tag query of context `n` return at
most one row with the key `k`.  A call `sqlconf_read_ctx(p, n, FALSE)` that
returns has appended first the opening tag line, which is `<k>` and a newline
when the value cell is absent (`NULL`) and `<k v>` and a newline when the value
cell holds the string `v`, the empty string included; then the lines `body` of
the directives and children; and last, unless it returns an error, the closing
line `</k>` and a newline. -/
theorem tag_line_format (gw : Gateway) (g : Globals) (fuel : Nat) (n : Int)
    (ls : List (List Char)) (log : List Query) (code : Int) (st2 : MState) (sd : SqlData)
    (k : List Char)
    (htag : gw ⟨.sql_select, tagArgs g.sqlconf_ctxs n⟩ = .handled (some sd))
    (hrow : sd.rnum ≤ 1) (hk : sd.cell 0 = some k)
    (h : sqlconf_read_ctx gw (fuel + 1) n false ⟨withLines g ls, log⟩ = .ret code st2) :
    ∃ body, st2.g = withLines g (ls
      ++ ['<' :: (k ++ ((match sd.cell 1 with
          | none => []
          | some v => ' ' :: v) ++ ['>', '\n']))]
      ++ body
      ++ (if code < 0 then [] else ['<' :: '/' :: (k ++ ['>', '\n'])])) := by
  obtain ⟨evs, ht, hg⟩ := read_ctx_traced gw g (fuel + 1) n false ls log code st2 h
  have ho : openTag (some k) (sd.cell 1) = '<' :: (k ++ ((match sd.cell 1 with
      | none => []
      | some v => ' ' :: v) ++ ['>', '\n'])) := by
    rw [openTag_some]
    cases sd.cell 1 <;> simp [specOpen]
  have hc : closeTag (some k) = '<' :: '/' :: (k ++ ['>', '\n']) := by
    rw [closeTag_some]
    simp [specClose]
  rw [traceCtx, htag] at ht
  dsimp only at ht
  rw [if_neg (by omega)] at ht
  have hyes : sd.cell 0 ≠ none ∧ false = false := ⟨by simp [hk], rfl⟩
  simp only [if_pos hyes, hk] at ht
  generalize h1 : traceConf gw g.sqlconf_confs g.sqlconf_maps n = r1 at ht
  cases r1 with
  | fault => cases ht
  | nofuel => cases ht
  | ret c1 evs1 =>
    dsimp only at ht
    split at ht
    · cases ht
      refine ⟨evs1.map Ev.text, ?_⟩
      rw [hg]
      simp [Ev.text, ho]
    · generalize h2 : traceKids _ gw g.sqlconf_ctxs n = r2 at ht
      cases r2 with
      | fault => cases ht
      | nofuel => cases ht
      | ret c2 evs2 =>
        dsimp only at ht
        split at ht
        · cases ht
          refine ⟨evs1.map Ev.text ++ evs2.map Ev.text, ?_⟩
          rw [hg]
          simp [Ev.text, ho]
        · cases ht
          refine ⟨evs1.map Ev.text ++ evs2.map Ev.text, ?_⟩
          rw [hg]
          simp [Ev.text, ho, hc]

/-- C21, witness: the call on the child context 2 of the scenario, whose tag
query returns the key `Limit` and the value `LOGIN`, leaves the lines
`<Limit LOGIN>` and `</Limit>`. -/
theorem tag_line_format_witness :
    sqlconf_read_ctx scenarioGw 1 2 false ⟨withLines scenarioGlobals [], []⟩
      = .ret 0 limitCtxFinal
    ∧ limitCtxFinal.g.sqlconf_conf = some ["<Limit LOGIN>\n".toList, "</Limit>\n".toList]
    ∧ ∃ body, limitCtxFinal.g = withLines scenarioGlobals ([]
      ++ ['<' :: ("Limit".toList ++ ((match (SqlData.mk 1 2
            [some "Limit".toList, some "LOGIN".toList]).cell 1 with
          | none => []
          | some v => ' ' :: v) ++ ['>', '\n']))]
      ++ body
      ++ (if (0 : Int) < 0 then [] else ['<' :: '/' :: ("Limit".toList ++ ['>', '\n'])])) :=
  ⟨by decide, by decide,
    tag_line_format scenarioGw scenarioGlobals 0 2 [] [] 0 limitCtxFinal
      ⟨1, 2, [some "Limit".toList, some "LOGIN".toList]⟩ "Limit".toList
      (by decide) (by decide) (by decide) (by decide)⟩

/-- C22. Where-clause combination: let the column and table names used in the
queries be set.  A returning call of `sqlconf_read_ctx` on context `n`
dispatches first the tag query, then (unless it stopped) the directive query,
then (unless it stopped) the child-context query of `n`.  The condition text of
the tag query is `<id column> = <n>`, that of the child-context query
`<parent id column> = <n>`, each followed by ` AND <where>` exactly when the
context where-clause is set; the text of the directive query ends with
`<map table>.<context id column> = <n>`, followed by ` AND <where>` exactly
when the directive where-clause is set.  `n` is written in decimal. -/
theorem where_clause_combination (gw : Gateway) (g : Globals) (fuel : Nat) (n : Int)
    (isbase : Bool) (ls : List (List Char)) (log : List Query) (code : Int) (st2 : MState)
    (I P K V T D MT MC MX : List Char)
    (hI : g.sqlconf_ctxs.id = some I) (hP : g.sqlconf_ctxs.parent_id = some P)
    (hK : g.sqlconf_confs.key = some K) (hV : g.sqlconf_confs.value = some V)
    (hT : g.sqlconf_confs.tab = some T) (hD : g.sqlconf_confs.id = some D)
    (hMT : g.sqlconf_maps.tab = some MT) (hMC : g.sqlconf_maps.conf_id = some MC)
    (hMX : g.sqlconf_maps.ctx_id = some MX)
    (h : sqlconf_read_ctx gw (fuel + 1) n isbase ⟨withLines g ls, log⟩ = .ret code st2) :
    (∃ rest, st2.log = log ++ ⟨.sql_select, tagArgs g.sqlconf_ctxs n⟩ :: rest
      ∧ (rest = [] ∨ ∃ rest2,
        rest = ⟨.sql_select, confArgs g.sqlconf_confs g.sqlconf_maps n⟩ :: rest2
        ∧ (rest2 = [] ∨ ∃ rest3, rest2 = ⟨.sql_select, kidsArgs g.sqlconf_ctxs n⟩ :: rest3)))
    ∧ Query.text ⟨.sql_select, tagArgs g.sqlconf_ctxs n⟩
      = some (I ++ (" = ".toList ++ ((toString n).toList ++ (match g.sqlconf_ctxs.«where» with
          | none => []
          | some W => " AND ".toList ++ W))))
    ∧ Query.text ⟨.sql_select, kidsArgs g.sqlconf_ctxs n⟩
      = some (P ++ (" = ".toList ++ ((toString n).toList ++ (match g.sqlconf_ctxs.«where» with
          | none => []
          | some W => " AND ".toList ++ W))))
    ∧ ∃ pre, Query.text ⟨.sql_select, confArgs g.sqlconf_confs g.sqlconf_maps n⟩
      = some (pre ++ (MT ++ (".".toList ++ (MX ++ (" = ".toList ++ ((toString n).toList
          ++ (match g.sqlconf_confs.«where» with
            | none => []
            | some W => " AND ".toList ++ W))))))) := by
  refine ⟨?_, ?_, ?_, ?_⟩
  · have ha := agreesLog_ctx gw g (fuel + 1) n isbase ls log
    revert ha
    cases hq : askedCtx gw g.sqlconf_ctxs g.sqlconf_confs g.sqlconf_maps (fuel + 1) n with
    | fault => intro ha; simp only [AgreesLog] at ha; rw [ha] at h; cases h
    | nofuel => intro ha; simp only [AgreesLog] at ha; rw [ha] at h; cases h
    | ret c qs =>
      intro ha
      obtain ⟨ls2, ha⟩ := ha
      rw [ha] at h
      cases h
      obtain ⟨rest, rfl, hrest⟩ := askedCtx_first gw _ _ _ fuel n _ qs hq
      exact ⟨rest, rfl, hrest⟩
  · simp [Query.text, tagArgs, hI, ctxWhere_text, fmtInt_toString]
  · simp [Query.text, kidsArgs, hP, ctxWhere_text, fmtInt_toString]
  · refine ⟨K ++ (", ".toList ++ (V ++ (" FROM ".toList ++ (T ++ (" INNER JOIN ".toList ++ (MT
      ++ (" ON ".toList ++ (T ++ (".".toList ++ (D ++ (" = ".toList ++ (MT ++ (".".toList
      ++ (MC ++ " WHERE ".toList)))))))))))))), ?_⟩
    unfold Query.text confArgs confQuery
    cases g.sqlconf_confs.«where» with
    | none => simp [pstrcat, hK, hV, hT, hD, hMT, hMC, hMX, fmtInt_toString]
    | some W => simp [pstrcat, hK, hV, hT, hD, hMT, hMC, hMX, fmtInt_toString]

/-- C22, witness: under the where-clauses `live = 1` (contexts) and `on = 1`
(directives) the call on context 2 dispatches the three queries with the texts
`id = 2 AND live = 1`, `... WHERE links.ctx_id = 2 AND on = 1` and
`parent_id = 2 AND live = 1`. -/
theorem where_clause_combination_witness :
    sqlconf_read_ctx scenarioGw 1 2 false ⟨withLines whereGlobals [], []⟩ = .ret 0 whereCtxFinal
    ∧ whereCtxFinal.log.map Query.text
      = [some "id = 2 AND live = 1".toList,
          some ("key, value FROM directives INNER JOIN links ON directives.id = links.conf_id"
            ++ " WHERE links.ctx_id = 2 AND on = 1").toList,
          some "parent_id = 2 AND live = 1".toList]
    ∧ (∃ rest, whereCtxFinal.log = [] ++ ⟨.sql_select, tagArgs whereGlobals.sqlconf_ctxs 2⟩ :: rest
      ∧ (rest = [] ∨ ∃ rest2,
        rest = ⟨.sql_select, confArgs whereGlobals.sqlconf_confs whereGlobals.sqlconf_maps 2⟩
          :: rest2
        ∧ (rest2 = [] ∨ ∃ rest3,
          rest2 = ⟨.sql_select, kidsArgs whereGlobals.sqlconf_ctxs 2⟩ :: rest3)))
    ∧ Query.text ⟨.sql_select, tagArgs whereGlobals.sqlconf_ctxs 2⟩
      = some ("id".toList ++ (" = ".toList ++ ((toString (2 : Int)).toList
        ++ (match whereGlobals.sqlconf_ctxs.«where» with
          | none => []
          | some W => " AND ".toList ++ W)))) :=
  ⟨by decide, by decide,
    (where_clause_combination scenarioGw whereGlobals 0 2 false [] [] 0 whereCtxFinal
      "id".toList "parent_id".toList "key".toList "value".toList "directives".toList
      "id".toList "links".toList "conf_id".toList "ctx_id".toList
      rfl rfl rfl rfl rfl rfl rfl rfl rfl (by decide)).1,
    (where_clause_combination scenarioGw whereGlobals 0 2 false [] [] 0 whereCtxFinal
      "id".toList "parent_id".toList "key".toList "value".toList "directives".toList
      "id".toList "links".toList "conf_id".toList "ctx_id".toList
      rfl rfl rfl rfl rfl rfl rfl rfl rfl (by decide)).2.1⟩

/-- C23, counterexample: in the database `loopFailGw` the row of context 2,
a child of the root 1, is its own parent, so the child relation is not
well-founded below the root; the directive query of context 2 fails.  The root
call returns with budget 2 and with budget 7 alike, and the child-context
query of 2 is never dispatched: the pair of parent 2 and its child row is not
visited. -/
theorem failed_query_ends_cycle :
    isChildRow loopFailGw scenarioGlobals.sqlconf_ctxs 1 2 = true
    ∧ isChildRow loopFailGw scenarioGlobals.sqlconf_ctxs 2 2 = true
    ∧ (sqlconf_read_ctx loopFailGw 2 1 true ⟨withLines scenarioGlobals [], []⟩).code? = some 0
    ∧ sqlconf_read_ctx loopFailGw 7 1 true ⟨withLines scenarioGlobals [], []⟩
      = sqlconf_read_ctx loopFailGw 2 1 true ⟨withLines scenarioGlobals [], []⟩
    ∧ ((sqlconf_read_ctx loopFailGw 2 1 true ⟨withLines scenarioGlobals [], []⟩).state?.map
        fun s => s.log.map Query.text)
      = some [some "id = 1".toList, scenarioConfQuery 1, some "parent_id = 1".toList,
          some "id = 2".toList, scenarioConfQuery 2] := by
  decide

/-- C23, amended. Termination.  The child relation of a gateway relates
`child` to `parent` when the child-context query of `parent` returns a row
whose id reads `child`; a result has finitely many rows.
First, if the context `n` is accessible for this relation (no infinite chain of
child rows starts at `n`), some recursion budget `F` is enough: for every
`isbase`, line array and log the call `sqlconf_read_ctx` on `n` with budget `F`
does not run out of budget, and every larger budget gives the same outcome.
Second, if the gateway presents a finite context tree `t` at `n`, the call with
a budget above the depth of the tree returns 0 and has dispatched exactly
`treeQueries`: for `n` and for every child row below it, once each and in
pre-order, the tag query, the directive query and the child-context query.
Third, if every tag query returns data with at most one row, every directive
query returns data, every child-context query returns data whose id cells are
set, and `n` is not accessible (for instance a row below `n` is its own
parent), the call runs out of every budget. -/
theorem descent_terminates (gw : Gateway) (g : Globals) (n : Int) (t : CtxTree) (fuel : Nat)
    (isbase : Bool) (ls : List (List Char)) (log : List Query) :
    (Acc (fun child parent => isChildRow gw g.sqlconf_ctxs parent child = true) n →
      ∃ F, ∀ (b : Bool) (ls1 : List (List Char)) (log1 : List Query),
        sqlconf_read_ctx gw F n b ⟨withLines g ls1, log1⟩ ≠ .nofuel
        ∧ ∀ f, F ≤ f → sqlconf_read_ctx gw f n b ⟨withLines g ls1, log1⟩
            = sqlconf_read_ctx gw F n b ⟨withLines g ls1, log1⟩)
    ∧ (represents gw g.sqlconf_ctxs g.sqlconf_confs g.sqlconf_maps n t = true →
      t.kids.depth + 1 ≤ fuel →
      ∃ ls2, sqlconf_read_ctx gw fuel n isbase ⟨withLines g ls, log⟩
        = .ret 0 ⟨withLines g ls2,
            log ++ treeQueries g.sqlconf_ctxs g.sqlconf_confs g.sqlconf_maps n t⟩)
    ∧ ((∀ k, ∃ sd, gw ⟨.sql_select, tagArgs g.sqlconf_ctxs k⟩ = .handled (some sd)
          ∧ sd.rnum ≤ 1) →
      (∀ k, ∃ sd, gw ⟨.sql_select, confArgs g.sqlconf_confs g.sqlconf_maps k⟩
          = .handled (some sd)) →
      (∀ k, ∃ sd, gw ⟨.sql_select, kidsArgs g.sqlconf_ctxs k⟩ = .handled (some sd)
          ∧ ∀ i, i < sd.rnum → sd.cell i ≠ none) →
      ¬ Acc (fun child parent => isChildRow gw g.sqlconf_ctxs parent child = true) n →
      sqlconf_read_ctx gw fuel n isbase ⟨withLines g ls, log⟩ = .nofuel) := by
  refine ⟨?_, ?_, ?_⟩
  · intro hacc
    obtain ⟨F, hF⟩ := askedCtx_terminates gw g.sqlconf_ctxs g.sqlconf_confs g.sqlconf_maps n hacc
    refine ⟨F, fun b ls1 log1 => ?_⟩
    have hne : sqlconf_read_ctx gw F n b ⟨withLines g ls1, log1⟩ ≠ .nofuel := by
      have ha := agreesLog_ctx gw g F n b ls1 log1
      have hq := hF F (le_refl _)
      cases hx : askedCtx gw g.sqlconf_ctxs g.sqlconf_confs g.sqlconf_maps F n with
      | fault =>
        rw [hx] at ha
        simp only [AgreesLog] at ha
        rw [ha]
        intro h
        cases h
      | nofuel => exact absurd hx hq
      | ret c qs =>
        rw [hx] at ha
        obtain ⟨ls2, ha⟩ := ha
        rw [ha]
        intro h
        cases h
    exact ⟨hne, read_ctx_stable gw F n b _ hne⟩
  · intro hrep hf
    have hq := askedCtx_represents gw _ _ _ fuel n t hrep hf
    have ha := agreesLog_ctx gw g fuel n isbase ls log
    rw [hq] at ha
    exact ha
  · intro htag hconf hkids hna
    have hq := askedCtx_diverges gw _ _ _ htag hconf hkids fuel n hna
    have ha := agreesLog_ctx gw g fuel n isbase ls log
    rw [hq] at ha
    exact ha

/-- C23, witness: in the scenario database the root context 1 is accessible
(its only child 2 has no child rows), the budget 2 is above the depth of the
scenario tree and the call dispatches the six queries of the contexts 1 and 2;
in the database `loopGw`, where the row of context 2 is its own parent, the
root is not accessible and the call with budget 7 runs out of it. -/
theorem descent_terminates_witness :
    (∃ F, ∀ (b : Bool) (ls1 : List (List Char)) (log1 : List Query),
        sqlconf_read_ctx scenarioGw F 1 b ⟨withLines scenarioGlobals ls1, log1⟩ ≠ .nofuel
        ∧ ∀ f, F ≤ f → sqlconf_read_ctx scenarioGw f 1 b ⟨withLines scenarioGlobals ls1, log1⟩
            = sqlconf_read_ctx scenarioGw F 1 b ⟨withLines scenarioGlobals ls1, log1⟩)
    ∧ (treeQueries scenarioGlobals.sqlconf_ctxs scenarioGlobals.sqlconf_confs
        scenarioGlobals.sqlconf_maps 1 scenarioTree).map Query.text
      = [some "id = 1".toList, scenarioConfQuery 1, some "parent_id = 1".toList,
          some "id = 2".toList, scenarioConfQuery 2, some "parent_id = 2".toList]
    ∧ (∃ ls2, sqlconf_read_ctx scenarioGw 2 1 true ⟨withLines scenarioGlobals [], []⟩
        = .ret 0 ⟨withLines scenarioGlobals ls2,
            [] ++ treeQueries scenarioGlobals.sqlconf_ctxs scenarioGlobals.sqlconf_confs
              scenarioGlobals.sqlconf_maps 1 scenarioTree⟩)
    ∧ isChildRow loopGw scenarioGlobals.sqlconf_ctxs 2 2 = true
    ∧ sqlconf_read_ctx loopGw 7 1 true ⟨withLines scenarioGlobals [], []⟩ = .nofuel :=
  ⟨(descent_terminates scenarioGw scenarioGlobals 1 scenarioTree 2 true [] []).1 scenario_acc,
    by decide,
    (descent_terminates scenarioGw scenarioGlobals 1 scenarioTree 2 true [] []).2.1
      (by decide) (by decide),
    by decide,
    (descent_terminates loopGw scenarioGlobals 1 scenarioTree 7 true [] []).2.2
      loopGw_tag loopGw_conf loopGw_kids loopGw_not_acc⟩

/-- C24. The mapping where-clause has no effect: for every gateway, recursion
budget, module state `g` and query log, replacing the where-clause of the
mapping record by any `w` changes nothing in the run of `sqlconf_read_db` but
that field of the final state: the run ends the same way (return code, fault or
budget), with the same sequence of dispatched commands and the same line
array. -/
theorem map_where_has_no_effect (gw : Gateway) (fuel : Nat) (g : Globals) (log : List Query)
    (w : CStr) :
    sqlconf_read_db gw fuel
        ⟨{ g with sqlconf_maps := { g.sqlconf_maps with «where» := w } }, log⟩
      = (sqlconf_read_db gw fuel ⟨g, log⟩).map (withMapWhere w)
    ∧ (sqlconf_read_db gw fuel
        ⟨{ g with sqlconf_maps := { g.sqlconf_maps with «where» := w } }, log⟩).code?
      = (sqlconf_read_db gw fuel ⟨g, log⟩).code?
    ∧ (sqlconf_read_db gw fuel
        ⟨{ g with sqlconf_maps := { g.sqlconf_maps with «where» := w } }, log⟩).state?.map
          (fun s => (s.log, s.g.sqlconf_conf))
      = (sqlconf_read_db gw fuel ⟨g, log⟩).state?.map (fun s => (s.log, s.g.sqlconf_conf)) := by
  have e := read_db_mapWhere gw w fuel ⟨g, log⟩
  have e2 : sqlconf_read_db gw fuel
      ⟨{ g with sqlconf_maps := { g.sqlconf_maps with «where» := w } }, log⟩
      = (sqlconf_read_db gw fuel ⟨g, log⟩).map (withMapWhere w) := e
  rw [e2]
  refine ⟨rfl, ?_, ?_⟩ <;> cases sqlconf_read_db gw fuel ⟨g, log⟩ <;> rfl

end ModConfSql
